import Mathlib

/-!
# MemoryManager: a shallow embedding of `CManagedHeap`

The embedding follows `src/MemoryManager/CManagedHeap.{h,cpp}` function by function.

Conventions of the embedding:

* The source casts pointers to `u32` (`CalculateAlignmentDelta`), so the target is a 32-bit
  platform: pointers and `u32` values are natural numbers below `2 ^ 32`, and every arithmetic
  operation of the source is followed by an explicit `% 4294967296`.
* `SBlockHeader` is laid out as `m_pSMemBlockNext` at offset 0, `m_uBlockSize` at 4,
  `m_bIsFreeBlock` at 8 (one byte, three bytes of padding), `m_LeftPadding` at 12 and
  `m_RightPadding` at 16, `sizeof(SBlockHeader) = 20`. `SFooterBlock` has `m_pMatchingHeader` at
  offset 0 and `m_uSizeOfBlock` at 4, `sizeof(SFooterBlock) = 8`. `_PLATFORM_MIN_ALIGN = 4`.
* Headers and footers live in the managed bytes themselves, so the state carries the process
  memory as a map from addresses to bytes (`ram`), little endian.
* A read or a write of an address outside the addressable range `[ramLo, ramHi)` (in particular
  through a null pointer) is undefined behaviour in the source; the embedding reports it as
  `Fault.accessViolation`. Loops take a fuel argument and report `Fault.outOfFuel` when it runs
  out.
* `TIDYDATA` is defined in `CManagedHeap.h`, so the `memset` calls of `MergeWithNearbyBlocks` are
  part of the embedding.
-/

namespace MemoryManager

/-! ## Machine arithmetic -/

/-- Addition of two `u32` values. -/
def add32 (a b : Nat) : Nat := (a + b) % 4294967296

/-- Subtraction of two `u32` values. -/
def sub32 (a b : Nat) : Nat := (a + (4294967296 - b % 4294967296)) % 4294967296

/-- Pointer plus byte offset, on 32-bit addresses. -/
def ptrAdd (p n : Nat) : Nat := (p + n) % 4294967296

/-- Pointer minus byte offset, on 32-bit addresses. -/
def ptrSub (p n : Nat) : Nat := (p + (4294967296 - n % 4294967296)) % 4294967296

/-- Difference of two pointers, converted to `u32`. -/
def ptrDiff (p q : Nat) : Nat := (p + (4294967296 - q % 4294967296)) % 4294967296

/-- Bitwise complement of a `u32` value. -/
def not32 (a : Nat) : Nat := 4294967295 - a % 4294967296

/-- Value of `sizeof(SBlockHeader)`. -/
def sizeofSBlockHeader : Nat := 20

/-- Value of `sizeof(SFooterBlock)`. -/
def sizeofSFooterBlock : Nat := 8

/-- Value of `_PLATFORM_MIN_ALIGN`, which is `sizeof(u32)`. -/
def PLATFORM_MIN_ALIGN : Nat := 4

/-! ## State -/

/-- The enum `CManagedHeap::EHeapState`. -/
inductive EHeapState where
  | EHeapError_Ok
  | EHeapState_Init_NotInitialised
  | EHeapState_Init_UnableToAquireMemory
  | EHeapState_Init_BadAlign
  | EHeapState_Init_AlreadyInitialised
  | EHeapState_Alloc_ZeroSizeAlloc
  | EHeapState_Alloc_BadAlign
  | EHeapState_Alloc_NoLargeEnoughBlocks
  | EHeapState_Dealloc_Nullptr
  | EHeapState_Dealloc_AlreadyDeallocated
  | EHeapState_Dealloc_OverwriteUnderrun
  | EHeapState_Dealloc_OverwriteOverrun
  deriving DecidableEq, Repr

/-- Ways in which a run of the source leaves defined behaviour. -/
inductive Fault where
  | accessViolation
  | outOfFuel
  deriving DecidableEq, Repr

/-- The member variables of `CManagedHeap`, together with the process memory they point into:
`ram` maps an address to its byte, `[ramLo, ramHi)` is the addressable range, and `released` logs
the pointers handed to `free`. -/
structure CManagedHeap where
  m_bSelfAllocatedMemory : Bool
  m_pMemory : Nat
  m_uMemorySize : Nat
  m_uFreeSpace : Nat
  m_uActualFreeSpace : Nat
  m_uNumAllocations : Nat
  m_pBlock : Nat
  m_ELastHeapError : EHeapState
  ram : Nat → Nat
  ramLo : Nat
  ramHi : Nat
  released : List Nat

/-! ## Memory access -/

/-- One byte of memory. -/
def read8 (ram : Nat → Nat) (a : Nat) : Nat := ram a % 256

/-- A little-endian 32-bit word of memory. -/
def read32 (ram : Nat → Nat) (a : Nat) : Nat :=
  read8 ram a + 256 * read8 ram (a + 1) + 65536 * read8 ram (a + 2) + 16777216 * read8 ram (a + 3)

/-- Memory after a one-byte store. -/
def write8 (ram : Nat → Nat) (a v : Nat) : Nat → Nat :=
  fun x => if x = a then v % 256 else ram x

/-- Memory after a little-endian 32-bit store. -/
def write32 (ram : Nat → Nat) (a v : Nat) : Nat → Nat :=
  fun x =>
    if x = a then v % 256
    else if x = a + 1 then v / 256 % 256
    else if x = a + 2 then v / 65536 % 256
    else if x = a + 3 then v / 16777216 % 256
    else ram x

/-- Memory after `memset(a, v, n)`. -/
def fill (ram : Nat → Nat) (a n v : Nat) : Nat → Nat :=
  fun x => if a ≤ x ∧ x < a + n then v % 256 else ram x

/-- Checked 32-bit load. -/
def load32 (s : CManagedHeap) (a : Nat) : Except Fault Nat :=
  if s.ramLo ≤ a ∧ a + 4 ≤ s.ramHi then .ok (read32 s.ram a) else .error .accessViolation

/-- Checked 32-bit store. -/
def store32 (s : CManagedHeap) (a v : Nat) : Except Fault CManagedHeap :=
  if s.ramLo ≤ a ∧ a + 4 ≤ s.ramHi then .ok { s with ram := write32 s.ram a v }
  else .error .accessViolation

/-- Checked load of a `bool`: any non-zero byte reads as `true`. -/
def loadBool (s : CManagedHeap) (a : Nat) : Except Fault Bool :=
  if s.ramLo ≤ a ∧ a + 1 ≤ s.ramHi then .ok (read8 s.ram a != 0) else .error .accessViolation

/-- Checked store of a `bool`. -/
def storeBool (s : CManagedHeap) (a : Nat) (b : Bool) : Except Fault CManagedHeap :=
  if s.ramLo ≤ a ∧ a + 1 ≤ s.ramHi then .ok { s with ram := write8 s.ram a (if b then 1 else 0) }
  else .error .accessViolation

/-- Checked `memset`; a length of zero touches nothing. -/
def memset (s : CManagedHeap) (a v n : Nat) : Except Fault CManagedHeap :=
  if n = 0 then .ok s
  else if s.ramLo ≤ a ∧ a + n ≤ s.ramHi then .ok { s with ram := fill s.ram a n v }
  else .error .accessViolation

/-! ## The source functions -/

/-- The constructor `CManagedHeap::CManagedHeap()`: only three members are initialised, the others
keep whatever the storage held (`junk`). -/
def construct (junk : CManagedHeap) : CManagedHeap :=
  { junk with m_pMemory := 0, m_ELastHeapError := .EHeapError_Ok, m_bSelfAllocatedMemory := false }

/-- `CManagedHeap::IsAligned`. -/
def IsAligned (pRawMemory : Nat) : Bool := pRawMemory % PLATFORM_MIN_ALIGN == 0

/-- `CManagedHeap::IsPowerOfTwo`. -/
def IsPowerOfTwo (uNumberToTest : Nat) : Bool :=
  let isNonZero := uNumberToTest != 0
  let isPow2 := (uNumberToTest &&& sub32 uNumberToTest 1) == 0
  isNonZero && isPow2

/-- `CManagedHeap::CalculateAlignmentDelta`. -/
def CalculateAlignmentDelta (pPointerToAlign uAlignment : Nat) : Nat :=
  let uAlignAdd := sub32 uAlignment 1
  let uAlignMask := not32 uAlignAdd
  let uAddressToAlign := pPointerToAlign
  let uAligned := add32 uAddressToAlign uAlignAdd
  let uAligned := uAligned &&& uAlignMask
  sub32 uAligned uAddressToAlign

/-- `CManagedHeap::GetFooter`. -/
def GetFooter (s : CManagedHeap) (headerBlock : Nat) : Except Fault Nat := do
  let pData := ptrAdd headerBlock sizeofSBlockHeader
  let uBlockSize ← load32 s (headerBlock + 4)
  pure (ptrAdd pData uBlockSize)

/-- `CManagedHeap::WriteFooter`. -/
def WriteFooter (s : CManagedHeap) (headerBlock : Nat) : Except Fault (CManagedHeap × Nat) := do
  let pFooterLocation ← GetFooter s headerBlock
  let uBlockSize ← load32 s (headerBlock + 4)
  let s ← store32 s (pFooterLocation + 4) uBlockSize
  let s ← store32 s pFooterLocation headerBlock
  pure (s, pFooterLocation)

/-- `CManagedHeap::GetPreviousHeader`. -/
def GetPreviousHeader (s : CManagedHeap) (headerBlock : Nat) : Except Fault Nat := do
  if headerBlock != s.m_pBlock then
    let uLeftPadding ← load32 s (headerBlock + 12)
    let pData := ptrSub headerBlock uLeftPadding
    let pData := ptrSub pData sizeofSFooterBlock
    load32 s pData
  else
    pure 0

/-- `CManagedHeap::EncapsulateMemoryBlock`. -/
def EncapsulateMemoryBlock (s : CManagedHeap) (pRawMemory uSizeOfBlock : Nat) :
    Except Fault (CManagedHeap × Nat) := do
  let pHeader := pRawMemory
  let s ← storeBool s (pHeader + 8) true
  let s ← store32 s pHeader 0
  let s ← store32 s (pHeader + 4) (sub32 uSizeOfBlock (sizeofSBlockHeader + sizeofSFooterBlock))
  let s ← store32 s (pHeader + 12) 0
  let s ← store32 s (pHeader + 16) 0
  let (s, _) ← WriteFooter s pHeader
  let uOverhead := sizeofSBlockHeader + sizeofSFooterBlock
  let s := { s with m_uActualFreeSpace := sub32 s.m_uActualFreeSpace uOverhead }
  pure (s, pHeader)

/-- `CManagedHeap::IsBlockViable`. -/
def IsBlockViable (s : CManagedHeap) (pBlockToCheck uSizeOfBlockToFind uAlignment : Nat) :
    Except Fault Bool := do
  let bIsFreeBlock ← loadBool s (pBlockToCheck + 8)
  if !bIsFreeBlock then
    pure false
  else
    let uLeftPadding ← load32 s (pBlockToCheck + 12)
    let pMemoryAllocationStart := ptrSub pBlockToCheck uLeftPadding
    let pMemoryAllocationStart := ptrAdd pMemoryAllocationStart sizeofSBlockHeader
    let paddingRequired := CalculateAlignmentDelta pMemoryAllocationStart uAlignment
    let uTotalSizeRequired := add32 paddingRequired uSizeOfBlockToFind
    let uBlockSize ← load32 s (pBlockToCheck + 4)
    let uRightPadding ← load32 s (pBlockToCheck + 16)
    if uTotalSizeRequired > add32 uBlockSize uRightPadding then
      pure false
    else
      pure true

/-- The `do ... while` loop of `CManagedHeap::FindFreeBlock`, started at `pBlockToCheck`. -/
def FindFreeBlockLoop (s : CManagedHeap) (uSizeOfBlockToFind uAlignment : Nat) :
    Nat → Nat → Except Fault Nat
  | 0, _ => .error .outOfFuel
  | fuel + 1, pBlockToCheck => do
    if ← IsBlockViable s pBlockToCheck uSizeOfBlockToFind uAlignment then
      pure pBlockToCheck
    else
      let pNext ← load32 s pBlockToCheck
      if pNext != 0 then
        FindFreeBlockLoop s uSizeOfBlockToFind uAlignment fuel pNext
      else
        pure 0

/-- `CManagedHeap::FindFreeBlock`. -/
def FindFreeBlock (fuel : Nat) (s : CManagedHeap) (uSizeOfBlockToFind uAlignment : Nat) :
    Except Fault (CManagedHeap × Nat) := do
  let pFound ← FindFreeBlockLoop s uSizeOfBlockToFind uAlignment fuel s.m_pBlock
  if pFound != 0 then
    pure (s, pFound)
  else
    pure ({ s with m_ELastHeapError := .EHeapState_Alloc_NoLargeEnoughBlocks }, 0)

/-- Value-initialisation `new (p) SBlockHeader()`: the twenty bytes are zeroed. -/
def zeroHeader (s : CManagedHeap) (p : Nat) : Except Fault CManagedHeap := do
  let s ← store32 s p 0
  let s ← store32 s (p + 4) 0
  let s ← store32 s (p + 8) 0
  let s ← store32 s (p + 12) 0
  store32 s (p + 16) 0

/-- `CManagedHeap::AdjustBlockPositionForPadding`; the updated `pBlockToAllocateTo` is returned. -/
def AdjustBlockPositionForPadding (s : CManagedHeap) (uAlignment pBlockToAllocateTo : Nat) :
    Except Fault (CManagedHeap × Nat) := do
  let pPreviousBlock ← GetPreviousHeader s pBlockToAllocateTo
  if pPreviousBlock != 0 then
    let pFooterPos ← GetFooter s pPreviousBlock
    let pFooterPos := ptrAdd pFooterPos sizeofSFooterBlock
    let pFooterPos := ptrAdd pFooterPos sizeofSBlockHeader
    let pMemoryStart := pFooterPos
    let uPadding := CalculateAlignmentDelta pMemoryStart uAlignment
    let pMemoryStart := ptrAdd pMemoryStart uPadding
    let pHeaderStart := ptrSub pMemoryStart sizeofSBlockHeader
    let pNextBlock ← load32 s pBlockToAllocateTo
    let s ← zeroHeader s pHeaderStart
    let pBlockToAllocateTo := pHeaderStart
    let s ← store32 s pBlockToAllocateTo pNextBlock
    let s ← store32 s (pBlockToAllocateTo + 12) uPadding
    let s ← store32 s pPreviousBlock pBlockToAllocateTo
    let uLeftPadding ← load32 s (pBlockToAllocateTo + 12)
    let s ← store32 s (pPreviousBlock + 16) uLeftPadding
    pure (s, pBlockToAllocateTo)
  else
    let pMemoryStart := ptrAdd s.m_pMemory sizeofSBlockHeader
    let uPadding := CalculateAlignmentDelta pMemoryStart uAlignment
    let pMemoryStart := ptrAdd pMemoryStart uPadding
    let pHeaderStart := ptrSub pMemoryStart sizeofSBlockHeader
    let pNextBlock ← load32 s pBlockToAllocateTo
    let s ← zeroHeader s pHeaderStart
    let pBlockToAllocateTo := pHeaderStart
    let s ← store32 s pBlockToAllocateTo pNextBlock
    let s ← store32 s (pBlockToAllocateTo + 12) uPadding
    let s := { s with m_pBlock := pBlockToAllocateTo }
    pure (s, pBlockToAllocateTo)

/-- `CManagedHeap::ManageFreeSpacePostAllocation`. -/
def ManageFreeSpacePostAllocation (s : CManagedHeap) (pBlockToAllocateTo uNumBytes : Nat) :
    Except Fault CManagedHeap := do
  let pNewBlockPointer := ptrAdd pBlockToAllocateTo sizeofSBlockHeader
  let pNewBlockPointer := ptrAdd pNewBlockPointer uNumBytes
  let pNewBlockPointer := ptrAdd pNewBlockPointer sizeofSFooterBlock
  let pNext ← load32 s pBlockToAllocateTo
  let sizeOfFreespace :=
    if pNext != 0 then ptrDiff pNext pNewBlockPointer
    else ptrDiff (ptrAdd s.m_pMemory s.m_uMemorySize) pNewBlockPointer
  if sizeOfFreespace < sizeofSBlockHeader + sizeofSFooterBlock + PLATFORM_MIN_ALIGN then
    let s ← store32 s (pBlockToAllocateTo + 16) sizeOfFreespace
    let pNext ← load32 s pBlockToAllocateTo
    store32 s (pNext + 12) sizeOfFreespace
  else
    let (s, pNewBlock) ← EncapsulateMemoryBlock s pNewBlockPointer sizeOfFreespace
    let pNext ← load32 s pBlockToAllocateTo
    let s ← store32 s pNewBlock pNext
    let pNewNext ← load32 s pNewBlock
    let s ← if pNewNext != 0 then store32 s (pNewNext + 12) 0 else pure s
    let s ← store32 s pBlockToAllocateTo pNewBlock
    store32 s (pBlockToAllocateTo + 16) 0

/-- The section `//Merge forwards` of `CManagedHeap::MergeWithNearbyBlocks`; returns the state,
`bCanMerge` and `pMergeEndPoint`. -/
def MergeForwards (s : CManagedHeap) (pHeader pMergeEndPoint : Nat) (bCanMerge : Bool) :
    Except Fault (CManagedHeap × Bool × Nat) := do
  let pNext ← load32 s pHeader
  let bNextFree ← loadBool s (pNext + 8)
  if bNextFree then
    let pNextFooter ← GetFooter s pNext
    let uNextRightPadding ← load32 s (pNext + 16)
    let pMergeEndPoint := ptrAdd (ptrAdd pNextFooter sizeofSFooterBlock) uNextRightPadding
    let pNextNext ← load32 s pNext
    let s ← store32 s pHeader pNextNext
    let pNext ← load32 s pHeader
    let s ← if pNext != 0 then store32 s (pNext + 12) 0 else pure s
    let uOverhead := sizeofSBlockHeader + sizeofSFooterBlock
    let s := { s with m_uActualFreeSpace := add32 s.m_uActualFreeSpace uOverhead }
    pure (s, true, pMergeEndPoint)
  else
    pure (s, bCanMerge, pMergeEndPoint)

/-- The section `//Merge backwards` of `CManagedHeap::MergeWithNearbyBlocks`; returns the state,
`bCanMerge`, `pMergeStartPoint`, `pPrevHeader` and `pNextBlock`. -/
def MergeBackwards (s : CManagedHeap) (pHeader pMergeStartPoint : Nat) (bCanMerge : Bool) :
    Except Fault (CManagedHeap × Bool × Nat × Nat × Nat) := do
  let pPrevHeader ← GetPreviousHeader s pHeader
  let pNextBlock ← load32 s pHeader
  let bPrevFree ← if pPrevHeader != 0 then loadBool s (pPrevHeader + 8) else pure false
  if pPrevHeader != 0 && bPrevFree then
    let pMergeStartPoint := pPrevHeader
    let uOverhead := sizeofSBlockHeader + sizeofSFooterBlock
    let s := { s with m_uActualFreeSpace := add32 s.m_uActualFreeSpace uOverhead }
    let uPrevLeftPadding ← load32 s (pPrevHeader + 12)
    let s ← store32 s (pHeader + 12) uPrevLeftPadding
    let pPrevHeader ← GetPreviousHeader s pPrevHeader
    pure (s, true, pMergeStartPoint, pPrevHeader, pNextBlock)
  else
    pure (s, bCanMerge, pMergeStartPoint, pPrevHeader, pNextBlock)

/-- The section `//If we determined we can merge, merge blocks` of
`CManagedHeap::MergeWithNearbyBlocks`, with the `memset` calls that `TIDYDATA` enables. -/
def MergeBlocks (s : CManagedHeap) (bCanMerge : Bool)
    (pMergeStartPoint pMergeEndPoint pPrevHeader pNextBlock : Nat) :
    Except Fault CManagedHeap := do
  if bCanMerge then
    let (s, newBlock) ← EncapsulateMemoryBlock s pMergeStartPoint
      (ptrDiff pMergeEndPoint pMergeStartPoint)
    let s ← store32 s newBlock pNextBlock
    let s ←
      if pPrevHeader == 0 then
        pure { s with m_pBlock := newBlock }
      else do
        let s ← store32 s pPrevHeader newBlock
        let _ ← GetFooter s newBlock
        pure s
    let pMemoryBlock := ptrAdd newBlock sizeofSBlockHeader
    let uBlockSize ← load32 s (newBlock + 4)
    memset s pMemoryBlock 48 uBlockSize
  else
    let pMemoryBlock := ptrAdd pMergeStartPoint sizeofSBlockHeader
    let uBlockSize ← load32 s (pMergeStartPoint + 4)
    memset s pMemoryBlock 48 uBlockSize

/-- `CManagedHeap::MergeWithNearbyBlocks`, section by section: merge forwards, merge backwards,
merge in padding (the amount is cast to `u8`), merge the blocks. -/
def MergeWithNearbyBlocks (s : CManagedHeap) (pMergeStartPoint pMergeEndPoint : Nat) :
    Except Fault CManagedHeap := do
  let bCanMerge := false
  let pHeader := pMergeStartPoint
  let (s, bCanMerge, pMergeEndPoint) ← MergeForwards s pHeader pMergeEndPoint bCanMerge
  let (s, bCanMerge, pMergeStartPoint, pPrevHeader, pNextBlock) ←
    MergeBackwards s pHeader pMergeStartPoint bCanMerge
  let uLeftPadding ← load32 s (pHeader + 12)
  let (bCanMerge, pMergeStartPoint) :=
    if uLeftPadding != 0 then (true, ptrSub pMergeStartPoint (uLeftPadding % 256))
    else (bCanMerge, pMergeStartPoint)
  MergeBlocks s bCanMerge pMergeStartPoint pMergeEndPoint pPrevHeader pNextBlock

/-- `CManagedHeap::Initialise(u8*, u32)`. -/
def Initialise (s : CManagedHeap) (pRawMemory uMemorySizeInBytes : Nat) :
    Except Fault CManagedHeap := do
  if s.m_pMemory != 0 then
    pure { s with m_ELastHeapError := .EHeapState_Init_AlreadyInitialised }
  else if pRawMemory == 0 then
    pure { s with m_ELastHeapError := .EHeapState_Init_UnableToAquireMemory }
  else if !IsAligned pRawMemory then
    pure { s with m_ELastHeapError := .EHeapState_Init_BadAlign }
  else
    let s := { s with m_pMemory := pRawMemory, m_uMemorySize := uMemorySizeInBytes }
    let s := { s with m_uFreeSpace := uMemorySizeInBytes }
    let s := { s with m_uActualFreeSpace := uMemorySizeInBytes }
    let s := { s with m_uNumAllocations := 0 }
    let (s, pBlock) ← EncapsulateMemoryBlock s s.m_pMemory s.m_uMemorySize
    let s := { s with m_pBlock := pBlock }
    pure { s with m_ELastHeapError := .EHeapError_Ok }

/-- `CManagedHeap::Initialise(u32)`; `pRawMemory` is what `malloc` returned (zero when it
failed). -/
def InitialiseMalloc (s : CManagedHeap) (pRawMemory uMemorySizeInBytes : Nat) :
    Except Fault CManagedHeap := do
  if pRawMemory != 0 then
    let s := { s with m_bSelfAllocatedMemory := true }
    let s ← Initialise s pRawMemory uMemorySizeInBytes
    if s.m_ELastHeapError != .EHeapError_Ok then
      pure { s with released := pRawMemory :: s.released }
    else
      pure s
  else
    pure { s with m_ELastHeapError := .EHeapState_Init_UnableToAquireMemory }

/-- `CManagedHeap::Shutdown`. -/
def Shutdown (s : CManagedHeap) : CManagedHeap :=
  let s := if s.m_bSelfAllocatedMemory then { s with released := s.m_pMemory :: s.released } else s
  { s with m_pMemory := 0 }

/-- `CManagedHeap::Allocate`; the null pointer is `0`. -/
def Allocate (fuel : Nat) (s : CManagedHeap) (uNumBytes uAlignment : Nat) :
    Except Fault (CManagedHeap × Nat) := do
  let s := { s with m_ELastHeapError := .EHeapError_Ok }
  if s.m_pMemory == 0 then
    pure ({ s with m_ELastHeapError := .EHeapState_Init_NotInitialised }, 0)
  else if !IsPowerOfTwo uAlignment || uAlignment < PLATFORM_MIN_ALIGN then
    pure ({ s with m_ELastHeapError := .EHeapState_Alloc_BadAlign }, 0)
  else if uNumBytes == 0 then
    pure ({ s with m_ELastHeapError := .EHeapState_Alloc_ZeroSizeAlloc }, 0)
  else
    let uNumBytes :=
      if uNumBytes % 4 != 0 then add32 uNumBytes (4 - uNumBytes % 4) else uNumBytes
    let (s, pBlockToAllocateTo) ← FindFreeBlock fuel s uNumBytes uAlignment
    if pBlockToAllocateTo == 0 then
      pure ({ s with m_ELastHeapError := .EHeapState_Alloc_NoLargeEnoughBlocks }, 0)
    else
      let (s, pBlockToAllocateTo) ← AdjustBlockPositionForPadding s uAlignment pBlockToAllocateTo
      let s ← ManageFreeSpacePostAllocation s pBlockToAllocateTo uNumBytes
      let s ← storeBool s (pBlockToAllocateTo + 8) false
      let s ← store32 s (pBlockToAllocateTo + 4) uNumBytes
      let s := { s with m_uActualFreeSpace := sub32 s.m_uActualFreeSpace uNumBytes }
      let s := { s with m_uFreeSpace := sub32 s.m_uFreeSpace uNumBytes }
      let (s, _) ← WriteFooter s pBlockToAllocateTo
      let returnptr := ptrAdd pBlockToAllocateTo sizeofSBlockHeader
      let s := { s with m_uNumAllocations := add32 s.m_uNumAllocations 1 }
      pure (s, returnptr)

/-- `CManagedHeap::Deallocate`. -/
def Deallocate (s : CManagedHeap) (pMemory : Nat) : Except Fault CManagedHeap := do
  let s := { s with m_ELastHeapError := .EHeapError_Ok }
  if pMemory == 0 then
    pure { s with m_ELastHeapError := .EHeapState_Dealloc_Nullptr }
  else
    let pHeader := ptrSub pMemory sizeofSBlockHeader
    let bIsFreeBlock ← loadBool s (pHeader + 8)
    if bIsFreeBlock then
      pure { s with m_ELastHeapError := .EHeapState_Dealloc_AlreadyDeallocated }
    else
      let s ← storeBool s (pHeader + 8) true
      let s := { s with m_uNumAllocations := sub32 s.m_uNumAllocations 1 }
      let uBlockSize ← load32 s (pHeader + 4)
      let s := { s with m_uFreeSpace := add32 s.m_uFreeSpace uBlockSize }
      let s := { s with m_uActualFreeSpace := add32 s.m_uActualFreeSpace uBlockSize }
      let uRightPadding ← load32 s (pHeader + 16)
      let pNext ← load32 s pHeader
      let uNextLeftPadding ← load32 s (pNext + 12)
      let s := { s with m_ELastHeapError :=
        if uRightPadding != uNextLeftPadding then .EHeapState_Dealloc_OverwriteUnderrun
        else s.m_ELastHeapError }
      let pFooter ← GetFooter s pHeader
      let pMatchingHeader ← load32 s pFooter
      let s := { s with m_ELastHeapError :=
        if pMatchingHeader != pHeader then .EHeapState_Dealloc_OverwriteOverrun
        else s.m_ELastHeapError }
      let pStartOfBlockToMerge := pHeader
      let pFooter ← GetFooter s pHeader
      let pEndOfBlockToMerge := ptrAdd pFooter sizeofSFooterBlock
      MergeWithNearbyBlocks s pStartOfBlockToMerge pEndOfBlockToMerge

/-- `CManagedHeap::GetFreeMemory`. -/
def GetFreeMemory (s : CManagedHeap) : Nat :=
  if s.m_uNumAllocations != 0 then s.m_uActualFreeSpace else s.m_uFreeSpace

/-- `CManagedHeap::GetNumAllocs`. -/
def GetNumAllocs (s : CManagedHeap) : Nat := s.m_uNumAllocations

/-- `CManagedHeap::GetLastError`. -/
def GetLastError (s : CManagedHeap) : EHeapState := s.m_ELastHeapError

/-! ## Observations -/

/-- The fields of `struct SBlockHeader`. -/
structure SBlockHeader where
  m_pSMemBlockNext : Nat
  m_uBlockSize : Nat
  m_bIsFreeBlock : Bool
  m_LeftPadding : Nat
  m_RightPadding : Nat
  deriving DecidableEq, Repr

/-- The fields of `struct SFooterBlock`. -/
structure SFooterBlock where
  m_pMatchingHeader : Nat
  m_uSizeOfBlock : Nat
  deriving DecidableEq, Repr

/-- The `SBlockHeader` stored at address `p`. -/
def headerAt (ram : Nat → Nat) (p : Nat) : SBlockHeader :=
  { m_pSMemBlockNext := read32 ram p
    m_uBlockSize := read32 ram (p + 4)
    m_bIsFreeBlock := read8 ram (p + 8) != 0
    m_LeftPadding := read32 ram (p + 12)
    m_RightPadding := read32 ram (p + 16) }

/-- The `SFooterBlock` stored at address `p`. -/
def footerAt (ram : Nat → Nat) (p : Nat) : SFooterBlock :=
  { m_pMatchingHeader := read32 ram p
    m_uSizeOfBlock := read32 ram (p + 4) }

/-- An object as the constructor leaves it, over zeroed memory addressable on `[lo, hi)`. -/
def newHeap (lo hi : Nat) : CManagedHeap :=
  construct {
    m_bSelfAllocatedMemory := false
    m_pMemory := 0
    m_uMemorySize := 0
    m_uFreeSpace := 0
    m_uActualFreeSpace := 0
    m_uNumAllocations := 0
    m_pBlock := 0
    m_ELastHeapError := .EHeapError_Ok
    ram := fun _ => 0
    ramLo := lo
    ramHi := hi
    released := [] }

/-- Test of a result: the run ended without a fault in a state satisfying `P`. -/
def endsWith {α : Type} (r : Except Fault α) (P : α → Bool) : Bool :=
  match r with
  | .ok a => P a
  | .error _ => false

/-- Test of a result: the run left defined behaviour by touching unaddressable memory. -/
def faults {α : Type} (r : Except Fault α) : Bool :=
  match r with
  | .error .accessViolation => true
  | _ => false

/-- A freshly initialised 1024-byte region: the caller-supplied buffer is `[4096, 5120)`, and
nothing else is addressable. -/
def freshHeap : Except Fault CManagedHeap :=
  Initialise (newHeap 4096 5120) 4096 1024

/-- The same region inside a larger addressable range `[20, 8192)`. -/
def freshHeapWide : Except Fault CManagedHeap :=
  Initialise (newHeap 20 8192) 4096 1024

/-- Allocate once on `freshHeap`, then deallocate the returned pointer twice; the result pairs the
state after the first `Deallocate` with the result of the second. -/
def doubleFree (r : Except Fault CManagedHeap) (uNumBytes uAlignment : Nat) :
    Except Fault (CManagedHeap × Nat × Except Fault CManagedHeap) := do
  let s ← r
  let (s, p) ← Allocate 10 s uNumBytes uAlignment
  let s ← Deallocate s p
  pure (s, p, Deallocate s p)

/-- The pointer a call returned, when it returned. -/
def returned (r : Except Fault (CManagedHeap × Nat)) : Option Nat :=
  match r with
  | .ok (_, p) => some p
  | .error _ => none

/-- The state a run ended in (a blank object when it faulted). -/
def stateOf (r : Except Fault CManagedHeap) : CManagedHeap :=
  match r with
  | .ok s => s
  | .error _ => newHeap 0 0

/-! ## Predicates used by the proofs -/

/-- A run ends without a fault in a result satisfying `Q`. -/
def Ends {α : Type} (r : Except Fault α) (Q : α → Prop) : Prop :=
  ∃ a, r = .ok a ∧ Q a

/-- The bytes `EncapsulateMemoryBlock(p, n)` leaves in memory when `28 ≤ n`: a free header
without successor or padding at `p` and the matching footer in the last eight bytes. -/
def stampBlock (ram : Nat → Nat) (p n : Nat) : Nat → Nat :=
  write32 (write32 (write32 (write32 (write32 (write32 (write8 ram (p + 8) 1) p 0)
    (p + 4) (n - 28)) (p + 12) 0) (p + 16) 0) (p + n - 8 + 4) (n - 28)) (p + n - 8) p

/-- What `MergeWithNearbyBlocks` meets after a block whose successor is at `nx`: an allocated
successor (`en = nx`), or a free successor `[nx, en)` without padding that is either the last block
or followed by a block at `en`. -/
def ViewR (ram : Nat → Nat) (E nx en : Nat) : Prop :=
  (en = nx ∧ nx + 28 ≤ E ∧ (read8 ram (nx + 8) != 0) = false) ∨
  (nx + 28 ≤ en ∧ en ≤ E ∧ (read8 ram (nx + 8) != 0) = true ∧
    read32 ram (nx + 4) = en - nx - 28 ∧ read32 ram (nx + 16) = 0 ∧
    ((en = E ∧ read32 ram nx = 0) ∨
      (en + 20 ≤ E ∧ read32 ram nx = en ∧ read32 ram (en + 12) = 0)))

/-- What `MergeWithNearbyBlocks` meets before the block at `a`: nothing or an allocated
predecessor (`st = a`), or a free predecessor `[st, a)` without padding that is either the first
block or preceded by a block whose successor it is. -/
def ViewL (ram : Nat → Nat) (base a st : Nat) : Prop :=
  (st = a ∧ (a = base ∨ ∃ ap, base ≤ ap ∧ ap + 28 ≤ a ∧ read32 ram (a - 8) = ap ∧
    (read8 ram (ap + 8) != 0) = false ∧ read32 ram ap = a)) ∨
  (base ≤ st ∧ st + 28 ≤ a ∧ read32 ram (a - 8) = st ∧ (read8 ram (st + 8) != 0) = true ∧
    read32 ram (st + 12) = 0 ∧
    (st = base ∨ ∃ app, base ≤ app ∧ app + 28 ≤ st ∧ read32 ram (st - 8) = app ∧
      read32 ram app = st))

/-- The status `Deallocate` ends with, given the footer back-reference `br` and the right padding
`rp` it reads from the block at `a` and the left padding `lp` it reads from the successor. -/
def checkStatus (a br rp lp : Nat) : EHeapState :=
  if br != a then .EHeapState_Dealloc_OverwriteOverrun
  else if rp != lp then .EHeapState_Dealloc_OverwriteUnderrun
  else .EHeapError_Ok

/-! ## Chains, invariants and runs -/

/-- The bytes a list of blocks covers; a block is its payload size and its free flag. -/
def span : List (Nat × Bool) → Nat
  | [] => 0
  | b :: bs => 28 + b.1 + span bs

/-- A block without padding at `a` in a buffer ending at `E`: payload `n`, free flag `f`, the
successor right behind the footer (null when the block ends the buffer). -/
def Block (ram : Nat → Nat) (E a n : Nat) (f : Bool) : Prop :=
  a + 28 + n ≤ E ∧
  headerAt ram a = ⟨if a + 28 + n = E then 0 else a + 28 + n, n, f, 0, 0⟩ ∧
  footerAt ram (a + 20 + n) = ⟨a, n⟩

/-- Consecutive blocks without padding from `a` on. -/
def Seg (ram : Nat → Nat) (E : Nat) : Nat → List (Nat × Bool) → Prop
  | _, [] => True
  | a, b :: bs => Block ram E a b.1 b.2 ∧ Seg ram E (a + 28 + b.1) bs

/-- The payload addresses of the allocated blocks of a chain starting at `a`. -/
def live : Nat → List (Nat × Bool) → List Nat
  | _, [] => []
  | a, b :: bs => if b.2 then live (a + 28 + b.1) bs else (a + 20) :: live (a + 28 + b.1) bs

/-- The payload bytes of the allocated blocks. -/
def allocSum : List (Nat × Bool) → Nat
  | [] => 0
  | b :: bs => (if b.2 then 0 else b.1) + allocSum bs

/-- No two neighbouring blocks are both free. -/
def NoAdj (bs : List (Nat × Bool)) : Prop :=
  List.Chain' (fun x y => x.2 = false ∨ y.2 = false) bs

/-- The heap object manages exactly the chain `bs`, none of whose blocks has padding. -/
def Inv (s : CManagedHeap) (bs : List (Nat × Bool)) : Prop :=
  20 ≤ s.ramLo ∧ s.ramLo ≤ s.m_pMemory ∧ s.m_pMemory + s.m_uMemorySize ≤ s.ramHi ∧
  s.ramHi < 4294967296 ∧ s.m_pBlock = s.m_pMemory ∧
  Seg s.ram (s.m_pMemory + s.m_uMemorySize) s.m_pMemory bs ∧ span bs = s.m_uMemorySize

/-- The chain ends in a free block. -/
def lastFree (bs : List (Nat × Bool)) : Prop := ∃ l m, bs = l ++ [(m, true)]

/-- Deallocate the pointers of a list, one after the other. -/
def deallocAll (s : CManagedHeap) : List Nat → Except Fault CManagedHeap
  | [] => pure s
  | p :: ps => do
    let s ← Deallocate s p
    deallocAll s ps

/-- The state while the pointers `ps` are still to be deallocated: the chain `bs` has no padding
and no two free neighbours, ends in a free block, its allocated blocks are exactly those of `ps`,
and the counters agree with it. -/
def DInv (s : CManagedHeap) (bs : List (Nat × Bool)) (ps : List Nat) : Prop :=
  Inv s bs ∧ NoAdj bs ∧ lastFree bs ∧ ps.Nodup ∧ (∀ q, q ∈ ps ↔ q ∈ live s.m_pMemory bs) ∧
  s.m_uNumAllocations = ps.length % 4294967296 ∧ s.m_uFreeSpace + allocSum bs = s.m_uMemorySize

/-- The bytes `new (p) SBlockHeader()` leaves in memory: twenty zero bytes. -/
def wipeHeader (ram : Nat → Nat) (p : Nat) : Nat → Nat :=
  write32 (write32 (write32 (write32 (write32 ram p 0) (p + 4) 0) (p + 8) 0) (p + 12) 0) (p + 16) 0

/-- The bytes `Allocate` leaves behind when it carves `n` bytes out of the last block, a free block
of `t` bytes at `a`; `X` is the memory `AdjustBlockPositionForPadding` produced. -/
def allocBytes (X : Nat → Nat) (a n t : Nat) : Nat → Nat :=
  write32 (write32 (write32 (write8 (write32 (write32 (write32
    (stampBlock X (a + 28 + n) (t - n)) (a + 28 + n) 0) a (a + 28 + n)) (a + 16) 0)
    (a + 8) 0) (a + 4) n) (a + 20 + n + 4) n) (a + 20 + n) a

/-- The state while the blocks `as` are allocated out of a fresh region: they are followed by one
free block of `t` bytes, all payload sizes are multiples of four, and the counters agree. -/
def AInv (s : CManagedHeap) (as : List (Nat × Bool)) (t : Nat) : Prop :=
  Inv s (as ++ [(t, true)]) ∧ s.m_pMemory % 4 = 0 ∧ (∀ b ∈ as, b.2 = false ∧ b.1 % 4 = 0) ∧
  s.m_uNumAllocations = as.length % 4294967296 ∧ s.m_uFreeSpace + allocSum as = s.m_uMemorySize

/-- Allocate the sizes of a list at the default alignment, one after the other; the pointers are
returned in the order of the calls. -/
def allocAll (fuel : Nat) (s : CManagedHeap) : List Nat → Except Fault (CManagedHeap × List Nat)
  | [] => pure (s, [])
  | n :: ns => do
    let (s, p) ← Allocate fuel s n PLATFORM_MIN_ALIGN
    let (s, ps) ← allocAll fuel s ns
    pure (s, p :: ps)

/-- Initialise a region and allocate the sizes of a list at the default alignment. -/
def allocated (fuel : Nat) (s : CManagedHeap) (pRawMemory uMemorySizeInBytes : Nat)
    (sizes : List Nat) : Except Fault (CManagedHeap × List Nat) := do
  let s ← Initialise s pRawMemory uMemorySizeInBytes
  allocAll fuel s sizes

/-- Initialise a region, allocate the sizes of a list at the default alignment, then deallocate
the pointers `order`. -/
def roundTrip (fuel : Nat) (s : CManagedHeap) (pRawMemory uMemorySizeInBytes : Nat)
    (sizes order : List Nat) : Except Fault CManagedHeap := do
  let (s, _) ← allocated fuel s pRawMemory uMemorySizeInBytes sizes
  deallocAll s order

instance decBlock (ram : Nat → Nat) (E a n : Nat) (f : Bool) : Decidable (Block ram E a n f) :=
  inferInstanceAs (Decidable (_ ∧ _ ∧ _))

/-- `Seg` can be checked block by block. -/
def decSeg (ram : Nat → Nat) (E : Nat) : ∀ (a : Nat) (bs : List (Nat × Bool)),
    Decidable (Seg ram E a bs)
  | _, [] => isTrue trivial
  | a, b :: bs =>
    match decBlock ram E a b.1 b.2, decSeg ram E (a + 28 + b.1) bs with
    | isTrue h1, isTrue h2 => isTrue ⟨h1, h2⟩
    | isFalse h1, _ => isFalse (fun h => h1 h.1)
    | _, isFalse h2 => isFalse (fun h => h2 h.2)

instance (ram : Nat → Nat) (E a : Nat) (bs : List (Nat × Bool)) : Decidable (Seg ram E a bs) :=
  decSeg ram E a bs

instance (s : CManagedHeap) (bs : List (Nat × Bool)) : Decidable (Inv s bs) :=
  inferInstanceAs (Decidable (_ ∧ _ ∧ _ ∧ _ ∧ _ ∧ _ ∧ _))

/-- The fresh 1024-byte region after one allocation of 100 bytes at the default alignment. -/
def oneBlock : CManagedHeap :=
  stateOf (do
    let s ← freshHeap
    let (s, _) ← Allocate 10 s 100 PLATFORM_MIN_ALIGN
    pure s)

/-- The state `oneBlock` after a write of one byte past the 100 bytes of the payload at 4116: the
byte lands in the footer's `m_pMatchingHeader`. -/
def oneBlockOverrun : CManagedHeap :=
  { oneBlock with ram := write8 oneBlock.ram 4216 72 }

/-! ## Further runs -/

/-- On the fresh 1024-byte region: `Allocate(100)`, `Shutdown`, then `Deallocate` of the pointer;
the states after the three calls. -/
def deallocAfterShutdown : Except Fault (CManagedHeap × CManagedHeap × CManagedHeap) := do
  let s ← freshHeap
  let (s, p) ← Allocate 10 s 100 PLATFORM_MIN_ALIGN
  let s1 := Shutdown s
  let s2 ← Deallocate s1 p
  pure (s, s1, s2)

/-- On the fresh 1024-byte region: `Allocate(0)`, which fails, then `Shutdown`. -/
def shutdownAfterError : Except Fault CManagedHeap := do
  let s ← freshHeap
  let (s, _) ← Allocate 10 s 0 PLATFORM_MIN_ALIGN
  pure (Shutdown s)

/-- The call `Initialise(1024)` with `malloc` returning 4096, `Shutdown`, then
`Initialise(6144, 1024)` on a buffer of the caller, `Shutdown`. -/
def supplyAfterMalloc : Except Fault CManagedHeap := do
  let s ← InitialiseMalloc (newHeap 4096 8192) 4096 1024
  let s := Shutdown s
  let s ← Initialise s 6144 1024
  pure (Shutdown s)

/-- The call `Initialise(6144, 1024)` on a buffer of the caller, then `Initialise(1024)` with
`malloc` returning 4096 (it fails: already initialised), then `Shutdown`. -/
def mallocAfterSupply : Except Fault CManagedHeap := do
  let s ← Initialise (newHeap 4096 8192) 6144 1024
  let s ← InitialiseMalloc s 4096 1024
  pure (Shutdown s)

/-- A 4096-byte region at 4096: `Allocate(100, 512)`, then `Deallocate` of the pointer; the states
after the two calls. -/
def paddedHead : Except Fault (CManagedHeap × CManagedHeap) := do
  let s ← Initialise (newHeap 4096 8192) 4096 4096
  let (s, p) ← Allocate 10 s 100 512
  let s1 ← Deallocate s p
  pure (s, s1)

/-- On the fresh 1024-byte region: `Allocate(100, 4)`, `Allocate(100, 8)`, then `Deallocate` of
the second pointer and `Deallocate` of the first; the states after the last three calls. -/
def staleRightPadding : Except Fault (CManagedHeap × CManagedHeap × CManagedHeap) := do
  let s ← freshHeap
  let (s, q) ← Allocate 10 s 100 4
  let (s, p) ← Allocate 10 s 100 8
  let s1 ← Deallocate s p
  let s2 ← Deallocate s1 q
  pure (s, s1, s2)

/-- A 64-byte region at 4096: `Allocate(4)`, `Deallocate`, `Allocate(4)`. -/
def tinyCycle : Except Fault CManagedHeap := do
  let s ← Initialise (newHeap 4096 4160) 4096 64
  let (s, p) ← Allocate 10 s 4 PLATFORM_MIN_ALIGN
  let s ← Deallocate s p
  let (s, _) ← Allocate 10 s 4 PLATFORM_MIN_ALIGN
  pure s

/-- A 1024-byte region at 4080: `Allocate(4294967280, 32)`. -/
def wrapFooter : Except Fault (CManagedHeap × Nat) := do
  let s ← Initialise (newHeap 4080 5104) 4080 1024
  Allocate 10 s 4294967280 32

/-! ## Chain walks, specification-level definitions and further runs -/

/-- The traversal of `CManagedHeap::Print`: the addresses of the blocks reached from `block`
through `m_pSMemBlockNext`, the block itself first; `fuel` bounds the number of blocks. -/
def chainBlocks (ram : Nat → Nat) : Nat → Nat → List Nat
  | 0, _ => []
  | fuel + 1, block =>
    block :: (if read32 ram block != 0 then chainBlocks ram fuel (read32 ram block) else [])

/-- The number of blocks of the chain whose `m_bIsFreeBlock` is false. -/
def allocatedBlocks (s : CManagedHeap) (fuel : Nat) : Nat :=
  ((chainBlocks s.ram fuel s.m_pBlock).filter
    (fun q => !(headerAt s.ram q).m_bIsFreeBlock)).length

/-- The size `Allocate` works with: the request rounded up to a multiple of four. -/
def roundedSize (uNumBytes : Nat) : Nat :=
  if uNumBytes % 4 != 0 then add32 uNumBytes (4 - uNumBytes % 4) else uNumBytes

/-- Viability in the words of the specification, over the natural numbers: the block is free and
its payload plus its right padding is at least the size plus the alignment delta computed at
block address minus left padding plus header size. -/
def viableSpec (ram : Nat → Nat) (block size alignment : Nat) : Bool :=
  (headerAt ram block).m_bIsFreeBlock &&
    decide (size + CalculateAlignmentDelta
        (block - (headerAt ram block).m_LeftPadding + sizeofSBlockHeader) alignment ≤
      (headerAt ram block).m_uBlockSize + (headerAt ram block).m_RightPadding)

/-- First fit in the words of the specification, on a chain without padding whose first block is
at `a`: the address of the first block that is free and holds at least `size` bytes, null when
there is none. -/
def firstFitSpec (size : Nat) : Nat → List (Nat × Bool) → Nat
  | _, [] => 0
  | a, b :: bs => if b.2 = true ∧ size ≤ b.1 then a else firstFitSpec size (a + 28 + b.1) bs

/-- The addresses of the blocks of a chain without padding whose first block is at `a`. -/
def starts : Nat → List (Nat × Bool) → List Nat
  | _, [] => []
  | a, b :: bs => a :: starts (a + 28 + b.1) bs

/-- On the fresh 1024-byte region: two allocations of 100 bytes, then `Deallocate` of the second
pointer; the states before and after the `Deallocate`. -/
def forwardMerge : Except Fault (CManagedHeap × CManagedHeap) := do
  let s ← freshHeap
  let (s, _) ← Allocate 10 s 100 PLATFORM_MIN_ALIGN
  let (s, p) ← Allocate 10 s 100 PLATFORM_MIN_ALIGN
  let s1 ← Deallocate s p
  pure (s, s1)

/-- On the fresh 1024-byte region: `Allocate(200, uAlignment)`, then `Deallocate` of the pointer;
the pointer and the states after the two calls. -/
def paddedRelease (uAlignment : Nat) : Except Fault (Nat × CManagedHeap × CManagedHeap) := do
  let s ← freshHeap
  let (s, p) ← Allocate 10 s 200 uAlignment
  let s1 ← Deallocate s p
  pure (p, s, s1)

/-- On the fresh 1024-byte region: allocate four blocks of 100 bytes, free the third, allocate 96
bytes, free the fourth block, free the block of 96 bytes. The five pointers, and the states after
the first `Deallocate`, the last `Allocate` and the last two `Deallocate` calls. -/
def foldThenFree :
    Except Fault (List Nat × CManagedHeap × CManagedHeap × CManagedHeap × CManagedHeap) := do
  let s ← freshHeap
  let (s, a) ← Allocate 10 s 100 PLATFORM_MIN_ALIGN
  let (s, b) ← Allocate 10 s 100 PLATFORM_MIN_ALIGN
  let (s, c) ← Allocate 10 s 100 PLATFORM_MIN_ALIGN
  let (s, d) ← Allocate 10 s 100 PLATFORM_MIN_ALIGN
  let s1 ← Deallocate s c
  let (s2, e) ← Allocate 10 s1 96 PLATFORM_MIN_ALIGN
  let s3 ← Deallocate s2 d
  let s4 ← Deallocate s3 e
  pure ([a, b, c, d, e], s1, s2, s3, s4)

/-- A zeroed 4096-byte region at 4096: `Allocate(100, 4)`, `Allocate(100, 512)`, `Deallocate` of
the second pointer, `Allocate(100, 4)`. The three pointers, and the states after the `Deallocate`
and after the last `Allocate`. -/
def reusedPointer : Except Fault (List Nat × CManagedHeap × CManagedHeap) := do
  let s ← Initialise (newHeap 4096 8192) 4096 4096
  let (s, a) ← Allocate 10 s 100 4
  let (s, b) ← Allocate 10 s 100 512
  let s1 ← Deallocate s b
  let (s2, c) ← Allocate 10 s1 100 4
  pure ([a, b, c], s1, s2)

/-- On the fresh 1024-byte region: `Allocate(4294967252, 64)`, then `Allocate(100, 4)`. The two
pointers and the states before the first call and after each of the two calls. -/
def liveLastBlock : Except Fault (List Nat × CManagedHeap × CManagedHeap × CManagedHeap) := do
  let s ← freshHeap
  let (s1, a) ← Allocate 10 s 4294967252 64
  let (s2, b) ← Allocate 10 s1 100 PLATFORM_MIN_ALIGN
  pure ([a, b], s, s1, s2)

/-- A zeroed 4096-byte region at 4096, nothing else addressable: `Allocate(100, 4)`,
`Allocate(100, 512)`, `Deallocate` of the second pointer, `Allocate(100, 64)`, then a write of
one byte past the 100 bytes of the first payload and `Deallocate` of the first pointer. The three
pointers, the states after the `Deallocate` and after the write, and the result of the last
call. -/
def overrunBeforeBuffer :
    Except Fault (List Nat × CManagedHeap × CManagedHeap × Except Fault CManagedHeap) := do
  let s ← Initialise (newHeap 4096 8192) 4096 4096
  let (s, a) ← Allocate 10 s 100 4
  let (s, b) ← Allocate 10 s 100 512
  let s1 ← Deallocate s b
  let (s2, c) ← Allocate 10 s1 100 64
  let s3 := { s2 with ram := write8 s2.ram (a + 100) 72 }
  pure ([a, b, c], s1, s3, Deallocate s3 a)

/-- A zeroed 4096-byte region at 4096 inside the addressable range `[lo, hi)`: two allocations of
100 bytes, `Deallocate` of the second, `Allocate(100, 512)`, `Allocate(100, 4)`, `Deallocate` of
the 512-aligned block, then a write of one byte past the 100 bytes of the last payload and
`Deallocate` of the last pointer. The four pointers, the states after the two `Deallocate` calls
and after the write, and the result of the last call. -/
def overrunAfterGap (lo hi : Nat) :
    Except Fault (List Nat × CManagedHeap × CManagedHeap × CManagedHeap ×
      Except Fault CManagedHeap) := do
  let s ← Initialise (newHeap lo hi) 4096 4096
  let (s, a) ← Allocate 10 s 100 4
  let (s, a2) ← Allocate 10 s 100 4
  let s1 ← Deallocate s a2
  let (s, b) ← Allocate 10 s1 100 512
  let (s, c) ← Allocate 10 s 100 4
  let s2 ← Deallocate s b
  let s3 := { s2 with ram := write8 s2.ram (c + 100) 72 }
  pure ([a, a2, b, c], s1, s2, s3, Deallocate s3 c)

/-! ## Theorems -/

/-! ### Memory lemmas -/

theorem read8_lt (ram : Nat → Nat) (a : Nat) : read8 ram a < 256 :=
  Nat.mod_lt _ (by decide)

theorem read32_lt (ram : Nat → Nat) (a : Nat) : read32 ram a < 4294967296 := by
  have h0 := read8_lt ram a
  have h1 := read8_lt ram (a + 1)
  have h2 := read8_lt ram (a + 2)
  have h3 := read8_lt ram (a + 3)
  unfold read32
  omega

theorem read32_write32_same (ram : Nat → Nat) (a v : Nat) :
    read32 (write32 ram a v) a = v % 4294967296 := by
  simp [read32, read8, write32]
  omega

theorem read32_write32_other (ram : Nat → Nat) (a b v : Nat) (h : a + 4 ≤ b ∨ b + 4 ≤ a) :
    read32 (write32 ram a v) b = read32 ram b := by
  have e : ∀ x, b ≤ x → x < b + 4 → write32 ram a v x = ram x := by
    intro x h1 h2
    unfold write32
    rw [if_neg (by omega), if_neg (by omega), if_neg (by omega), if_neg (by omega)]
  simp only [read32, read8]
  rw [e b (by omega) (by omega), e (b + 1) (by omega) (by omega), e (b + 2) (by omega) (by omega),
    e (b + 3) (by omega) (by omega)]

theorem read8_write32_other (ram : Nat → Nat) (a b v : Nat) (h : b < a ∨ a + 4 ≤ b) :
    read8 (write32 ram a v) b = read8 ram b := by
  unfold read8 write32
  rw [if_neg (by omega), if_neg (by omega), if_neg (by omega), if_neg (by omega)]

theorem read8_write8_same (ram : Nat → Nat) (a v : Nat) :
    read8 (write8 ram a v) a = v % 256 := by
  simp [read8, write8]

theorem read8_write8_other (ram : Nat → Nat) (a b v : Nat) (h : a ≠ b) :
    read8 (write8 ram a v) b = read8 ram b := by
  unfold read8 write8
  rw [if_neg (by omega)]

theorem read32_write8_other (ram : Nat → Nat) (a b v : Nat) (h : a < b ∨ b + 4 ≤ a) :
    read32 (write8 ram a v) b = read32 ram b := by
  simp only [read32]
  rw [read8_write8_other _ _ _ _ (by omega), read8_write8_other _ _ _ _ (by omega),
    read8_write8_other _ _ _ _ (by omega), read8_write8_other _ _ _ _ (by omega)]

theorem read8_fill_other (ram : Nat → Nat) (a n v b : Nat) (h : b < a ∨ a + n ≤ b) :
    read8 (fill ram a n v) b = read8 ram b := by
  unfold read8 fill
  rw [if_neg (by omega)]

theorem read32_fill_other (ram : Nat → Nat) (a n v b : Nat) (h : b + 4 ≤ a ∨ a + n ≤ b) :
    read32 (fill ram a n v) b = read32 ram b := by
  simp only [read32]
  rw [read8_fill_other _ _ _ _ _ (by omega), read8_fill_other _ _ _ _ _ (by omega),
    read8_fill_other _ _ _ _ _ (by omega), read8_fill_other _ _ _ _ _ (by omega)]

/-! ### Results of the checked accesses -/

theorem bind_eq_ok {α β : Type} (x : Except Fault α) (f : α → Except Fault β) (b : β) :
    x >>= f = .ok b ↔ ∃ a, x = .ok a ∧ f a = .ok b := by
  cases x with
  | error e => simp [bind, Except.bind]
  | ok a => simp [bind, Except.bind]

theorem load32_eq_ok (s : CManagedHeap) (a v : Nat) :
    load32 s a = .ok v ↔ (s.ramLo ≤ a ∧ a + 4 ≤ s.ramHi) ∧ v = read32 s.ram a := by
  unfold load32
  split <;> simp_all [eq_comm]

theorem store32_eq_ok (s s' : CManagedHeap) (a v : Nat) :
    store32 s a v = .ok s' ↔
      (s.ramLo ≤ a ∧ a + 4 ≤ s.ramHi) ∧ s' = { s with ram := write32 s.ram a v } := by
  unfold store32
  split <;> simp_all [eq_comm]

theorem loadBool_eq_ok (s : CManagedHeap) (a : Nat) (b : Bool) :
    loadBool s a = .ok b ↔ (s.ramLo ≤ a ∧ a + 1 ≤ s.ramHi) ∧ b = (read8 s.ram a != 0) := by
  unfold loadBool
  split <;> simp_all [eq_comm]

theorem storeBool_eq_ok (s s' : CManagedHeap) (a : Nat) (b : Bool) :
    storeBool s a b = .ok s' ↔
      (s.ramLo ≤ a ∧ a + 1 ≤ s.ramHi) ∧
        s' = { s with ram := write8 s.ram a (if b then 1 else 0) } := by
  unfold storeBool
  split <;> simp_all [eq_comm]

theorem load32_ok (s : CManagedHeap) (a : Nat) (h : s.ramLo ≤ a ∧ a + 4 ≤ s.ramHi) :
    load32 s a = .ok (read32 s.ram a) := by
  unfold load32
  rw [if_pos h]

theorem store32_ok (s : CManagedHeap) (a v : Nat) (h : s.ramLo ≤ a ∧ a + 4 ≤ s.ramHi) :
    store32 s a v = .ok { s with ram := write32 s.ram a v } := by
  unfold store32
  rw [if_pos h]

theorem loadBool_ok (s : CManagedHeap) (a : Nat) (h : s.ramLo ≤ a ∧ a + 1 ≤ s.ramHi) :
    loadBool s a = .ok (read8 s.ram a != 0) := by
  unfold loadBool
  rw [if_pos h]

theorem storeBool_ok (s : CManagedHeap) (a : Nat) (b : Bool)
    (h : s.ramLo ≤ a ∧ a + 1 ≤ s.ramHi) :
    storeBool s a b = .ok { s with ram := write8 s.ram a (if b then 1 else 0) } := by
  unfold storeBool
  rw [if_pos h]

theorem ok_bind {α β : Type} (a : α) (f : α → Except Fault β) :
    (Except.ok a : Except Fault α) >>= f = f a := rfl

theorem bind_ok_elim {α β : Type} {x : Except Fault α} {f : α → Except Fault β} {b : β}
    (h : x >>= f = .ok b) : ∃ a, x = .ok a ∧ f a = .ok b :=
  (bind_eq_ok x f b).1 h

theorem pure_ok_elim {α : Type} {a b : α} (h : (pure a : Except Fault α) = .ok b) : a = b := by
  injection h

/-! ### Alignment arithmetic -/

theorem mask_land_low (k : Nat) (hk : k ≤ 32) :
    not32 (sub32 (2 ^ k) 1) &&& (2 ^ k - 1) = 0 := by
  interval_cases k <;> decide

theorem land_mask_mod (x k : Nat) (hk : k ≤ 32) :
    (x &&& not32 (sub32 (2 ^ k) 1)) % 2 ^ k = 0 := by
  rw [← Nat.and_pow_two_sub_one_eq_mod, Nat.land_assoc, mask_land_low k hk]
  simp

theorem land_lt (x m : Nat) (hx : x < 4294967296) : x &&& m < 4294967296 :=
  lt_of_le_of_lt Nat.and_le_left hx

/-- The address `p + CalculateAlignmentDelta p a`, computed on 32 bits, is a multiple of `a`. -/
theorem aligned_address (p k : Nat) (hk : k ≤ 32) :
    ptrAdd p (CalculateAlignmentDelta p (2 ^ k)) % 2 ^ k = 0 := by
  have hA : add32 p (sub32 (2 ^ k) 1) &&& not32 (sub32 (2 ^ k) 1) < 4294967296 :=
    land_lt _ _ (Nat.mod_lt _ (by decide))
  have e : ptrAdd p (CalculateAlignmentDelta p (2 ^ k)) =
      add32 p (sub32 (2 ^ k) 1) &&& not32 (sub32 (2 ^ k) 1) := by
    simp only [CalculateAlignmentDelta]
    generalize add32 p (sub32 (2 ^ k) 1) &&& not32 (sub32 (2 ^ k) 1) = A at hA
    unfold ptrAdd sub32
    omega
  rw [e]
  exact land_mask_mod _ k hk

theorem zeroHeader_bound (s s' : CManagedHeap) (p : Nat) (h : zeroHeader s p = .ok s') :
    p + 20 ≤ s.ramHi := by
  unfold zeroHeader at h
  obtain ⟨s1, h1, h⟩ := bind_ok_elim h
  obtain ⟨s2, h2, h⟩ := bind_ok_elim h
  obtain ⟨s3, h3, h⟩ := bind_ok_elim h
  obtain ⟨s4, h4, h⟩ := bind_ok_elim h
  rw [store32_eq_ok] at h1 h2 h3 h4 h
  have e : s4.ramHi = s.ramHi := by
    rw [h4.2, h3.2, h2.2, h1.2]
  have := h.1.2
  omega

/-- The header address chosen by `AdjustBlockPositionForPadding`. -/
theorem Adjust_result (s s' : CManagedHeap) (a p H : Nat)
    (h : AdjustBlockPositionForPadding s a p = .ok (s', H)) :
    (∃ ms, H = ptrSub (ptrAdd ms (CalculateAlignmentDelta ms a)) 20) ∧ H + 20 ≤ s.ramHi := by
  unfold AdjustBlockPositionForPadding at h
  obtain ⟨prev, -, h⟩ := bind_ok_elim h
  split at h
  · obtain ⟨ft, -, h⟩ := bind_ok_elim h
    dsimp only at h
    obtain ⟨nx, -, h⟩ := bind_ok_elim h
    obtain ⟨s1, hz, h⟩ := bind_ok_elim h
    obtain ⟨s2, -, h⟩ := bind_ok_elim h
    obtain ⟨s3, -, h⟩ := bind_ok_elim h
    obtain ⟨s4, -, h⟩ := bind_ok_elim h
    obtain ⟨lp, -, h⟩ := bind_ok_elim h
    obtain ⟨s5, -, h⟩ := bind_ok_elim h
    have e := pure_ok_elim h
    simp only [Prod.mk.injEq] at e
    rw [← e.2]
    exact ⟨⟨_, rfl⟩, zeroHeader_bound _ _ _ hz⟩
  · dsimp only at h
    obtain ⟨nx, -, h⟩ := bind_ok_elim h
    obtain ⟨s1, hz, h⟩ := bind_ok_elim h
    obtain ⟨s2, -, h⟩ := bind_ok_elim h
    obtain ⟨s3, -, h⟩ := bind_ok_elim h
    have e := pure_ok_elim h
    simp only [Prod.mk.injEq] at e
    rw [← e.2]
    exact ⟨⟨_, rfl⟩, zeroHeader_bound _ _ _ hz⟩

theorem FindFreeBlock_state (fuel : Nat) (s s' : CManagedHeap) (n a p : Nat)
    (h : FindFreeBlock fuel s n a = .ok (s', p)) :
    (p ≠ 0 ∧ s' = s) ∨
      (p = 0 ∧ s' = { s with m_ELastHeapError := .EHeapState_Alloc_NoLargeEnoughBlocks }) := by
  unfold FindFreeBlock at h
  obtain ⟨q, -, h⟩ := bind_ok_elim h
  split at h
  · have e := pure_ok_elim h
    simp only [Prod.mk.injEq] at e
    left
    rw [← e.1, ← e.2]
    simp_all
  · have e := pure_ok_elim h
    simp only [Prod.mk.injEq] at e
    right
    exact ⟨e.2.symm, e.1.symm⟩

/-- What a call of `Allocate` that gets past the argument checks returns. -/
theorem Allocate_cases (fuel : Nat) (s s' : CManagedHeap) (n a p : Nat)
    (h : Allocate fuel s n a = .ok (s', p)) :
    (p = 0 ∧ ∃ e, s' = { s with m_ELastHeapError := e }) ∨
    (IsPowerOfTwo a = true ∧ (∃ ms, p = ptrAdd ms (CalculateAlignmentDelta ms a)) ∧
      ∃ H, p = ptrAdd H 20 ∧ H + 20 ≤ s.ramHi) := by
  unfold Allocate at h
  dsimp only at h
  split at h
  · have e := pure_ok_elim h
    simp only [Prod.mk.injEq] at e
    exact Or.inl ⟨e.2.symm, _, e.1.symm⟩
  split at h
  · have e := pure_ok_elim h
    simp only [Prod.mk.injEq] at e
    exact Or.inl ⟨e.2.symm, _, e.1.symm⟩
  split at h
  · have e := pure_ok_elim h
    simp only [Prod.mk.injEq] at e
    exact Or.inl ⟨e.2.symm, _, e.1.symm⟩
  rename_i hal _
  obtain ⟨⟨s1, blk⟩, hf, h⟩ := bind_ok_elim h
  dsimp only at h
  split at h
  · have e := pure_ok_elim h
    simp only [Prod.mk.injEq] at e
    refine Or.inl ⟨e.2.symm, ?_⟩
    rcases FindFreeBlock_state _ _ _ _ _ _ hf with ⟨-, e1⟩ | ⟨-, e1⟩
    · exact ⟨_, by rw [← e.1, e1]⟩
    · exact ⟨_, by rw [← e.1, e1]⟩
  · rename_i hblk
    obtain ⟨⟨s2, H⟩, hadj, h⟩ := bind_ok_elim h
    dsimp only at h
    obtain ⟨s3, -, h⟩ := bind_ok_elim h
    obtain ⟨s4, -, h⟩ := bind_ok_elim h
    obtain ⟨s5, -, h⟩ := bind_ok_elim h
    obtain ⟨s6, -, h⟩ := bind_ok_elim h
    have e := pure_ok_elim h
    simp only [Prod.mk.injEq] at e
    right
    have hs1 : s1.ramHi = s.ramHi := by
      rcases FindFreeBlock_state _ _ _ _ _ _ hf with ⟨-, e1⟩ | ⟨-, e1⟩ <;> rw [e1]
    obtain ⟨⟨ms, hms⟩, hb⟩ := Adjust_result _ _ _ _ _ hadj
    refine ⟨?_, ⟨ms, ?_⟩, H, e.2.symm, by omega⟩
    · simp only [Bool.or_eq_true, Bool.not_eq_true', decide_eq_true_eq, not_or] at hal
      have := hal.1
      simpa using this
    · rw [← e.2, hms, sizeofSBlockHeader]
      unfold ptrAdd ptrSub
      omega

theorem land_pred_eq_zero (n : Nat) (hn : n ≠ 0) (h : n &&& (n - 1) = 0) : ∃ k, n = 2 ^ k := by
  induction n using Nat.strong_induction_on with
  | _ n ih =>
    rcases Nat.mod_two_eq_zero_or_one n with h2 | h2
    · have hm : n / 2 ≠ 0 := by omega
      have e : (n - 1) / 2 = n / 2 - 1 := by omega
      have h' : n / 2 &&& (n / 2 - 1) = 0 := by
        rw [← e, ← Nat.and_div_two, h]
      obtain ⟨k, hk⟩ := ih (n / 2) (by omega) hm h'
      refine ⟨k + 1, ?_⟩
      rw [pow_succ, ← hk]
      omega
    · by_cases h1 : n = 1
      · exact ⟨0, by rw [h1]; rfl⟩
      · exfalso
        have e : (n - 1) / 2 = n / 2 := by omega
        have h' : (n &&& (n - 1)) / 2 = n / 2 := by
          rw [Nat.and_div_two, e, Nat.and_self]
        rw [h] at h'
        omega

/-- `IsPowerOfTwo` decides, on `u32` values, whether its argument is a power of two. -/
theorem IsPowerOfTwo_iff (n : Nat) (hn : n < 4294967296) :
    IsPowerOfTwo n = true ↔ ∃ k, n = 2 ^ k := by
  constructor
  · intro h
    simp only [IsPowerOfTwo, Bool.and_eq_true, bne_iff_ne, ne_eq, beq_iff_eq] at h
    have e : sub32 n 1 = n - 1 := by
      unfold sub32
      omega
    rw [e] at h
    exact land_pred_eq_zero n h.1 h.2
  · rintro ⟨k, rfl⟩
    have hk : k < 32 := by
      by_contra hc
      have : 2 ^ 32 ≤ 2 ^ k := Nat.pow_le_pow_right (by decide) (by omega)
      omega
    interval_cases k <;> decide

/-- C10. Initialise success postcondition: on an object without a buffer, `Initialise` with a
non-null, 4-aligned, addressable buffer of at least `sizeof(SBlockHeader) + sizeof(SFooterBlock)`
bytes ends with status Ok, records the buffer and its size, sets `m_uFreeSpace` to the size,
`m_uActualFreeSpace` to the size minus one header and footer, `m_uNumAllocations` to zero, and
makes `m_pBlock` one free block at the buffer start that spans the buffer, without successor or
padding, whose footer repeats the size and points back at the header. -/
theorem Initialise_success (s : CManagedHeap) (pRawMemory uMemorySizeInBytes : Nat)
    (hfresh : s.m_pMemory = 0) (hnull : pRawMemory ≠ 0) (halign : pRawMemory % 4 = 0)
    (hsize : sizeofSBlockHeader + sizeofSFooterBlock ≤ uMemorySizeInBytes)
    (hlo : s.ramLo ≤ pRawMemory) (hhi : pRawMemory + uMemorySizeInBytes ≤ s.ramHi)
    (haddr : s.ramHi ≤ 4294967296) :
    ∃ s', Initialise s pRawMemory uMemorySizeInBytes = .ok s' ∧
      s'.m_ELastHeapError = .EHeapError_Ok ∧
      s'.m_pMemory = pRawMemory ∧
      s'.m_uMemorySize = uMemorySizeInBytes ∧
      s'.m_uFreeSpace = uMemorySizeInBytes ∧
      s'.m_uActualFreeSpace = uMemorySizeInBytes - (sizeofSBlockHeader + sizeofSFooterBlock) ∧
      s'.m_uNumAllocations = 0 ∧
      s'.m_pBlock = pRawMemory ∧
      headerAt s'.ram pRawMemory =
        { m_pSMemBlockNext := 0
          m_uBlockSize := uMemorySizeInBytes - (sizeofSBlockHeader + sizeofSFooterBlock)
          m_bIsFreeBlock := true
          m_LeftPadding := 0
          m_RightPadding := 0 } ∧
      footerAt s'.ram (pRawMemory + sizeofSBlockHeader +
          (uMemorySizeInBytes - (sizeofSBlockHeader + sizeofSFooterBlock))) =
        { m_pMatchingHeader := pRawMemory
          m_uSizeOfBlock := uMemorySizeInBytes - (sizeofSBlockHeader + sizeofSFooterBlock) } := by
  simp only [sizeofSBlockHeader, sizeofSFooterBlock] at *
  have hsub : sub32 uMemorySizeInBytes 28 = uMemorySizeInBytes - 28 := by
    unfold sub32; omega
  have hsub' : sub32 uMemorySizeInBytes (20 + 8) = uMemorySizeInBytes - 28 := hsub
  have hft : ptrAdd (ptrAdd pRawMemory 20) (uMemorySizeInBytes - 28) =
      pRawMemory + uMemorySizeInBytes - 8 := by
    unfold ptrAdd; omega
  have hmod : (uMemorySizeInBytes - 28) % 4294967296 = uMemorySizeInBytes - 28 := by omega
  have hmodp : pRawMemory % 4294967296 = pRawMemory := by omega
  have hfa : pRawMemory + 20 + (uMemorySizeInBytes - 28) = pRawMemory + uMemorySizeInBytes - 8 := by
    omega
  have hnb : (pRawMemory == 0) = false := by simpa using hnull
  simp (disch := first | omega | (dsimp only; omega)) only [Initialise, EncapsulateMemoryBlock,
    WriteFooter, GetFooter, sizeofSBlockHeader, sizeofSFooterBlock, hsub, hsub', hfresh, hnb,
    IsAligned, PLATFORM_MIN_ALIGN, halign,
    storeBool_ok, store32_ok, load32_ok, ok_bind, bind_assoc, pure_bind, read32_write32_other,
    read32_write32_same, hft, hmod, bne_self_eq_false, Bool.false_eq_true, if_false, beq_self_eq_true,
    Bool.not_true, if_true]
  refine ⟨_, rfl, rfl, rfl, rfl, rfl, rfl, rfl, rfl, ?_, ?_⟩
  · simp (disch := omega) only [headerAt, read32_write32_other, read32_write32_same,
      read8_write32_other, read8_write8_same, hmod, if_true]
    simp
  · simp (disch := omega) only [footerAt, hfa, read32_write32_other, read32_write32_same, hmod, hmodp]

theorem Initialise_success_witness :
    ∃ s', Initialise (newHeap 4096 5120) 4096 1024 = .ok s' ∧
      s'.m_ELastHeapError = .EHeapError_Ok ∧
      s'.m_pMemory = 4096 ∧
      s'.m_uMemorySize = 1024 ∧
      s'.m_uFreeSpace = 1024 ∧
      s'.m_uActualFreeSpace = 1024 - (sizeofSBlockHeader + sizeofSFooterBlock) ∧
      s'.m_uNumAllocations = 0 ∧
      s'.m_pBlock = 4096 ∧
      headerAt s'.ram 4096 =
        { m_pSMemBlockNext := 0
          m_uBlockSize := 1024 - (sizeofSBlockHeader + sizeofSFooterBlock)
          m_bIsFreeBlock := true
          m_LeftPadding := 0
          m_RightPadding := 0 } ∧
      footerAt s'.ram (4096 + sizeofSBlockHeader +
          (1024 - (sizeofSBlockHeader + sizeofSFooterBlock))) =
        { m_pMatchingHeader := 4096
          m_uSizeOfBlock := 1024 - (sizeofSBlockHeader + sizeofSFooterBlock) } :=
  Initialise_success (newHeap 4096 5120) 4096 1024 rfl (by decide) (by decide) (by decide)
    (by decide) (by decide) (by decide)

theorem returned_eq_some (r : Except Fault (CManagedHeap × Nat)) (p : Nat)
    (h : returned r = some p) : ∃ s', r = .ok (s', p) := by
  unfold returned at h
  split at h
  · injection h with h
    subst h
    exact ⟨_, rfl⟩
  · cases h

/-- C1. Alignment: whenever `Allocate` with an alignment `2 ^ k` (a `u32` power of two) returns a
non-null pointer, that pointer is a multiple of the alignment. This holds in every state, for
every fuel and every size; a call with an alignment below 4 returns null. -/
theorem Allocate_aligned (fuel : Nat) (s : CManagedHeap) (uNumBytes k p : Nat) (hk : k < 32)
    (h : returned (Allocate fuel s uNumBytes (2 ^ k)) = some p) (hp : p ≠ 0) :
    p % 2 ^ k = 0 := by
  obtain ⟨s', h⟩ := returned_eq_some _ _ h
  rcases Allocate_cases _ _ _ _ _ _ h with ⟨h0, -⟩ | ⟨-, ⟨ms, hms⟩, -⟩
  · exact absurd h0 hp
  · rw [hms]
    exact aligned_address ms k (by omega)

theorem Allocate_aligned_witness : 4120 % 2 ^ 3 = 0 :=
  Allocate_aligned 10 (stateOf freshHeap) 100 3 4120 (by decide) (by decide) (by decide)

/-- C6. Rejection without mutation: a call of `Allocate` that returns the null pointer leaves
every member variable and every byte of memory as it was, except `m_ELastHeapError`. -/
theorem Allocate_null_unchanged (fuel : Nat) (s : CManagedHeap) (uNumBytes uAlignment : Nat)
    (r : CManagedHeap × Nat) (haddr : s.ramHi < 4294967296)
    (h : Allocate fuel s uNumBytes uAlignment = .ok r) (hnull : r.2 = 0) :
    r.1 = { s with m_ELastHeapError := r.1.m_ELastHeapError } := by
  obtain ⟨s', p⟩ := r
  rcases Allocate_cases _ _ _ _ _ _ h with ⟨-, e, he⟩ | ⟨-, -, H, hH, hb⟩
  · dsimp only
    rw [he]
  · exfalso
    dsimp only at hnull
    rw [hnull] at hH
    unfold ptrAdd at hH
    omega

theorem Allocate_null_unchanged_witness :
    Allocate 10 (stateOf freshHeap) 2000 4 =
        .ok ({ stateOf freshHeap with
          m_ELastHeapError := .EHeapState_Alloc_NoLargeEnoughBlocks }, 0) ∧
      ({ stateOf freshHeap with
          m_ELastHeapError := EHeapState.EHeapState_Alloc_NoLargeEnoughBlocks }, 0).1 =
        { stateOf freshHeap with m_ELastHeapError :=
          ({ stateOf freshHeap with
            m_ELastHeapError := EHeapState.EHeapState_Alloc_NoLargeEnoughBlocks },
              0).1.m_ELastHeapError } :=
  ⟨rfl, Allocate_null_unchanged 10 (stateOf freshHeap) 2000 4
    ({ stateOf freshHeap with m_ELastHeapError := .EHeapState_Alloc_NoLargeEnoughBlocks }, 0)
    (by decide) rfl rfl⟩

/-! ### Runs on the 1024-byte region -/

set_option maxRecDepth 100000 in
/-- C2. Non-overlap fails for a size near `2 ^ 32`: on the fresh 1024-byte region at 4096,
`Allocate(4294967292, 8)` needs 4 bytes of alignment padding, `paddingRequired + size` wraps to
zero in `IsBlockViable`, and the call succeeds with a live block whose payload starts at 4120 and
has `m_uBlockSize = 4294967292`: its payload range is not inside the buffer `[4096, 5120)`. -/
theorem Allocate_huge_leaves_buffer :
    endsWith (freshHeap >>= fun s => Allocate 10 s 4294967292 8)
      (fun r => r.2 == 4120 && r.1.m_ELastHeapError == .EHeapError_Ok &&
        r.1.m_uNumAllocations == 1 &&
        !(headerAt r.1.ram (r.2 - 20)).m_bIsFreeBlock &&
        (headerAt r.1.ram (r.2 - 20)).m_uBlockSize == 4294967292 &&
        r.1.m_pMemory == 4096 && r.1.m_uMemorySize == 1024 &&
        decide (r.1.m_pMemory + r.1.m_uMemorySize <
          r.2 + (headerAt r.1.ram (r.2 - 20)).m_uBlockSize)) = true := by
  decide

set_option maxRecDepth 100000 in
/-- C5. Double free is not detected after a merge with left padding: on the fresh 1024-byte
region at 4096, `Allocate(100, 8)` returns 4120 with 4 bytes of left padding; the first
`Deallocate(4120)` stamps the merged block at 4096, whose `m_LeftPadding` field (zero) lies on
the byte that held the freed header's `m_bIsFreeBlock`. The second `Deallocate(4120)` therefore
does not report `AlreadyDeallocated`: with only the buffer addressable it dereferences a wild
`m_pSMemBlockNext`, and where low memory is readable it ends with status `OverwriteOverrun` and
`m_uNumAllocations` wrapped from 0 to 4294967295. -/
theorem Deallocate_twice_undetected :
    endsWith (doubleFree freshHeap 100 8)
        (fun r => r.2.1 == 4120 && r.1.m_uNumAllocations == 0 &&
          r.1.m_ELastHeapError == .EHeapError_Ok &&
          !(headerAt r.1.ram (r.2.1 - 20)).m_bIsFreeBlock && faults r.2.2) = true ∧
      endsWith (doubleFree freshHeapWide 100 8)
        (fun r => r.2.1 == 4120 && r.1.m_uNumAllocations == 0 &&
          endsWith r.2.2 (fun s =>
            s.m_ELastHeapError == .EHeapState_Dealloc_OverwriteOverrun &&
            s.m_uNumAllocations == 4294967295)) = true := by
  decide

set_option maxRecDepth 100000 in
/-- C7. The last case of the classification fails at the buffer tail: on the fresh 1024-byte
region the arguments of `Allocate(996, 4)` pass every check and the only block is viable, yet the
call does not return: the remainder is folded into padding and
`ManageFreeSpacePostAllocation` writes `m_LeftPadding` through the null `m_pSMemBlockNext`. -/
theorem Allocate_tail_fold_faults :
    endsWith freshHeap (fun s => s.m_pMemory != 0 && IsPowerOfTwo 4 &&
      decide (PLATFORM_MIN_ALIGN ≤ 4) && endsWith (IsBlockViable s s.m_pBlock 996 4) id &&
      faults (Allocate 10 s 996 4)) = true := by
  decide

set_option maxRecDepth 100000 in
/-- C8. Size rounding wraps: on the fresh 1024-byte region `Allocate(4294967295, 4)` succeeds
and the allocated block records `m_uBlockSize = 0` in its header and `m_uSizeOfBlock = 0` in its
footer, which is below the requested size. -/
theorem Allocate_rounding_wraps :
    endsWith (freshHeap >>= fun s => Allocate 10 s 4294967295 4)
      (fun r => r.2 != 0 && r.1.m_ELastHeapError == .EHeapError_Ok &&
        !(headerAt r.1.ram (r.2 - 20)).m_bIsFreeBlock &&
        (headerAt r.1.ram (r.2 - 20)).m_uBlockSize == 0 &&
        (footerAt r.1.ram r.2).m_uSizeOfBlock == 0) = true := by
  decide

/-! ### Stepping through a run -/

theorem add32_eq (x y : Nat) (h : x + y < 4294967296) : add32 x y = x + y := by
  unfold add32
  omega

theorem sub32_eq (x y : Nat) (h : y ≤ x) (hx : x < 4294967296) : sub32 x y = x - y := by
  unfold sub32
  omega

theorem ptrAdd_eq (x y : Nat) (h : x + y < 4294967296) : ptrAdd x y = x + y := by
  unfold ptrAdd
  omega

theorem ptrSub_eq (x y : Nat) (h : y ≤ x) (hx : x < 4294967296) : ptrSub x y = x - y := by
  unfold ptrSub
  omega

theorem ptrDiff_eq (x y : Nat) (h : y ≤ x) (hx : x < 4294967296) : ptrDiff x y = x - y := by
  unfold ptrDiff
  omega

theorem Ends_ok {α : Type} (a : α) (Q : α → Prop) (h : Q a) :
    Ends (Except.ok a : Except Fault α) Q :=
  ⟨a, rfl, h⟩

theorem read32_write32_at (ram : Nat → Nat) (a b v : Nat) (h : b = a) (hv : v < 4294967296) :
    read32 (write32 ram a v) b = v := by
  subst h
  rw [read32_write32_same]
  omega

theorem fill_zero (ram : Nat → Nat) (a v : Nat) : fill ram a 0 v = ram := by
  funext x
  unfold fill
  rw [if_neg (by omega)]

/-! ### The bytes written by `EncapsulateMemoryBlock` -/

theorem EncapsulateMemoryBlock_ok (s : CManagedHeap) (p n : Nat) (hsize : 28 ≤ n)
    (hlo : s.ramLo ≤ p) (hhi : p + n ≤ s.ramHi) (haddr : s.ramHi ≤ 4294967296) :
    EncapsulateMemoryBlock s p n =
      .ok ({ s with ram := stampBlock s.ram p n
                    m_uActualFreeSpace := sub32 s.m_uActualFreeSpace 28 }, p) := by
  have hsub : sub32 n (20 + 8) = n - 28 := by
    unfold sub32
    omega
  have hft : ptrAdd (ptrAdd p 20) (n - 28) = p + n - 8 := by
    unfold ptrAdd
    omega
  have hmod : (n - 28) % 4294967296 = n - 28 := by omega
  simp (disch := first | omega | (dsimp only; omega)) only [EncapsulateMemoryBlock,
    WriteFooter, GetFooter, sizeofSBlockHeader, sizeofSFooterBlock, hsub,
    storeBool_ok, store32_ok, load32_ok, ok_bind, bind_assoc, pure_bind, read32_write32_other,
    read32_write32_same, hft, hmod, if_true]
  rfl

theorem read8_stampBlock_other (ram : Nat → Nat) (p n x : Nat) (hsize : 28 ≤ n)
    (h : x < p ∨ (p + 20 ≤ x ∧ x + 8 < p + n) ∨ p + n ≤ x ∨ (p + 8 < x ∧ x < p + 12)) :
    read8 (stampBlock ram p n) x = read8 ram x := by
  unfold stampBlock
  rw [read8_write32_other _ _ _ _ (by omega), read8_write32_other _ _ _ _ (by omega),
    read8_write32_other _ _ _ _ (by omega), read8_write32_other _ _ _ _ (by omega),
    read8_write32_other _ _ _ _ (by omega), read8_write32_other _ _ _ _ (by omega),
    read8_write8_other _ _ _ _ (by omega)]

theorem read32_stampBlock_other (ram : Nat → Nat) (p n x : Nat) (hsize : 28 ≤ n)
    (h : x + 4 ≤ p ∨ (p + 20 ≤ x ∧ x + 12 ≤ p + n) ∨ p + n ≤ x) :
    read32 (stampBlock ram p n) x = read32 ram x := by
  simp only [read32]
  rw [read8_stampBlock_other _ _ _ _ hsize (by omega),
    read8_stampBlock_other _ _ _ _ hsize (by omega),
    read8_stampBlock_other _ _ _ _ hsize (by omega),
    read8_stampBlock_other _ _ _ _ hsize (by omega)]

theorem headerAt_stampBlock (ram : Nat → Nat) (p n : Nat) (hsize : 28 ≤ n)
    (hn : n < 4294967296) :
    headerAt (stampBlock ram p n) p =
      { m_pSMemBlockNext := 0
        m_uBlockSize := n - 28
        m_bIsFreeBlock := true
        m_LeftPadding := 0
        m_RightPadding := 0 } := by
  have hmod : (n - 28) % 4294967296 = n - 28 := by omega
  simp (disch := omega) only [headerAt, stampBlock, read32_write32_other, read32_write32_same,
    read8_write32_other, read8_write8_same, hmod]
  simp

theorem footerAt_stampBlock (ram : Nat → Nat) (p n : Nat) (hsize : 28 ≤ n)
    (hn : p + n ≤ 4294967296) :
    footerAt (stampBlock ram p n) (p + n - 8) =
      { m_pMatchingHeader := p
        m_uSizeOfBlock := n - 28 } := by
  have hmod : (n - 28) % 4294967296 = n - 28 := by omega
  have hmodp : p % 4294967296 = p := by omega
  simp (disch := omega) only [footerAt, stampBlock, read32_write32_other, read32_write32_same,
    hmod, hmodp]

theorem read32_stampBlock_next (ram : Nat → Nat) (p n x : Nat) (hsize : 28 ≤ n) (h : x = p) :
    read32 (stampBlock ram p n) x = 0 := by
  subst h
  simp (disch := omega) only [stampBlock, read32_write32_other, read32_write32_same]

theorem read32_stampBlock_size (ram : Nat → Nat) (p n x : Nat) (hsize : 28 ≤ n)
    (hn : n < 4294967296) (h : x = p + 4) :
    read32 (stampBlock ram p n) x = n - 28 := by
  subst h
  have hmod : (n - 28) % 4294967296 = n - 28 := by omega
  simp (disch := omega) only [stampBlock, read32_write32_other, read32_write32_same, hmod]

theorem read8_stampBlock_free (ram : Nat → Nat) (p n x : Nat) (hsize : 28 ≤ n) (h : x = p + 8) :
    read8 (stampBlock ram p n) x = 1 := by
  subst h
  simp (disch := omega) only [stampBlock, read8_write32_other, read8_write8_same]

theorem read32_stampBlock_left (ram : Nat → Nat) (p n x : Nat) (hsize : 28 ≤ n)
    (h : x = p + 12) :
    read32 (stampBlock ram p n) x = 0 := by
  subst h
  simp (disch := omega) only [stampBlock, read32_write32_other, read32_write32_same]

theorem read32_stampBlock_right (ram : Nat → Nat) (p n x : Nat) (hsize : 28 ≤ n)
    (h : x = p + 16) :
    read32 (stampBlock ram p n) x = 0 := by
  subst h
  simp (disch := omega) only [stampBlock, read32_write32_other, read32_write32_same]

theorem read32_stampBlock_back (ram : Nat → Nat) (p n x : Nat) (hsize : 28 ≤ n)
    (hp : p < 4294967296) (h : x = p + n - 8) :
    read32 (stampBlock ram p n) x = p := by
  subst h
  have hmod : p % 4294967296 = p := by omega
  simp (disch := omega) only [stampBlock, read32_write32_other, read32_write32_same, hmod]

theorem read32_stampBlock_fsize (ram : Nat → Nat) (p n x : Nat) (hsize : 28 ≤ n)
    (hn : n < 4294967296) (h : x = p + n - 8 + 4) :
    read32 (stampBlock ram p n) x = n - 28 := by
  subst h
  have hmod : (n - 28) % 4294967296 = n - 28 := by omega
  simp (disch := omega) only [stampBlock, read32_write32_other, read32_write32_same, hmod]

theorem read8_write32_same_word (ram : Nat → Nat) (a v x : Nat) (h : read32 ram a = v) :
    read8 (write32 ram a v) x = read8 ram x := by
  have h0 := read8_lt ram a
  have h1 := read8_lt ram (a + 1)
  have h2 := read8_lt ram (a + 2)
  have h3 := read8_lt ram (a + 3)
  unfold read32 at h
  unfold read8 at *
  unfold write32
  split
  · subst_vars
    omega
  split
  · subst_vars
    omega
  split
  · subst_vars
    omega
  split
  · subst_vars
    omega
  rfl

/-! ### The sections of `MergeWithNearbyBlocks`, case by case -/

theorem memset_ok (s : CManagedHeap) (a v n : Nat) (h : s.ramLo ≤ a ∧ a + n ≤ s.ramHi) :
    memset s a v n = .ok { s with ram := fill s.ram a n v } := by
  unfold memset
  by_cases h0 : n = 0
  · rw [if_pos h0]
    subst h0
    rw [fill_zero]
  · rw [if_neg h0, if_pos h]

theorem MergeForwards_keep (s : CManagedHeap) (a e nx : Nat) (b : Bool)
    (hb : s.ramLo ≤ a ∧ nx + 9 ≤ s.ramHi ∧ a + 4 ≤ nx)
    (hBn : read32 s.ram a = nx)
    (hNf : (read8 s.ram (nx + 8) != 0) = false) :
    MergeForwards s a e b = .ok (s, b, e) := by
  simp (disch := omega) only [MergeForwards, load32_ok, loadBool_ok, ok_bind, hBn, hNf,
    Bool.false_eq_true, if_false]
  rfl

theorem MergeForwards_last (s : CManagedHeap) (a e nx sn : Nat) (b : Bool)
    (hb : s.ramLo ≤ a ∧ nx + 28 + sn ≤ s.ramHi ∧ a + 4 ≤ nx) (hhi : s.ramHi < 4294967296)
    (hBn : read32 s.ram a = nx)
    (hNf : (read8 s.ram (nx + 8) != 0) = true)
    (hNs : read32 s.ram (nx + 4) = sn) (hNr : read32 s.ram (nx + 16) = 0)
    (hNn : read32 s.ram nx = 0) :
    MergeForwards s a e b =
      .ok ({ s with ram := write32 s.ram a 0
                    m_uActualFreeSpace := add32 s.m_uActualFreeSpace 28 }, true,
        nx + 28 + sn) := by
  have e1 : ptrAdd (ptrAdd (ptrAdd (ptrAdd nx 20) sn) 8) 0 = nx + 28 + sn := by
    simp only [ptrAdd]
    omega
  simp (disch := first | omega | (dsimp only; omega)) only [MergeForwards, GetFooter,
    sizeofSBlockHeader, sizeofSFooterBlock, load32_ok, loadBool_ok,
    store32_ok, ok_bind, bind_assoc, pure_bind, hBn, hNf, hNs, hNr, hNn, e1, read32_write32_at,
    if_true, bne_self_eq_false, Bool.false_eq_true, if_false]
  rfl

theorem MergeForwards_mid (s : CManagedHeap) (a e nx sn : Nat) (b : Bool)
    (hb : s.ramLo ≤ a ∧ nx + 28 + sn + 20 ≤ s.ramHi ∧ a + 4 ≤ nx) (hhi : s.ramHi < 4294967296)
    (hBn : read32 s.ram a = nx)
    (hNf : (read8 s.ram (nx + 8) != 0) = true)
    (hNs : read32 s.ram (nx + 4) = sn) (hNr : read32 s.ram (nx + 16) = 0)
    (hNn : read32 s.ram nx = nx + 28 + sn) :
    MergeForwards s a e b =
      .ok ({ s with ram := write32 (write32 s.ram a (nx + 28 + sn)) (nx + 28 + sn + 12) 0
                    m_uActualFreeSpace := add32 s.m_uActualFreeSpace 28 }, true,
        nx + 28 + sn) := by
  have e1 : ptrAdd (ptrAdd (ptrAdd (ptrAdd nx 20) sn) 8) 0 = nx + 28 + sn := by
    simp only [ptrAdd]
    omega
  have e2 : (nx + 28 + sn != 0) = true := by simp
  simp (disch := first | omega | (dsimp only; omega)) only [MergeForwards, GetFooter,
    sizeofSBlockHeader, sizeofSFooterBlock, load32_ok, loadBool_ok,
    store32_ok, ok_bind, bind_assoc, pure_bind, hBn, hNf, hNs, hNr, hNn, e1, e2, read32_write32_at,
    if_true, bne_self_eq_false, Bool.false_eq_true, if_false]
  rfl

theorem MergeBackwards_first (s : CManagedHeap) (a st nx : Nat) (b : Bool)
    (hb : s.ramLo ≤ a ∧ a + 4 ≤ s.ramHi) (hfirst : a = s.m_pBlock)
    (hBn : read32 s.ram a = nx) :
    MergeBackwards s a st b = .ok (s, b, st, 0, nx) := by
  have hab : (a != s.m_pBlock) = false := by simp [hfirst]
  simp (disch := omega) only [MergeBackwards, GetPreviousHeader, hab, load32_ok, ok_bind,
    pure_bind, hBn, bne_self_eq_false, Bool.false_eq_true, if_false, Bool.false_and]
  rfl

theorem MergeBackwards_alloc (s : CManagedHeap) (a st nx ap : Nat) (b : Bool)
    (hb : s.ramLo ≤ ap ∧ 0 < ap ∧ ap + 28 ≤ a ∧ a + 16 ≤ s.ramHi)
    (hhi : s.ramHi < 4294967296) (hne : a ≠ s.m_pBlock)
    (hBn : read32 s.ram a = nx) (hBl : read32 s.ram (a + 12) = 0)
    (hPb : read32 s.ram (a - 8) = ap)
    (hPf : (read8 s.ram (ap + 8) != 0) = false) :
    MergeBackwards s a st b = .ok (s, b, st, ap, nx) := by
  have hab : (a != s.m_pBlock) = true := by simp [hne]
  have hap : (ap != 0) = true := by simp; omega
  have e1 : ptrSub (ptrSub a 0) 8 = a - 8 := by
    simp only [ptrSub]
    omega
  simp (disch := omega) only [MergeBackwards, GetPreviousHeader, sizeofSFooterBlock, hab, hap,
    load32_ok, loadBool_ok, ok_bind, bind_assoc, pure_bind, hBn, hBl, hPb, hPf, e1,
    Bool.false_eq_true, if_false, if_true, Bool.and_false]
  rfl

theorem MergeBackwards_freeFirst (s : CManagedHeap) (a st nx ap : Nat) (b : Bool)
    (hb : s.ramLo ≤ ap ∧ 0 < ap ∧ ap + 28 ≤ a ∧ a + 16 ≤ s.ramHi)
    (hhi : s.ramHi < 4294967296) (hne : a ≠ s.m_pBlock) (hfirst : ap = s.m_pBlock)
    (hBn : read32 s.ram a = nx) (hBl : read32 s.ram (a + 12) = 0)
    (hPb : read32 s.ram (a - 8) = ap)
    (hPf : (read8 s.ram (ap + 8) != 0) = true) (hPl : read32 s.ram (ap + 12) = 0) :
    MergeBackwards s a st b =
      .ok ({ s with ram := write32 s.ram (a + 12) 0
                    m_uActualFreeSpace := add32 s.m_uActualFreeSpace 28 }, true, ap, 0, nx) := by
  have hab : (a != s.m_pBlock) = true := by simp [hne]
  have hap : (ap != 0) = true := by simp; omega
  have hapb : (ap != s.m_pBlock) = false := by simp [hfirst]
  have e1 : ptrSub (ptrSub a 0) 8 = a - 8 := by
    simp only [ptrSub]
    omega
  simp (disch := first | omega | (dsimp only; omega)) only [MergeBackwards, GetPreviousHeader,
    sizeofSFooterBlock, sizeofSBlockHeader, hab, hap, hapb,
    load32_ok, loadBool_ok, store32_ok, ok_bind, bind_assoc, pure_bind, hBn, hBl, hPb, hPf, hPl,
    e1, Bool.false_eq_true, if_false, if_true, Bool.and_true, Bool.and_self]
  rfl

theorem MergeBackwards_freeAfter (s : CManagedHeap) (a st nx ap app : Nat) (b : Bool)
    (hb : s.ramLo + 8 ≤ ap ∧ ap + 28 ≤ a ∧ a + 16 ≤ s.ramHi)
    (hhi : s.ramHi < 4294967296) (hne : a ≠ s.m_pBlock) (hne' : ap ≠ s.m_pBlock)
    (hBn : read32 s.ram a = nx) (hBl : read32 s.ram (a + 12) = 0)
    (hPb : read32 s.ram (a - 8) = ap)
    (hPf : (read8 s.ram (ap + 8) != 0) = true) (hPl : read32 s.ram (ap + 12) = 0)
    (hPPb : read32 s.ram (ap - 8) = app) :
    MergeBackwards s a st b =
      .ok ({ s with ram := write32 s.ram (a + 12) 0
                    m_uActualFreeSpace := add32 s.m_uActualFreeSpace 28 }, true, ap, app, nx) := by
  have hab : (a != s.m_pBlock) = true := by simp [hne]
  have hap : (ap != 0) = true := by simp; omega
  have hapb : (ap != s.m_pBlock) = true := by simp [hne']
  have e1 : ptrSub (ptrSub a 0) 8 = a - 8 := by
    simp only [ptrSub]
    omega
  have e2 : ptrSub (ptrSub ap 0) 8 = ap - 8 := by
    simp only [ptrSub]
    omega
  simp (disch := first | omega | (dsimp only; omega)) only [MergeBackwards, GetPreviousHeader,
    sizeofSFooterBlock, sizeofSBlockHeader, hab, hap, hapb,
    load32_ok, loadBool_ok, store32_ok, ok_bind, bind_assoc, pure_bind, hBn, hBl, hPb, hPf, hPl,
    hPPb, e1, e2, read32_write32_other, Bool.false_eq_true, if_false, if_true, Bool.and_true,
    Bool.and_self]
  rfl

theorem MergeBlocks_none (s : CManagedHeap) (st en pp nx sz : Nat)
    (hb : s.ramLo ≤ st ∧ st + 20 + sz ≤ s.ramHi) (hhi : s.ramHi < 4294967296)
    (hs : read32 s.ram (st + 4) = sz) :
    MergeBlocks s false st en pp nx = .ok { s with ram := fill s.ram (st + 20) sz 48 } := by
  have e1 : ptrAdd st 20 = st + 20 := by
    simp only [ptrAdd]
    omega
  simp (disch := omega) only [MergeBlocks, sizeofSBlockHeader, load32_ok, ok_bind, hs, e1,
    Bool.false_eq_true, if_false]
  exact memset_ok _ _ _ _ (by omega)

theorem MergeBlocks_head (s : CManagedHeap) (st en nx : Nat)
    (hb : s.ramLo ≤ st ∧ st + 28 ≤ en ∧ en ≤ s.ramHi) (hhi : s.ramHi < 4294967296) :
    MergeBlocks s true st en 0 nx =
      .ok { s with ram := fill (write32 (stampBlock s.ram st (en - st)) st nx) (st + 20)
                      (en - st - 28) 48
                   m_uActualFreeSpace := sub32 s.m_uActualFreeSpace 28
                   m_pBlock := st } := by
  have e1 : ptrAdd st 20 = st + 20 := by
    simp only [ptrAdd]
    omega
  have e2 : ptrDiff en st = en - st := by
    simp only [ptrDiff]
    omega
  have e3 : en - st - 28 < 4294967296 := by omega
  simp (disch := first | omega | (dsimp only; omega)) only [MergeBlocks, sizeofSBlockHeader,
    e1, e2, EncapsulateMemoryBlock_ok, load32_ok, store32_ok, ok_bind, pure_bind,
    read32_write32_other, read32_stampBlock_size, beq_self_eq_true, if_true]
  exact memset_ok _ _ _ _ (by dsimp only; omega)

theorem MergeBlocks_link (s : CManagedHeap) (st en pp nx : Nat)
    (hb : s.ramLo ≤ pp ∧ 0 < pp ∧ pp + 4 ≤ st ∧ st + 28 ≤ en ∧ en ≤ s.ramHi)
    (hhi : s.ramHi < 4294967296) :
    MergeBlocks s true st en pp nx =
      .ok { s with ram := fill (write32 (write32 (stampBlock s.ram st (en - st)) st nx) pp st)
                      (st + 20) (en - st - 28) 48
                   m_uActualFreeSpace := sub32 s.m_uActualFreeSpace 28 } := by
  have e1 : ptrAdd st 20 = st + 20 := by
    simp only [ptrAdd]
    omega
  have e2 : ptrDiff en st = en - st := by
    simp only [ptrDiff]
    omega
  have e3 : (pp == 0) = false := by simp; omega
  simp (disch := first | omega | (dsimp only; omega)) only [MergeBlocks, GetFooter,
    sizeofSBlockHeader, e1, e2, e3, EncapsulateMemoryBlock_ok, load32_ok, store32_ok, ok_bind,
    pure_bind, bind_assoc, read32_write32_other, read32_stampBlock_size, Bool.false_eq_true,
    if_false]
  exact memset_ok _ _ _ _ (by dsimp only; omega)

/-! ### `MergeWithNearbyBlocks` on a chain without padding

The block `[a, a + 28 + sb)` has just been marked free. Its successor is allocated (`keep`), or free
and the last block (`last`), or free and followed by a further block (`mid`); the block itself is
the first one (`first`), or follows an allocated block (`alloc`), or follows a free block that is
the first one (`freeFirst`) or has a predecessor of its own (`freeAfter`). -/

theorem Merge_first_keep (s : CManagedHeap) (a sb sn : Nat)
    (hlo : 20 ≤ s.ramLo)
    (hbase : s.ramLo ≤ s.m_pMemory)
    (hE : s.m_pMemory + s.m_uMemorySize ≤ s.ramHi)
    (hhi : s.ramHi < 4294967296)
    (hblk : s.m_pBlock = s.m_pMemory)
    (ha : s.m_pMemory ≤ a)
    (hNE : a + 28 + sb + 28 + sn ≤ s.m_pMemory + s.m_uMemorySize)
    (hBn : read32 s.ram a = a + 28 + sb)
    (hBs : read32 s.ram (a + 4) = sb)
    (hBl : read32 s.ram (a + 12) = 0)
    (hNf : (read8 s.ram (a + 28 + sb + 8) != 0) = false)
    (hfirst : a = s.m_pMemory) :
    Ends (MergeWithNearbyBlocks s a (a + 28 + sb)) (fun s' =>
      s'.m_ELastHeapError = s.m_ELastHeapError ∧ s'.m_uNumAllocations = s.m_uNumAllocations ∧
      s'.m_uFreeSpace = s.m_uFreeSpace ∧ s'.m_pMemory = s.m_pMemory ∧
      s'.m_uMemorySize = s.m_uMemorySize ∧ s'.m_pBlock = s.m_pBlock ∧
      s'.ramLo = s.ramLo ∧ s'.ramHi = s.ramHi ∧
      ∀ x, x < a + 20 ∨ a + 20 + sb ≤ x → read8 s'.ram x = read8 s.ram x) := by
  have hfirst' : a = s.m_pBlock := by omega
  simp (disch := first | omega | (dsimp only; omega) |
      ((try dsimp only); simp (disch := omega) only [read32_write32_other, read32_write32_at, hBn,
        hBs, hBl, read8_write32_other, hNf])) only
    [MergeWithNearbyBlocks, MergeForwards_keep _ _ _ (a + 28 + sb),
      MergeBackwards_first _ _ _ (a + 28 + sb), MergeBlocks_none _ _ _ _ _ sb, load32_ok, ok_bind,
    read32_write32_other, read32_write32_at, hBn, hBs, hBl, bne_self_eq_false, Bool.false_eq_true,
      if_false]
  refine Ends_ok _ _ ?_
  dsimp only
  refine ⟨rfl, rfl, rfl, rfl, rfl, rfl, rfl, rfl, ?_⟩
  intro x hx
  exact read8_fill_other _ _ _ _ _ (by omega)

theorem Merge_first_last (s : CManagedHeap) (a sb sn : Nat)
    (hlo : 20 ≤ s.ramLo)
    (hbase : s.ramLo ≤ s.m_pMemory)
    (hE : s.m_pMemory + s.m_uMemorySize ≤ s.ramHi)
    (hhi : s.ramHi < 4294967296)
    (hblk : s.m_pBlock = s.m_pMemory)
    (ha : s.m_pMemory ≤ a)
    (hNE : a + 28 + sb + 28 + sn ≤ s.m_pMemory + s.m_uMemorySize)
    (hBn : read32 s.ram a = a + 28 + sb)
    (hBs : read32 s.ram (a + 4) = sb)
    (hBl : read32 s.ram (a + 12) = 0)
    (hNf : (read8 s.ram (a + 28 + sb + 8) != 0) = true)
    (hNs : read32 s.ram (a + 28 + sb + 4) = sn)
    (hNr : read32 s.ram (a + 28 + sb + 16) = 0)
    (hNn : read32 s.ram (a + 28 + sb) = 0)
    (hlast : a + 28 + sb + 28 + sn = s.m_pMemory + s.m_uMemorySize)
    (hfirst : a = s.m_pMemory) :
    Ends (MergeWithNearbyBlocks s a (a + 28 + sb)) (fun s' =>
      s'.m_ELastHeapError = s.m_ELastHeapError ∧ s'.m_uNumAllocations = s.m_uNumAllocations ∧
      s'.m_uFreeSpace = s.m_uFreeSpace ∧ s'.m_pMemory = s.m_pMemory ∧
      s'.m_uMemorySize = s.m_uMemorySize ∧ s'.m_pBlock = s.m_pBlock ∧
      s'.ramLo = s.ramLo ∧ s'.ramHi = s.ramHi ∧
      headerAt s'.ram a = ⟨0, sb + 28 + sn, true, 0, 0⟩ ∧
      footerAt s'.ram (a + 20 + (sb + 28 + sn)) = ⟨a, sb + 28 + sn⟩ ∧
      ∀ x, x < a ∨ a + 28 + (sb + 28 + sn) ≤ x → read8 s'.ram x = read8 s.ram x) := by
  have hfirst' : a = s.m_pBlock := by omega
  simp (disch := first | omega | (dsimp only; omega) |
      ((try dsimp only); simp (disch := omega) only [read32_write32_other, read32_write32_at, hBn,
        hBs, hBl, hNs, hNr, hNn, read8_write32_other, hNf])) only
    [MergeWithNearbyBlocks, MergeForwards_last _ _ _ (a + 28 + sb) sn,
      MergeBackwards_first _ _ _ (0), MergeBlocks_head, load32_ok, ok_bind,
    read32_write32_other, read32_write32_at, hBn, hBs, hBl, hNs, hNr, hNn, bne_self_eq_false,
      Bool.false_eq_true, if_false]
  refine Ends_ok _ _ ?_
  dsimp only
  refine ⟨rfl, rfl, rfl, rfl, rfl, by omega, rfl, rfl, ?_, ?_, ?_⟩
  · simp (disch := omega) only [headerAt, read32_fill_other, read32_write32_other,
    read32_write32_at, read32_stampBlock_other, read32_stampBlock_next, read32_stampBlock_size,
    read32_stampBlock_left, read32_stampBlock_right, read32_stampBlock_back,
    read32_stampBlock_fsize, read8_fill_other, read8_write32_other, read8_write8_other,
    read8_stampBlock_other, read8_stampBlock_free]
    congr 1 <;> first | omega | decide
  · simp (disch := omega) only [footerAt, read32_fill_other, read32_write32_other,
    read32_write32_at, read32_stampBlock_other, read32_stampBlock_next, read32_stampBlock_size,
    read32_stampBlock_left, read32_stampBlock_right, read32_stampBlock_back,
    read32_stampBlock_fsize]
    congr 1 <;> omega
  · intro x hx
    simp (disch := first | omega | (simp (disch := omega) only [read32_write32_other,
      read32_stampBlock_other, hBn, hBs, hBl, hNs, hNr, hNn])) only [read8_fill_other,
      read8_write32_other, read8_write8_other, read8_stampBlock_other, read8_stampBlock_free,
      read8_write32_same_word]

theorem Merge_first_mid (s : CManagedHeap) (a sb sn : Nat)
    (hlo : 20 ≤ s.ramLo)
    (hbase : s.ramLo ≤ s.m_pMemory)
    (hE : s.m_pMemory + s.m_uMemorySize ≤ s.ramHi)
    (hhi : s.ramHi < 4294967296)
    (hblk : s.m_pBlock = s.m_pMemory)
    (ha : s.m_pMemory ≤ a)
    (hNE : a + 28 + sb + 28 + sn ≤ s.m_pMemory + s.m_uMemorySize)
    (hBn : read32 s.ram a = a + 28 + sb)
    (hBs : read32 s.ram (a + 4) = sb)
    (hBl : read32 s.ram (a + 12) = 0)
    (hNf : (read8 s.ram (a + 28 + sb + 8) != 0) = true)
    (hNs : read32 s.ram (a + 28 + sb + 4) = sn)
    (hNr : read32 s.ram (a + 28 + sb + 16) = 0)
    (hNn : read32 s.ram (a + 28 + sb) = a + 28 + sb + 28 + sn)
    (hmid : a + 28 + sb + 28 + sn + 20 ≤ s.m_pMemory + s.m_uMemorySize)
    (hNNl : read32 s.ram (a + 28 + sb + 28 + sn + 12) = 0)
    (hfirst : a = s.m_pMemory) :
    Ends (MergeWithNearbyBlocks s a (a + 28 + sb)) (fun s' =>
      s'.m_ELastHeapError = s.m_ELastHeapError ∧ s'.m_uNumAllocations = s.m_uNumAllocations ∧
      s'.m_uFreeSpace = s.m_uFreeSpace ∧ s'.m_pMemory = s.m_pMemory ∧
      s'.m_uMemorySize = s.m_uMemorySize ∧ s'.m_pBlock = s.m_pBlock ∧
      s'.ramLo = s.ramLo ∧ s'.ramHi = s.ramHi ∧
      headerAt s'.ram a = ⟨a + 28 + sb + 28 + sn, sb + 28 + sn, true, 0, 0⟩ ∧
      footerAt s'.ram (a + 20 + (sb + 28 + sn)) = ⟨a, sb + 28 + sn⟩ ∧
      ∀ x, x < a ∨ a + 28 + (sb + 28 + sn) ≤ x → read8 s'.ram x = read8 s.ram x) := by
  have hfirst' : a = s.m_pBlock := by omega
  simp (disch := first | omega | (dsimp only; omega) |
      ((try dsimp only); simp (disch := omega) only [read32_write32_other, read32_write32_at, hBn,
        hBs, hBl, hNs, hNr, hNn, hNNl, read8_write32_other, hNf])) only
    [MergeWithNearbyBlocks, MergeForwards_mid _ _ _ (a + 28 + sb) sn,
      MergeBackwards_first _ _ _ (a + 28 + sb + 28 + sn), MergeBlocks_head, load32_ok, ok_bind,
    read32_write32_other, read32_write32_at, hBn, hBs, hBl, hNs, hNr, hNn, hNNl, bne_self_eq_false,
      Bool.false_eq_true, if_false]
  refine Ends_ok _ _ ?_
  dsimp only
  refine ⟨rfl, rfl, rfl, rfl, rfl, by omega, rfl, rfl, ?_, ?_, ?_⟩
  · simp (disch := omega) only [headerAt, read32_fill_other, read32_write32_other,
    read32_write32_at, read32_stampBlock_other, read32_stampBlock_next, read32_stampBlock_size,
    read32_stampBlock_left, read32_stampBlock_right, read32_stampBlock_back,
    read32_stampBlock_fsize, read8_fill_other, read8_write32_other, read8_write8_other,
    read8_stampBlock_other, read8_stampBlock_free]
    congr 1 <;> first | omega | decide
  · simp (disch := omega) only [footerAt, read32_fill_other, read32_write32_other,
    read32_write32_at, read32_stampBlock_other, read32_stampBlock_next, read32_stampBlock_size,
    read32_stampBlock_left, read32_stampBlock_right, read32_stampBlock_back,
    read32_stampBlock_fsize]
    congr 1 <;> omega
  · intro x hx
    simp (disch := first | omega | (simp (disch := omega) only [read32_write32_other,
      read32_stampBlock_other, hBn, hBs, hBl, hNs, hNr, hNn, hNNl])) only [read8_fill_other,
      read8_write32_other, read8_write8_other, read8_stampBlock_other, read8_stampBlock_free,
      read8_write32_same_word]

theorem Merge_alloc_keep (s : CManagedHeap) (a sb sn : Nat) (ap sp : Nat)
    (hlo : 20 ≤ s.ramLo)
    (hbase : s.ramLo ≤ s.m_pMemory)
    (hE : s.m_pMemory + s.m_uMemorySize ≤ s.ramHi)
    (hhi : s.ramHi < 4294967296)
    (hblk : s.m_pBlock = s.m_pMemory)
    (ha : s.m_pMemory ≤ a)
    (hNE : a + 28 + sb + 28 + sn ≤ s.m_pMemory + s.m_uMemorySize)
    (hBn : read32 s.ram a = a + 28 + sb)
    (hBs : read32 s.ram (a + 4) = sb)
    (hBl : read32 s.ram (a + 12) = 0)
    (hNf : (read8 s.ram (a + 28 + sb + 8) != 0) = false)
    (hap : ap + 28 + sp = a)
    (hPb : read32 s.ram (a - 8) = ap)
    (hPlo : s.m_pMemory ≤ ap)
    (hPf : (read8 s.ram (ap + 8) != 0) = false)
    (hPn : read32 s.ram ap = a) :
    Ends (MergeWithNearbyBlocks s a (a + 28 + sb)) (fun s' =>
      s'.m_ELastHeapError = s.m_ELastHeapError ∧ s'.m_uNumAllocations = s.m_uNumAllocations ∧
      s'.m_uFreeSpace = s.m_uFreeSpace ∧ s'.m_pMemory = s.m_pMemory ∧
      s'.m_uMemorySize = s.m_uMemorySize ∧ s'.m_pBlock = s.m_pBlock ∧
      s'.ramLo = s.ramLo ∧ s'.ramHi = s.ramHi ∧
      ∀ x, x < a + 20 ∨ a + 20 + sb ≤ x → read8 s'.ram x = read8 s.ram x) := by
  have hne : a ≠ s.m_pBlock := by omega
  simp (disch := first | omega | (dsimp only; omega) |
      ((try dsimp only); simp (disch := omega) only [read32_write32_other, read32_write32_at, hBn,
        hBs, hBl, hPb, hPn, read8_write32_other, hNf, hPf])) only
    [MergeWithNearbyBlocks, MergeForwards_keep _ _ _ (a + 28 + sb),
      MergeBackwards_alloc _ _ _ (a + 28 + sb) ap, MergeBlocks_none _ _ _ _ _ sb, load32_ok,
      ok_bind,
    read32_write32_other, read32_write32_at, hBn, hBs, hBl, hPb, hPn, bne_self_eq_false,
      Bool.false_eq_true, if_false]
  refine Ends_ok _ _ ?_
  dsimp only
  refine ⟨rfl, rfl, rfl, rfl, rfl, rfl, rfl, rfl, ?_⟩
  intro x hx
  exact read8_fill_other _ _ _ _ _ (by omega)

theorem Merge_alloc_last (s : CManagedHeap) (a sb sn : Nat) (ap sp : Nat)
    (hlo : 20 ≤ s.ramLo)
    (hbase : s.ramLo ≤ s.m_pMemory)
    (hE : s.m_pMemory + s.m_uMemorySize ≤ s.ramHi)
    (hhi : s.ramHi < 4294967296)
    (hblk : s.m_pBlock = s.m_pMemory)
    (ha : s.m_pMemory ≤ a)
    (hNE : a + 28 + sb + 28 + sn ≤ s.m_pMemory + s.m_uMemorySize)
    (hBn : read32 s.ram a = a + 28 + sb)
    (hBs : read32 s.ram (a + 4) = sb)
    (hBl : read32 s.ram (a + 12) = 0)
    (hNf : (read8 s.ram (a + 28 + sb + 8) != 0) = true)
    (hNs : read32 s.ram (a + 28 + sb + 4) = sn)
    (hNr : read32 s.ram (a + 28 + sb + 16) = 0)
    (hNn : read32 s.ram (a + 28 + sb) = 0)
    (hlast : a + 28 + sb + 28 + sn = s.m_pMemory + s.m_uMemorySize)
    (hap : ap + 28 + sp = a)
    (hPb : read32 s.ram (a - 8) = ap)
    (hPlo : s.m_pMemory ≤ ap)
    (hPf : (read8 s.ram (ap + 8) != 0) = false)
    (hPn : read32 s.ram ap = a) :
    Ends (MergeWithNearbyBlocks s a (a + 28 + sb)) (fun s' =>
      s'.m_ELastHeapError = s.m_ELastHeapError ∧ s'.m_uNumAllocations = s.m_uNumAllocations ∧
      s'.m_uFreeSpace = s.m_uFreeSpace ∧ s'.m_pMemory = s.m_pMemory ∧
      s'.m_uMemorySize = s.m_uMemorySize ∧ s'.m_pBlock = s.m_pBlock ∧
      s'.ramLo = s.ramLo ∧ s'.ramHi = s.ramHi ∧
      headerAt s'.ram a = ⟨0, sb + 28 + sn, true, 0, 0⟩ ∧
      footerAt s'.ram (a + 20 + (sb + 28 + sn)) = ⟨a, sb + 28 + sn⟩ ∧
      ∀ x, x < a ∨ a + 28 + (sb + 28 + sn) ≤ x → read8 s'.ram x = read8 s.ram x) := by
  have hne : a ≠ s.m_pBlock := by omega
  simp (disch := first | omega | (dsimp only; omega) |
      ((try dsimp only); simp (disch := omega) only [read32_write32_other, read32_write32_at, hBn,
        hBs, hBl, hNs, hNr, hNn, hPb, hPn, read8_write32_other, hNf, hPf])) only
    [MergeWithNearbyBlocks, MergeForwards_last _ _ _ (a + 28 + sb) sn,
      MergeBackwards_alloc _ _ _ (0) ap, MergeBlocks_link, load32_ok, ok_bind,
    read32_write32_other, read32_write32_at, hBn, hBs, hBl, hNs, hNr, hNn, hPb, hPn,
      bne_self_eq_false, Bool.false_eq_true, if_false]
  refine Ends_ok _ _ ?_
  dsimp only
  refine ⟨rfl, rfl, rfl, rfl, rfl, by omega, rfl, rfl, ?_, ?_, ?_⟩
  · simp (disch := omega) only [headerAt, read32_fill_other, read32_write32_other,
    read32_write32_at, read32_stampBlock_other, read32_stampBlock_next, read32_stampBlock_size,
    read32_stampBlock_left, read32_stampBlock_right, read32_stampBlock_back,
    read32_stampBlock_fsize, read8_fill_other, read8_write32_other, read8_write8_other,
    read8_stampBlock_other, read8_stampBlock_free]
    congr 1 <;> first | omega | decide
  · simp (disch := omega) only [footerAt, read32_fill_other, read32_write32_other,
    read32_write32_at, read32_stampBlock_other, read32_stampBlock_next, read32_stampBlock_size,
    read32_stampBlock_left, read32_stampBlock_right, read32_stampBlock_back,
    read32_stampBlock_fsize]
    congr 1 <;> omega
  · intro x hx
    simp (disch := first | omega | (simp (disch := omega) only [read32_write32_other,
      read32_stampBlock_other, hBn, hBs, hBl, hNs, hNr, hNn, hPb, hPn])) only [read8_fill_other,
      read8_write32_other, read8_write8_other, read8_stampBlock_other, read8_stampBlock_free,
      read8_write32_same_word]

theorem Merge_alloc_mid (s : CManagedHeap) (a sb sn : Nat) (ap sp : Nat)
    (hlo : 20 ≤ s.ramLo)
    (hbase : s.ramLo ≤ s.m_pMemory)
    (hE : s.m_pMemory + s.m_uMemorySize ≤ s.ramHi)
    (hhi : s.ramHi < 4294967296)
    (hblk : s.m_pBlock = s.m_pMemory)
    (ha : s.m_pMemory ≤ a)
    (hNE : a + 28 + sb + 28 + sn ≤ s.m_pMemory + s.m_uMemorySize)
    (hBn : read32 s.ram a = a + 28 + sb)
    (hBs : read32 s.ram (a + 4) = sb)
    (hBl : read32 s.ram (a + 12) = 0)
    (hNf : (read8 s.ram (a + 28 + sb + 8) != 0) = true)
    (hNs : read32 s.ram (a + 28 + sb + 4) = sn)
    (hNr : read32 s.ram (a + 28 + sb + 16) = 0)
    (hNn : read32 s.ram (a + 28 + sb) = a + 28 + sb + 28 + sn)
    (hmid : a + 28 + sb + 28 + sn + 20 ≤ s.m_pMemory + s.m_uMemorySize)
    (hNNl : read32 s.ram (a + 28 + sb + 28 + sn + 12) = 0)
    (hap : ap + 28 + sp = a)
    (hPb : read32 s.ram (a - 8) = ap)
    (hPlo : s.m_pMemory ≤ ap)
    (hPf : (read8 s.ram (ap + 8) != 0) = false)
    (hPn : read32 s.ram ap = a) :
    Ends (MergeWithNearbyBlocks s a (a + 28 + sb)) (fun s' =>
      s'.m_ELastHeapError = s.m_ELastHeapError ∧ s'.m_uNumAllocations = s.m_uNumAllocations ∧
      s'.m_uFreeSpace = s.m_uFreeSpace ∧ s'.m_pMemory = s.m_pMemory ∧
      s'.m_uMemorySize = s.m_uMemorySize ∧ s'.m_pBlock = s.m_pBlock ∧
      s'.ramLo = s.ramLo ∧ s'.ramHi = s.ramHi ∧
      headerAt s'.ram a = ⟨a + 28 + sb + 28 + sn, sb + 28 + sn, true, 0, 0⟩ ∧
      footerAt s'.ram (a + 20 + (sb + 28 + sn)) = ⟨a, sb + 28 + sn⟩ ∧
      ∀ x, x < a ∨ a + 28 + (sb + 28 + sn) ≤ x → read8 s'.ram x = read8 s.ram x) := by
  have hne : a ≠ s.m_pBlock := by omega
  simp (disch := first | omega | (dsimp only; omega) |
      ((try dsimp only); simp (disch := omega) only [read32_write32_other, read32_write32_at, hBn,
        hBs, hBl, hNs, hNr, hNn, hNNl, hPb, hPn, read8_write32_other, hNf, hPf])) only
    [MergeWithNearbyBlocks, MergeForwards_mid _ _ _ (a + 28 + sb) sn,
      MergeBackwards_alloc _ _ _ (a + 28 + sb + 28 + sn) ap, MergeBlocks_link, load32_ok, ok_bind,
    read32_write32_other, read32_write32_at, hBn, hBs, hBl, hNs, hNr, hNn, hNNl, hPb, hPn,
      bne_self_eq_false, Bool.false_eq_true, if_false]
  refine Ends_ok _ _ ?_
  dsimp only
  refine ⟨rfl, rfl, rfl, rfl, rfl, by omega, rfl, rfl, ?_, ?_, ?_⟩
  · simp (disch := omega) only [headerAt, read32_fill_other, read32_write32_other,
    read32_write32_at, read32_stampBlock_other, read32_stampBlock_next, read32_stampBlock_size,
    read32_stampBlock_left, read32_stampBlock_right, read32_stampBlock_back,
    read32_stampBlock_fsize, read8_fill_other, read8_write32_other, read8_write8_other,
    read8_stampBlock_other, read8_stampBlock_free]
    congr 1 <;> first | omega | decide
  · simp (disch := omega) only [footerAt, read32_fill_other, read32_write32_other,
    read32_write32_at, read32_stampBlock_other, read32_stampBlock_next, read32_stampBlock_size,
    read32_stampBlock_left, read32_stampBlock_right, read32_stampBlock_back,
    read32_stampBlock_fsize]
    congr 1 <;> omega
  · intro x hx
    simp (disch := first | omega | (simp (disch := omega) only [read32_write32_other,
      read32_stampBlock_other, hBn, hBs, hBl, hNs, hNr, hNn, hNNl, hPb,
      hPn])) only [read8_fill_other, read8_write32_other, read8_write8_other,
      read8_stampBlock_other, read8_stampBlock_free, read8_write32_same_word]

theorem Merge_freeFirst_keep (s : CManagedHeap) (a sb sn : Nat) (ap sp : Nat)
    (hlo : 20 ≤ s.ramLo)
    (hbase : s.ramLo ≤ s.m_pMemory)
    (hE : s.m_pMemory + s.m_uMemorySize ≤ s.ramHi)
    (hhi : s.ramHi < 4294967296)
    (hblk : s.m_pBlock = s.m_pMemory)
    (hNE : a + 28 + sb + 28 + sn ≤ s.m_pMemory + s.m_uMemorySize)
    (hBn : read32 s.ram a = a + 28 + sb)
    (hBs : read32 s.ram (a + 4) = sb)
    (hBl : read32 s.ram (a + 12) = 0)
    (hNf : (read8 s.ram (a + 28 + sb + 8) != 0) = false)
    (hap : ap + 28 + sp = a)
    (hPb : read32 s.ram (a - 8) = ap)
    (hPf : (read8 s.ram (ap + 8) != 0) = true)
    (hPl : read32 s.ram (ap + 12) = 0)
    (hPfirst : ap = s.m_pMemory) :
    Ends (MergeWithNearbyBlocks s a (a + 28 + sb)) (fun s' =>
      s'.m_ELastHeapError = s.m_ELastHeapError ∧ s'.m_uNumAllocations = s.m_uNumAllocations ∧
      s'.m_uFreeSpace = s.m_uFreeSpace ∧ s'.m_pMemory = s.m_pMemory ∧
      s'.m_uMemorySize = s.m_uMemorySize ∧ s'.m_pBlock = s.m_pBlock ∧
      s'.ramLo = s.ramLo ∧ s'.ramHi = s.ramHi ∧
      headerAt s'.ram ap = ⟨a + 28 + sb, sp + 28 + sb, true, 0, 0⟩ ∧
      footerAt s'.ram (ap + 20 + (sp + 28 + sb)) = ⟨ap, sp + 28 + sb⟩ ∧
      ∀ x, x < ap ∨ ap + 28 + (sp + 28 + sb) ≤ x → read8 s'.ram x = read8 s.ram x) := by
  have hne : a ≠ s.m_pBlock := by omega
  have hPfirst' : ap = s.m_pBlock := by omega
  simp (disch := first | omega | (dsimp only; omega) |
      ((try dsimp only); simp (disch := omega) only [read32_write32_other, read32_write32_at, hBn,
        hBs, hBl, hPb, hPl, read8_write32_other, hNf, hPf])) only
    [MergeWithNearbyBlocks, MergeForwards_keep _ _ _ (a + 28 + sb),
      MergeBackwards_freeFirst _ _ _ (a + 28 + sb) ap, MergeBlocks_head, load32_ok, ok_bind,
    read32_write32_other, read32_write32_at, hBn, hBs, hBl, hPb, hPl, bne_self_eq_false,
      Bool.false_eq_true, if_false]
  refine Ends_ok _ _ ?_
  dsimp only
  refine ⟨rfl, rfl, rfl, rfl, rfl, by omega, rfl, rfl, ?_, ?_, ?_⟩
  · simp (disch := omega) only [headerAt, read32_fill_other, read32_write32_other,
    read32_write32_at, read32_stampBlock_other, read32_stampBlock_next, read32_stampBlock_size,
    read32_stampBlock_left, read32_stampBlock_right, read32_stampBlock_back,
    read32_stampBlock_fsize, read8_fill_other, read8_write32_other, read8_write8_other,
    read8_stampBlock_other, read8_stampBlock_free]
    congr 1 <;> first | omega | decide
  · simp (disch := omega) only [footerAt, read32_fill_other, read32_write32_other,
    read32_write32_at, read32_stampBlock_other, read32_stampBlock_next, read32_stampBlock_size,
    read32_stampBlock_left, read32_stampBlock_right, read32_stampBlock_back,
    read32_stampBlock_fsize]
    congr 1 <;> omega
  · intro x hx
    simp (disch := first | omega | (simp (disch := omega) only [read32_write32_other,
      read32_stampBlock_other, hBn, hBs, hBl, hPb, hPl])) only [read8_fill_other,
      read8_write32_other, read8_write8_other, read8_stampBlock_other, read8_stampBlock_free,
      read8_write32_same_word]

theorem Merge_freeFirst_last (s : CManagedHeap) (a sb sn : Nat) (ap sp : Nat)
    (hlo : 20 ≤ s.ramLo)
    (hbase : s.ramLo ≤ s.m_pMemory)
    (hE : s.m_pMemory + s.m_uMemorySize ≤ s.ramHi)
    (hhi : s.ramHi < 4294967296)
    (hblk : s.m_pBlock = s.m_pMemory)
    (hNE : a + 28 + sb + 28 + sn ≤ s.m_pMemory + s.m_uMemorySize)
    (hBn : read32 s.ram a = a + 28 + sb)
    (hBs : read32 s.ram (a + 4) = sb)
    (hBl : read32 s.ram (a + 12) = 0)
    (hNf : (read8 s.ram (a + 28 + sb + 8) != 0) = true)
    (hNs : read32 s.ram (a + 28 + sb + 4) = sn)
    (hNr : read32 s.ram (a + 28 + sb + 16) = 0)
    (hNn : read32 s.ram (a + 28 + sb) = 0)
    (hlast : a + 28 + sb + 28 + sn = s.m_pMemory + s.m_uMemorySize)
    (hap : ap + 28 + sp = a)
    (hPb : read32 s.ram (a - 8) = ap)
    (hPf : (read8 s.ram (ap + 8) != 0) = true)
    (hPl : read32 s.ram (ap + 12) = 0)
    (hPfirst : ap = s.m_pMemory) :
    Ends (MergeWithNearbyBlocks s a (a + 28 + sb)) (fun s' =>
      s'.m_ELastHeapError = s.m_ELastHeapError ∧ s'.m_uNumAllocations = s.m_uNumAllocations ∧
      s'.m_uFreeSpace = s.m_uFreeSpace ∧ s'.m_pMemory = s.m_pMemory ∧
      s'.m_uMemorySize = s.m_uMemorySize ∧ s'.m_pBlock = s.m_pBlock ∧
      s'.ramLo = s.ramLo ∧ s'.ramHi = s.ramHi ∧
      headerAt s'.ram ap = ⟨0, sp + 28 + sb + 28 + sn, true, 0, 0⟩ ∧
      footerAt s'.ram (ap + 20 + (sp + 28 + sb + 28 + sn)) = ⟨ap, sp + 28 + sb + 28 + sn⟩ ∧
      ∀ x, x < ap ∨ ap + 28 + (sp + 28 + sb + 28 + sn) ≤ x → read8 s'.ram x = read8 s.ram x) := by
  have hne : a ≠ s.m_pBlock := by omega
  have hPfirst' : ap = s.m_pBlock := by omega
  simp (disch := first | omega | (dsimp only; omega) |
      ((try dsimp only); simp (disch := omega) only [read32_write32_other, read32_write32_at, hBn,
        hBs, hBl, hNs, hNr, hNn, hPb, hPl, read8_write32_other, hNf, hPf])) only
    [MergeWithNearbyBlocks, MergeForwards_last _ _ _ (a + 28 + sb) sn,
      MergeBackwards_freeFirst _ _ _ (0) ap, MergeBlocks_head, load32_ok, ok_bind,
    read32_write32_other, read32_write32_at, hBn, hBs, hBl, hNs, hNr, hNn, hPb, hPl,
      bne_self_eq_false, Bool.false_eq_true, if_false]
  refine Ends_ok _ _ ?_
  dsimp only
  refine ⟨rfl, rfl, rfl, rfl, rfl, by omega, rfl, rfl, ?_, ?_, ?_⟩
  · simp (disch := omega) only [headerAt, read32_fill_other, read32_write32_other,
    read32_write32_at, read32_stampBlock_other, read32_stampBlock_next, read32_stampBlock_size,
    read32_stampBlock_left, read32_stampBlock_right, read32_stampBlock_back,
    read32_stampBlock_fsize, read8_fill_other, read8_write32_other, read8_write8_other,
    read8_stampBlock_other, read8_stampBlock_free]
    congr 1 <;> first | omega | decide
  · simp (disch := omega) only [footerAt, read32_fill_other, read32_write32_other,
    read32_write32_at, read32_stampBlock_other, read32_stampBlock_next, read32_stampBlock_size,
    read32_stampBlock_left, read32_stampBlock_right, read32_stampBlock_back,
    read32_stampBlock_fsize]
    congr 1 <;> omega
  · intro x hx
    simp (disch := first | omega | (simp (disch := omega) only [read32_write32_other,
      read32_stampBlock_other, hBn, hBs, hBl, hNs, hNr, hNn, hPb, hPl])) only [read8_fill_other,
      read8_write32_other, read8_write8_other, read8_stampBlock_other, read8_stampBlock_free,
      read8_write32_same_word]

theorem Merge_freeFirst_mid (s : CManagedHeap) (a sb sn : Nat) (ap sp : Nat)
    (hlo : 20 ≤ s.ramLo)
    (hbase : s.ramLo ≤ s.m_pMemory)
    (hE : s.m_pMemory + s.m_uMemorySize ≤ s.ramHi)
    (hhi : s.ramHi < 4294967296)
    (hblk : s.m_pBlock = s.m_pMemory)
    (hNE : a + 28 + sb + 28 + sn ≤ s.m_pMemory + s.m_uMemorySize)
    (hBn : read32 s.ram a = a + 28 + sb)
    (hBs : read32 s.ram (a + 4) = sb)
    (hBl : read32 s.ram (a + 12) = 0)
    (hNf : (read8 s.ram (a + 28 + sb + 8) != 0) = true)
    (hNs : read32 s.ram (a + 28 + sb + 4) = sn)
    (hNr : read32 s.ram (a + 28 + sb + 16) = 0)
    (hNn : read32 s.ram (a + 28 + sb) = a + 28 + sb + 28 + sn)
    (hmid : a + 28 + sb + 28 + sn + 20 ≤ s.m_pMemory + s.m_uMemorySize)
    (hNNl : read32 s.ram (a + 28 + sb + 28 + sn + 12) = 0)
    (hap : ap + 28 + sp = a)
    (hPb : read32 s.ram (a - 8) = ap)
    (hPf : (read8 s.ram (ap + 8) != 0) = true)
    (hPl : read32 s.ram (ap + 12) = 0)
    (hPfirst : ap = s.m_pMemory) :
    Ends (MergeWithNearbyBlocks s a (a + 28 + sb)) (fun s' =>
      s'.m_ELastHeapError = s.m_ELastHeapError ∧ s'.m_uNumAllocations = s.m_uNumAllocations ∧
      s'.m_uFreeSpace = s.m_uFreeSpace ∧ s'.m_pMemory = s.m_pMemory ∧
      s'.m_uMemorySize = s.m_uMemorySize ∧ s'.m_pBlock = s.m_pBlock ∧
      s'.ramLo = s.ramLo ∧ s'.ramHi = s.ramHi ∧
      headerAt s'.ram ap = ⟨a + 28 + sb + 28 + sn, sp + 28 + sb + 28 + sn, true, 0, 0⟩ ∧
      footerAt s'.ram (ap + 20 + (sp + 28 + sb + 28 + sn)) = ⟨ap, sp + 28 + sb + 28 + sn⟩ ∧
      ∀ x, x < ap ∨ ap + 28 + (sp + 28 + sb + 28 + sn) ≤ x → read8 s'.ram x = read8 s.ram x) := by
  have hne : a ≠ s.m_pBlock := by omega
  have hPfirst' : ap = s.m_pBlock := by omega
  simp (disch := first | omega | (dsimp only; omega) |
      ((try dsimp only); simp (disch := omega) only [read32_write32_other, read32_write32_at, hBn,
        hBs, hBl, hNs, hNr, hNn, hNNl, hPb, hPl, read8_write32_other, hNf, hPf])) only
    [MergeWithNearbyBlocks, MergeForwards_mid _ _ _ (a + 28 + sb) sn,
      MergeBackwards_freeFirst _ _ _ (a + 28 + sb + 28 + sn) ap, MergeBlocks_head, load32_ok,
      ok_bind,
    read32_write32_other, read32_write32_at, hBn, hBs, hBl, hNs, hNr, hNn, hNNl, hPb, hPl,
      bne_self_eq_false, Bool.false_eq_true, if_false]
  refine Ends_ok _ _ ?_
  dsimp only
  refine ⟨rfl, rfl, rfl, rfl, rfl, by omega, rfl, rfl, ?_, ?_, ?_⟩
  · simp (disch := omega) only [headerAt, read32_fill_other, read32_write32_other,
    read32_write32_at, read32_stampBlock_other, read32_stampBlock_next, read32_stampBlock_size,
    read32_stampBlock_left, read32_stampBlock_right, read32_stampBlock_back,
    read32_stampBlock_fsize, read8_fill_other, read8_write32_other, read8_write8_other,
    read8_stampBlock_other, read8_stampBlock_free]
    congr 1 <;> first | omega | decide
  · simp (disch := omega) only [footerAt, read32_fill_other, read32_write32_other,
    read32_write32_at, read32_stampBlock_other, read32_stampBlock_next, read32_stampBlock_size,
    read32_stampBlock_left, read32_stampBlock_right, read32_stampBlock_back,
    read32_stampBlock_fsize]
    congr 1 <;> omega
  · intro x hx
    simp (disch := first | omega | (simp (disch := omega) only [read32_write32_other,
      read32_stampBlock_other, hBn, hBs, hBl, hNs, hNr, hNn, hNNl, hPb,
      hPl])) only [read8_fill_other, read8_write32_other, read8_write8_other,
      read8_stampBlock_other, read8_stampBlock_free, read8_write32_same_word]

theorem Merge_freeAfter_keep (s : CManagedHeap) (a sb sn : Nat) (ap sp : Nat) (app spp : Nat)
    (hlo : 20 ≤ s.ramLo)
    (hbase : s.ramLo ≤ s.m_pMemory)
    (hE : s.m_pMemory + s.m_uMemorySize ≤ s.ramHi)
    (hhi : s.ramHi < 4294967296)
    (hblk : s.m_pBlock = s.m_pMemory)
    (hNE : a + 28 + sb + 28 + sn ≤ s.m_pMemory + s.m_uMemorySize)
    (hBn : read32 s.ram a = a + 28 + sb)
    (hBs : read32 s.ram (a + 4) = sb)
    (hBl : read32 s.ram (a + 12) = 0)
    (hNf : (read8 s.ram (a + 28 + sb + 8) != 0) = false)
    (hap : ap + 28 + sp = a)
    (hPb : read32 s.ram (a - 8) = ap)
    (hPf : (read8 s.ram (ap + 8) != 0) = true)
    (hPl : read32 s.ram (ap + 12) = 0)
    (happ : app + 28 + spp = ap)
    (hPPlo : s.m_pMemory ≤ app)
    (hPPb : read32 s.ram (ap - 8) = app)
    (hPPn : read32 s.ram app = ap) :
    Ends (MergeWithNearbyBlocks s a (a + 28 + sb)) (fun s' =>
      s'.m_ELastHeapError = s.m_ELastHeapError ∧ s'.m_uNumAllocations = s.m_uNumAllocations ∧
      s'.m_uFreeSpace = s.m_uFreeSpace ∧ s'.m_pMemory = s.m_pMemory ∧
      s'.m_uMemorySize = s.m_uMemorySize ∧ s'.m_pBlock = s.m_pBlock ∧
      s'.ramLo = s.ramLo ∧ s'.ramHi = s.ramHi ∧
      headerAt s'.ram ap = ⟨a + 28 + sb, sp + 28 + sb, true, 0, 0⟩ ∧
      footerAt s'.ram (ap + 20 + (sp + 28 + sb)) = ⟨ap, sp + 28 + sb⟩ ∧
      ∀ x, x < ap ∨ ap + 28 + (sp + 28 + sb) ≤ x → read8 s'.ram x = read8 s.ram x) := by
  have hne : a ≠ s.m_pBlock := by omega
  have hne' : ap ≠ s.m_pBlock := by omega
  simp (disch := first | omega | (dsimp only; omega) |
      ((try dsimp only); simp (disch := omega) only [read32_write32_other, read32_write32_at, hBn,
        hBs, hBl, hPb, hPl, hPPb, hPPn, read8_write32_other, hNf, hPf])) only
    [MergeWithNearbyBlocks, MergeForwards_keep _ _ _ (a + 28 + sb),
      MergeBackwards_freeAfter _ _ _ (a + 28 + sb) ap app, MergeBlocks_link, load32_ok, ok_bind,
    read32_write32_other, read32_write32_at, hBn, hBs, hBl, hPb, hPl, hPPb, hPPn,
      bne_self_eq_false, Bool.false_eq_true, if_false]
  refine Ends_ok _ _ ?_
  dsimp only
  refine ⟨rfl, rfl, rfl, rfl, rfl, by omega, rfl, rfl, ?_, ?_, ?_⟩
  · simp (disch := omega) only [headerAt, read32_fill_other, read32_write32_other,
    read32_write32_at, read32_stampBlock_other, read32_stampBlock_next, read32_stampBlock_size,
    read32_stampBlock_left, read32_stampBlock_right, read32_stampBlock_back,
    read32_stampBlock_fsize, read8_fill_other, read8_write32_other, read8_write8_other,
    read8_stampBlock_other, read8_stampBlock_free]
    congr 1 <;> first | omega | decide
  · simp (disch := omega) only [footerAt, read32_fill_other, read32_write32_other,
    read32_write32_at, read32_stampBlock_other, read32_stampBlock_next, read32_stampBlock_size,
    read32_stampBlock_left, read32_stampBlock_right, read32_stampBlock_back,
    read32_stampBlock_fsize]
    congr 1 <;> omega
  · intro x hx
    simp (disch := first | omega | (simp (disch := omega) only [read32_write32_other,
      read32_stampBlock_other, hBn, hBs, hBl, hPb, hPl, hPPb, hPPn])) only [read8_fill_other,
      read8_write32_other, read8_write8_other, read8_stampBlock_other, read8_stampBlock_free,
      read8_write32_same_word]

theorem Merge_freeAfter_last (s : CManagedHeap) (a sb sn : Nat) (ap sp : Nat) (app spp : Nat)
    (hlo : 20 ≤ s.ramLo)
    (hbase : s.ramLo ≤ s.m_pMemory)
    (hE : s.m_pMemory + s.m_uMemorySize ≤ s.ramHi)
    (hhi : s.ramHi < 4294967296)
    (hblk : s.m_pBlock = s.m_pMemory)
    (hNE : a + 28 + sb + 28 + sn ≤ s.m_pMemory + s.m_uMemorySize)
    (hBn : read32 s.ram a = a + 28 + sb)
    (hBs : read32 s.ram (a + 4) = sb)
    (hBl : read32 s.ram (a + 12) = 0)
    (hNf : (read8 s.ram (a + 28 + sb + 8) != 0) = true)
    (hNs : read32 s.ram (a + 28 + sb + 4) = sn)
    (hNr : read32 s.ram (a + 28 + sb + 16) = 0)
    (hNn : read32 s.ram (a + 28 + sb) = 0)
    (hlast : a + 28 + sb + 28 + sn = s.m_pMemory + s.m_uMemorySize)
    (hap : ap + 28 + sp = a)
    (hPb : read32 s.ram (a - 8) = ap)
    (hPf : (read8 s.ram (ap + 8) != 0) = true)
    (hPl : read32 s.ram (ap + 12) = 0)
    (happ : app + 28 + spp = ap)
    (hPPlo : s.m_pMemory ≤ app)
    (hPPb : read32 s.ram (ap - 8) = app)
    (hPPn : read32 s.ram app = ap) :
    Ends (MergeWithNearbyBlocks s a (a + 28 + sb)) (fun s' =>
      s'.m_ELastHeapError = s.m_ELastHeapError ∧ s'.m_uNumAllocations = s.m_uNumAllocations ∧
      s'.m_uFreeSpace = s.m_uFreeSpace ∧ s'.m_pMemory = s.m_pMemory ∧
      s'.m_uMemorySize = s.m_uMemorySize ∧ s'.m_pBlock = s.m_pBlock ∧
      s'.ramLo = s.ramLo ∧ s'.ramHi = s.ramHi ∧
      headerAt s'.ram ap = ⟨0, sp + 28 + sb + 28 + sn, true, 0, 0⟩ ∧
      footerAt s'.ram (ap + 20 + (sp + 28 + sb + 28 + sn)) = ⟨ap, sp + 28 + sb + 28 + sn⟩ ∧
      ∀ x, x < ap ∨ ap + 28 + (sp + 28 + sb + 28 + sn) ≤ x → read8 s'.ram x = read8 s.ram x) := by
  have hne : a ≠ s.m_pBlock := by omega
  have hne' : ap ≠ s.m_pBlock := by omega
  simp (disch := first | omega | (dsimp only; omega) |
      ((try dsimp only); simp (disch := omega) only [read32_write32_other, read32_write32_at, hBn,
        hBs, hBl, hNs, hNr, hNn, hPb, hPl, hPPb, hPPn, read8_write32_other, hNf, hPf])) only
    [MergeWithNearbyBlocks, MergeForwards_last _ _ _ (a + 28 + sb) sn,
      MergeBackwards_freeAfter _ _ _ (0) ap app, MergeBlocks_link, load32_ok, ok_bind,
    read32_write32_other, read32_write32_at, hBn, hBs, hBl, hNs, hNr, hNn, hPb, hPl, hPPb, hPPn,
      bne_self_eq_false, Bool.false_eq_true, if_false]
  refine Ends_ok _ _ ?_
  dsimp only
  refine ⟨rfl, rfl, rfl, rfl, rfl, by omega, rfl, rfl, ?_, ?_, ?_⟩
  · simp (disch := omega) only [headerAt, read32_fill_other, read32_write32_other,
    read32_write32_at, read32_stampBlock_other, read32_stampBlock_next, read32_stampBlock_size,
    read32_stampBlock_left, read32_stampBlock_right, read32_stampBlock_back,
    read32_stampBlock_fsize, read8_fill_other, read8_write32_other, read8_write8_other,
    read8_stampBlock_other, read8_stampBlock_free]
    congr 1 <;> first | omega | decide
  · simp (disch := omega) only [footerAt, read32_fill_other, read32_write32_other,
    read32_write32_at, read32_stampBlock_other, read32_stampBlock_next, read32_stampBlock_size,
    read32_stampBlock_left, read32_stampBlock_right, read32_stampBlock_back,
    read32_stampBlock_fsize]
    congr 1 <;> omega
  · intro x hx
    simp (disch := first | omega | (simp (disch := omega) only [read32_write32_other,
      read32_stampBlock_other, hBn, hBs, hBl, hNs, hNr, hNn, hPb, hPl, hPPb,
      hPPn])) only [read8_fill_other, read8_write32_other, read8_write8_other,
      read8_stampBlock_other, read8_stampBlock_free, read8_write32_same_word]

theorem Merge_freeAfter_mid (s : CManagedHeap) (a sb sn : Nat) (ap sp : Nat) (app spp : Nat)
    (hlo : 20 ≤ s.ramLo)
    (hbase : s.ramLo ≤ s.m_pMemory)
    (hE : s.m_pMemory + s.m_uMemorySize ≤ s.ramHi)
    (hhi : s.ramHi < 4294967296)
    (hblk : s.m_pBlock = s.m_pMemory)
    (hNE : a + 28 + sb + 28 + sn ≤ s.m_pMemory + s.m_uMemorySize)
    (hBn : read32 s.ram a = a + 28 + sb)
    (hBs : read32 s.ram (a + 4) = sb)
    (hBl : read32 s.ram (a + 12) = 0)
    (hNf : (read8 s.ram (a + 28 + sb + 8) != 0) = true)
    (hNs : read32 s.ram (a + 28 + sb + 4) = sn)
    (hNr : read32 s.ram (a + 28 + sb + 16) = 0)
    (hNn : read32 s.ram (a + 28 + sb) = a + 28 + sb + 28 + sn)
    (hmid : a + 28 + sb + 28 + sn + 20 ≤ s.m_pMemory + s.m_uMemorySize)
    (hNNl : read32 s.ram (a + 28 + sb + 28 + sn + 12) = 0)
    (hap : ap + 28 + sp = a)
    (hPb : read32 s.ram (a - 8) = ap)
    (hPf : (read8 s.ram (ap + 8) != 0) = true)
    (hPl : read32 s.ram (ap + 12) = 0)
    (happ : app + 28 + spp = ap)
    (hPPlo : s.m_pMemory ≤ app)
    (hPPb : read32 s.ram (ap - 8) = app)
    (hPPn : read32 s.ram app = ap) :
    Ends (MergeWithNearbyBlocks s a (a + 28 + sb)) (fun s' =>
      s'.m_ELastHeapError = s.m_ELastHeapError ∧ s'.m_uNumAllocations = s.m_uNumAllocations ∧
      s'.m_uFreeSpace = s.m_uFreeSpace ∧ s'.m_pMemory = s.m_pMemory ∧
      s'.m_uMemorySize = s.m_uMemorySize ∧ s'.m_pBlock = s.m_pBlock ∧
      s'.ramLo = s.ramLo ∧ s'.ramHi = s.ramHi ∧
      headerAt s'.ram ap = ⟨a + 28 + sb + 28 + sn, sp + 28 + sb + 28 + sn, true, 0, 0⟩ ∧
      footerAt s'.ram (ap + 20 + (sp + 28 + sb + 28 + sn)) = ⟨ap, sp + 28 + sb + 28 + sn⟩ ∧
      ∀ x, x < ap ∨ ap + 28 + (sp + 28 + sb + 28 + sn) ≤ x → read8 s'.ram x = read8 s.ram x) := by
  have hne : a ≠ s.m_pBlock := by omega
  have hne' : ap ≠ s.m_pBlock := by omega
  simp (disch := first | omega | (dsimp only; omega) |
      ((try dsimp only); simp (disch := omega) only [read32_write32_other, read32_write32_at, hBn,
        hBs, hBl, hNs, hNr, hNn, hNNl, hPb, hPl, hPPb, hPPn, read8_write32_other, hNf, hPf])) only
    [MergeWithNearbyBlocks, MergeForwards_mid _ _ _ (a + 28 + sb) sn,
      MergeBackwards_freeAfter _ _ _ (a + 28 + sb + 28 + sn) ap app, MergeBlocks_link, load32_ok,
      ok_bind,
    read32_write32_other, read32_write32_at, hBn, hBs, hBl, hNs, hNr, hNn, hNNl, hPb, hPl, hPPb,
      hPPn, bne_self_eq_false, Bool.false_eq_true, if_false]
  refine Ends_ok _ _ ?_
  dsimp only
  refine ⟨rfl, rfl, rfl, rfl, rfl, by omega, rfl, rfl, ?_, ?_, ?_⟩
  · simp (disch := omega) only [headerAt, read32_fill_other, read32_write32_other,
    read32_write32_at, read32_stampBlock_other, read32_stampBlock_next, read32_stampBlock_size,
    read32_stampBlock_left, read32_stampBlock_right, read32_stampBlock_back,
    read32_stampBlock_fsize, read8_fill_other, read8_write32_other, read8_write8_other,
    read8_stampBlock_other, read8_stampBlock_free]
    congr 1 <;> first | omega | decide
  · simp (disch := omega) only [footerAt, read32_fill_other, read32_write32_other,
    read32_write32_at, read32_stampBlock_other, read32_stampBlock_next, read32_stampBlock_size,
    read32_stampBlock_left, read32_stampBlock_right, read32_stampBlock_back,
    read32_stampBlock_fsize]
    congr 1 <;> omega
  · intro x hx
    simp (disch := first | omega | (simp (disch := omega) only [read32_write32_other,
      read32_stampBlock_other, hBn, hBs, hBl, hNs, hNr, hNn, hNNl, hPb, hPl, hPPb,
      hPPn])) only [read8_fill_other, read8_write32_other, read8_write8_other,
      read8_stampBlock_other, read8_stampBlock_free, read8_write32_same_word]

/-! ### `Deallocate` on a block of a chain without padding -/

theorem Ends_mono {α : Type} {r : Except Fault α} {Q Q' : α → Prop} (h : Ends r Q)
    (hq : ∀ a, Q a → Q' a) : Ends r Q' := by
  obtain ⟨a, e, ha⟩ := h
  exact ⟨a, e, hq a ha⟩

/-- The merged block `[st, en)` in the terms of its two ends. -/
theorem conv_merged (s s' : CManagedHeap) (a n st en nx sz E : Nat)
    (hsz : st + 28 + sz = en) (hnx : nx = if en = E then 0 else en) (hm : st + 28 + n < en)
    (h : s'.m_ELastHeapError = s.m_ELastHeapError ∧
      s'.m_uNumAllocations = s.m_uNumAllocations ∧
      s'.m_uFreeSpace = s.m_uFreeSpace ∧ s'.m_pMemory = s.m_pMemory ∧
      s'.m_uMemorySize = s.m_uMemorySize ∧ s'.m_pBlock = s.m_pBlock ∧
      s'.ramLo = s.ramLo ∧ s'.ramHi = s.ramHi ∧
      headerAt s'.ram st = ⟨nx, sz, true, 0, 0⟩ ∧
      footerAt s'.ram (st + 20 + sz) = ⟨st, sz⟩ ∧
      ∀ x, x < st ∨ st + 28 + sz ≤ x → read8 s'.ram x = read8 s.ram x) :
    (s'.m_ELastHeapError = s.m_ELastHeapError ∧
      s'.m_uNumAllocations = s.m_uNumAllocations ∧
      s'.m_uFreeSpace = s.m_uFreeSpace ∧ s'.m_pMemory = s.m_pMemory ∧
      s'.m_uMemorySize = s.m_uMemorySize ∧ s'.m_pBlock = s.m_pBlock ∧
      s'.ramLo = s.ramLo ∧ s'.ramHi = s.ramHi) ∧
    ((st = a ∧ en = a + 28 + n ∧
        ∀ x, x < a + 20 ∨ a + 20 + n ≤ x → read8 s'.ram x = read8 s.ram x) ∨
      (st + 28 + n < en ∧
        headerAt s'.ram st = ⟨if en = E then 0 else en, en - st - 28, true, 0, 0⟩ ∧
        footerAt s'.ram (en - 8) = ⟨st, en - st - 28⟩ ∧
        ∀ x, x < st ∨ en ≤ x → read8 s'.ram x = read8 s.ram x)) := by
  obtain ⟨h1, h2, h3, h4, h5, h6, h7, h8, hh, hf, hfr⟩ := h
  have e1 : en - st - 28 = sz := by omega
  have e2 : en - 8 = st + 20 + sz := by omega
  rw [e1, e2, ← hnx]
  refine ⟨⟨h1, h2, h3, h4, h5, h6, h7, h8⟩, Or.inr ⟨hm, hh, hf, ?_⟩⟩
  intro x hx
  exact hfr x (by omega)

theorem conv_keep (s s' : CManagedHeap) (a n st en : Nat) (hst : st = a) (hen : en = a + 28 + n)
    (h : s'.m_ELastHeapError = s.m_ELastHeapError ∧
      s'.m_uNumAllocations = s.m_uNumAllocations ∧
      s'.m_uFreeSpace = s.m_uFreeSpace ∧ s'.m_pMemory = s.m_pMemory ∧
      s'.m_uMemorySize = s.m_uMemorySize ∧ s'.m_pBlock = s.m_pBlock ∧
      s'.ramLo = s.ramLo ∧ s'.ramHi = s.ramHi ∧
      ∀ x, x < a + 20 ∨ a + 20 + n ≤ x → read8 s'.ram x = read8 s.ram x) (P : Prop) :
    (s'.m_ELastHeapError = s.m_ELastHeapError ∧
      s'.m_uNumAllocations = s.m_uNumAllocations ∧
      s'.m_uFreeSpace = s.m_uFreeSpace ∧ s'.m_pMemory = s.m_pMemory ∧
      s'.m_uMemorySize = s.m_uMemorySize ∧ s'.m_pBlock = s.m_pBlock ∧
      s'.ramLo = s.ramLo ∧ s'.ramHi = s.ramHi) ∧
    ((st = a ∧ en = a + 28 + n ∧
        ∀ x, x < a + 20 ∨ a + 20 + n ≤ x → read8 s'.ram x = read8 s.ram x) ∨ P) := by
  obtain ⟨h1, h2, h3, h4, h5, h6, h7, h8, hfr⟩ := h
  exact ⟨⟨h1, h2, h3, h4, h5, h6, h7, h8⟩, Or.inl ⟨hst, hen, hfr⟩⟩

theorem Merge_keep (s : CManagedHeap) (a n st : Nat)
    (hlo : 20 ≤ s.ramLo) (hbase : s.ramLo ≤ s.m_pMemory)
    (hE : s.m_pMemory + s.m_uMemorySize ≤ s.ramHi) (hhi : s.ramHi < 4294967296)
    (hblk : s.m_pBlock = s.m_pMemory) (ha : s.m_pMemory ≤ a)
    (hBs : read32 s.ram (a + 4) = n)
    (hBn : read32 s.ram a = a + 28 + n) (hBl : read32 s.ram (a + 12) = 0)
    (hN1 : a + 28 + n + 28 ≤ s.m_pMemory + s.m_uMemorySize)
    (hNf : (read8 s.ram (a + 28 + n + 8) != 0) = false)
    (hL : ViewL s.ram s.m_pMemory a st) :
    Ends (MergeWithNearbyBlocks s a (a + 28 + n)) (fun s' =>
      (s'.m_ELastHeapError = s.m_ELastHeapError ∧
        s'.m_uNumAllocations = s.m_uNumAllocations ∧
        s'.m_uFreeSpace = s.m_uFreeSpace ∧ s'.m_pMemory = s.m_pMemory ∧
        s'.m_uMemorySize = s.m_uMemorySize ∧ s'.m_pBlock = s.m_pBlock ∧
        s'.ramLo = s.ramLo ∧ s'.ramHi = s.ramHi) ∧
      ((st = a ∧ a + 28 + n = a + 28 + n ∧
          ∀ x, x < a + 20 ∨ a + 20 + n ≤ x → read8 s'.ram x = read8 s.ram x) ∨
        (st + 28 + n < a + 28 + n ∧
          headerAt s'.ram st = ⟨if a + 28 + n = s.m_pMemory + s.m_uMemorySize then 0
            else a + 28 + n, a + 28 + n - st - 28, true, 0, 0⟩ ∧
          footerAt s'.ram (a + 28 + n - 8) = ⟨st, a + 28 + n - st - 28⟩ ∧
          ∀ x, x < st ∨ a + 28 + n ≤ x → read8 s'.ram x = read8 s.ram x))) := by
  rcases hL with ⟨hst, hfirst | ⟨ap, hP1, hP2, hPb, hPf, hPn⟩⟩ |
    ⟨hS1, hS2, hPb, hPf, hPl, hPfirst | ⟨app, hQ1, hQ2, hPPb, hPPn⟩⟩
  · exact Ends_mono (Merge_first_keep s a n 0 hlo hbase hE hhi hblk ha hN1 hBn hBs hBl
      hNf hfirst) (fun s' h => conv_keep s s' a n st _ hst rfl h _)
  · exact Ends_mono (Merge_alloc_keep s a n 0 ap (a - ap - 28) hlo hbase hE hhi hblk ha hN1
      hBn hBs hBl hNf (by omega) hPb hP1 hPf hPn) (fun s' h => conv_keep s s' a n st _ hst rfl h _)
  · exact Ends_mono (Merge_freeFirst_keep s a n 0 st (a - st - 28) hlo hbase hE hhi hblk hN1
      hBn hBs hBl hNf (by omega) hPb hPf hPl hPfirst)
      (fun s' h => conv_merged s s' a n st _ _ _ _ (by omega) (by rw [if_neg]; omega)
        (by omega) h)
  · exact Ends_mono (Merge_freeAfter_keep s a n 0 st (a - st - 28) app (st - app - 28)
      hlo hbase hE hhi hblk hN1 hBn hBs hBl hNf (by omega) hPb hPf hPl (by omega) hQ1 hPPb hPPn)
      (fun s' h => conv_merged s s' a n st _ _ _ _ (by omega) (by rw [if_neg]; omega)
        (by omega) h)

theorem Merge_last (s : CManagedHeap) (a n st en : Nat)
    (hlo : 20 ≤ s.ramLo) (hbase : s.ramLo ≤ s.m_pMemory)
    (hE : s.m_pMemory + s.m_uMemorySize ≤ s.ramHi) (hhi : s.ramHi < 4294967296)
    (hblk : s.m_pBlock = s.m_pMemory) (ha : s.m_pMemory ≤ a)
    (hBs : read32 s.ram (a + 4) = n)
    (hBn : read32 s.ram a = a + 28 + n) (hBl : read32 s.ram (a + 12) = 0)
    (hN1 : a + 28 + n + 28 ≤ en) (hN2 : en ≤ s.m_pMemory + s.m_uMemorySize)
    (hNf : (read8 s.ram (a + 28 + n + 8) != 0) = true)
    (hNs : read32 s.ram (a + 28 + n + 4) = en - (a + 28 + n) - 28)
    (hNr : read32 s.ram (a + 28 + n + 16) = 0)
    (hlast : en = s.m_pMemory + s.m_uMemorySize) (hNn : read32 s.ram (a + 28 + n) = 0)
    (hL : ViewL s.ram s.m_pMemory a st) :
    Ends (MergeWithNearbyBlocks s a (a + 28 + n)) (fun s' =>
      (s'.m_ELastHeapError = s.m_ELastHeapError ∧
        s'.m_uNumAllocations = s.m_uNumAllocations ∧
        s'.m_uFreeSpace = s.m_uFreeSpace ∧ s'.m_pMemory = s.m_pMemory ∧
        s'.m_uMemorySize = s.m_uMemorySize ∧ s'.m_pBlock = s.m_pBlock ∧
        s'.ramLo = s.ramLo ∧ s'.ramHi = s.ramHi) ∧
      ((st = a ∧ en = a + 28 + n ∧
          ∀ x, x < a + 20 ∨ a + 20 + n ≤ x → read8 s'.ram x = read8 s.ram x) ∨
        (st + 28 + n < en ∧
          headerAt s'.ram st = ⟨if en = s.m_pMemory + s.m_uMemorySize then 0 else en,
            en - st - 28, true, 0, 0⟩ ∧
          footerAt s'.ram (en - 8) = ⟨st, en - st - 28⟩ ∧
          ∀ x, x < st ∨ en ≤ x → read8 s'.ram x = read8 s.ram x))) := by
  obtain ⟨sn, hsn⟩ : ∃ sn, en = a + 28 + n + 28 + sn := ⟨en - (a + 28 + n) - 28, by omega⟩
  subst hsn
  have hNs1 : read32 s.ram (a + 28 + n + 4) = sn := hNs.trans (by omega)
  rcases hL with ⟨hst, hfirst | ⟨ap, hP1, hP2, hPb, hPf, hPn⟩⟩ |
    ⟨hS1, hS2, hPb, hPf, hPl, hPfirst | ⟨app, hQ1, hQ2, hPPb, hPPn⟩⟩
  · subst st
    exact Ends_mono (Merge_first_last s a n sn hlo hbase hE hhi hblk ha (by omega) hBn hBs
      hBl hNf hNs1 hNr hNn hlast hfirst)
      (fun s' h => conv_merged s s' a n a _ _ _ _ (by omega) (by rw [if_pos]; omega)
      (by omega) h)
  · subst st
    exact Ends_mono (Merge_alloc_last s a n sn ap (a - ap - 28) hlo hbase hE hhi hblk ha
      (by omega) hBn hBs hBl hNf hNs1 hNr hNn hlast (by omega) hPb hP1 hPf hPn)
      (fun s' h => conv_merged s s' a n a _ _ _ _ (by omega) (by rw [if_pos]; omega)
      (by omega) h)
  · exact Ends_mono (Merge_freeFirst_last s a n sn st (a - st - 28) hlo hbase hE hhi hblk
      (by omega) hBn hBs hBl hNf hNs1 hNr hNn hlast (by omega) hPb hPf hPl hPfirst)
      (fun s' h => conv_merged s s' a n st _ _ _ _ (by omega) (by rw [if_pos]; omega)
      (by omega) h)
  · exact Ends_mono (Merge_freeAfter_last s a n sn st (a - st - 28) app (st - app - 28)
      hlo hbase hE hhi hblk (by omega) hBn hBs hBl hNf hNs1 hNr hNn hlast (by omega) hPb hPf hPl
      (by omega) hQ1 hPPb hPPn)
      (fun s' h => conv_merged s s' a n st _ _ _ _ (by omega) (by rw [if_pos]; omega)
      (by omega) h)

theorem Merge_mid (s : CManagedHeap) (a n st en : Nat)
    (hlo : 20 ≤ s.ramLo) (hbase : s.ramLo ≤ s.m_pMemory)
    (hE : s.m_pMemory + s.m_uMemorySize ≤ s.ramHi) (hhi : s.ramHi < 4294967296)
    (hblk : s.m_pBlock = s.m_pMemory) (ha : s.m_pMemory ≤ a)
    (hBs : read32 s.ram (a + 4) = n)
    (hBn : read32 s.ram a = a + 28 + n) (hBl : read32 s.ram (a + 12) = 0)
    (hN1 : a + 28 + n + 28 ≤ en) (hN2 : en ≤ s.m_pMemory + s.m_uMemorySize)
    (hNf : (read8 s.ram (a + 28 + n + 8) != 0) = true)
    (hNs : read32 s.ram (a + 28 + n + 4) = en - (a + 28 + n) - 28)
    (hNr : read32 s.ram (a + 28 + n + 16) = 0)
    (hmid : en + 20 ≤ s.m_pMemory + s.m_uMemorySize) (hNn : read32 s.ram (a + 28 + n) = en)
    (hNNl : read32 s.ram (en + 12) = 0)
    (hL : ViewL s.ram s.m_pMemory a st) :
    Ends (MergeWithNearbyBlocks s a (a + 28 + n)) (fun s' =>
      (s'.m_ELastHeapError = s.m_ELastHeapError ∧
        s'.m_uNumAllocations = s.m_uNumAllocations ∧
        s'.m_uFreeSpace = s.m_uFreeSpace ∧ s'.m_pMemory = s.m_pMemory ∧
        s'.m_uMemorySize = s.m_uMemorySize ∧ s'.m_pBlock = s.m_pBlock ∧
        s'.ramLo = s.ramLo ∧ s'.ramHi = s.ramHi) ∧
      ((st = a ∧ en = a + 28 + n ∧
          ∀ x, x < a + 20 ∨ a + 20 + n ≤ x → read8 s'.ram x = read8 s.ram x) ∨
        (st + 28 + n < en ∧
          headerAt s'.ram st = ⟨if en = s.m_pMemory + s.m_uMemorySize then 0 else en,
            en - st - 28, true, 0, 0⟩ ∧
          footerAt s'.ram (en - 8) = ⟨st, en - st - 28⟩ ∧
          ∀ x, x < st ∨ en ≤ x → read8 s'.ram x = read8 s.ram x))) := by
  obtain ⟨sn, hsn⟩ : ∃ sn, en = a + 28 + n + 28 + sn := ⟨en - (a + 28 + n) - 28, by omega⟩
  subst hsn
  have hNs1 : read32 s.ram (a + 28 + n + 4) = sn := hNs.trans (by omega)
  rcases hL with ⟨hst, hfirst | ⟨ap, hP1, hP2, hPb, hPf, hPn⟩⟩ |
    ⟨hS1, hS2, hPb, hPf, hPl, hPfirst | ⟨app, hQ1, hQ2, hPPb, hPPn⟩⟩
  · subst st
    exact Ends_mono (Merge_first_mid s a n sn hlo hbase hE hhi hblk ha (by omega) hBn hBs
      hBl hNf hNs1 hNr hNn hmid hNNl hfirst)
      (fun s' h => conv_merged s s' a n a _ _ _ _ (by omega) (by rw [if_neg]; omega)
      (by omega) h)
  · subst st
    exact Ends_mono (Merge_alloc_mid s a n sn ap (a - ap - 28) hlo hbase hE hhi hblk ha
      (by omega) hBn hBs hBl hNf hNs1 hNr hNn hmid hNNl (by omega) hPb hP1 hPf hPn)
      (fun s' h => conv_merged s s' a n a _ _ _ _ (by omega) (by rw [if_neg]; omega)
      (by omega) h)
  · exact Ends_mono (Merge_freeFirst_mid s a n sn st (a - st - 28) hlo hbase hE hhi hblk
      (by omega) hBn hBs hBl hNf hNs1 hNr hNn hmid hNNl (by omega) hPb hPf hPl hPfirst)
      (fun s' h => conv_merged s s' a n st _ _ _ _ (by omega) (by rw [if_neg]; omega)
      (by omega) h)
  · exact Ends_mono (Merge_freeAfter_mid s a n sn st (a - st - 28) app (st - app - 28)
      hlo hbase hE hhi hblk (by omega) hBn hBs hBl hNf hNs1 hNr hNn hmid hNNl (by omega) hPb hPf hPl
      (by omega) hQ1 hPPb hPPn)
      (fun s' h => conv_merged s s' a n st _ _ _ _ (by omega) (by rw [if_neg]; omega)
      (by omega) h)

theorem read32_congr (r r' : Nat → Nat) (a : Nat)
    (h : ∀ x, a ≤ x → x < a + 4 → read8 r' x = read8 r x) : read32 r' a = read32 r a := by
  unfold read32
  rw [h a (by omega) (by omega), h (a + 1) (by omega) (by omega),
    h (a + 2) (by omega) (by omega), h (a + 3) (by omega) (by omega)]

theorem Deallocate_entry (s : CManagedHeap) (a n : Nat)
    (hlo : 20 ≤ s.ramLo) (hb : s.ramLo ≤ a ∧ a + 28 + n + 16 ≤ s.ramHi)
    (hhi : s.ramHi < 4294967296)
    (hBf : (read8 s.ram (a + 8) != 0) = false) (hBs : read32 s.ram (a + 4) = n)
    (hBn : read32 s.ram a = a + 28 + n) :
    Deallocate s (a + 20) = MergeWithNearbyBlocks { s with
      m_ELastHeapError := checkStatus a (read32 s.ram (a + 20 + n)) (read32 s.ram (a + 16))
        (read32 s.ram (a + 28 + n + 12))
      m_uNumAllocations := sub32 s.m_uNumAllocations 1
      m_uFreeSpace := add32 s.m_uFreeSpace n
      m_uActualFreeSpace := add32 s.m_uActualFreeSpace n
      ram := write8 s.ram (a + 8) 1 } a (a + 28 + n) := by
  have e0 : (a + 20 == 0) = false := by simp
  have e1 : ptrSub (a + 20) 20 = a := by
    unfold ptrSub
    omega
  have e2 : ptrAdd (ptrAdd a 20) n = a + 20 + n := by
    unfold ptrAdd
    omega
  have e3 : ptrAdd (a + 20 + n) 8 = a + 28 + n := by
    unfold ptrAdd
    omega
  simp (disch := first | omega | (dsimp only; omega)) only [Deallocate, GetFooter,
    sizeofSBlockHeader, sizeofSFooterBlock, e0, e1, e2, e3, loadBool_ok, storeBool_ok, load32_ok,
    ok_bind, bind_assoc, pure_bind, read32_write8_other, hBf, hBs, hBn, Bool.false_eq_true,
    if_false, if_true]
  rfl

/-- From what `MergeWithNearbyBlocks` did to what `Deallocate` did. -/
theorem post_final (s s1 s' : CManagedHeap) (a n st en : Nat) (err : EHeapState)
    (f1 : s1.m_ELastHeapError = err)
    (f2 : s1.m_uNumAllocations = sub32 s.m_uNumAllocations 1)
    (f3 : s1.m_uFreeSpace = add32 s.m_uFreeSpace n) (f4 : s1.m_pMemory = s.m_pMemory)
    (f5 : s1.m_uMemorySize = s.m_uMemorySize) (f6 : s1.m_pBlock = s.m_pBlock)
    (f7 : s1.ramLo = s.ramLo) (f8 : s1.ramHi = s.ramHi)
    (hram : s1.ram = write8 s.ram (a + 8) 1) (hst : st ≤ a) (hen : a + 28 + n ≤ en)
    (hE : a + 28 + n < s.m_pMemory + s.m_uMemorySize)
    (hBs : read32 s.ram (a + 4) = n) (hBn : read32 s.ram a = a + 28 + n)
    (hBl : read32 s.ram (a + 12) = 0)
    (h : (s'.m_ELastHeapError = s1.m_ELastHeapError ∧
        s'.m_uNumAllocations = s1.m_uNumAllocations ∧
        s'.m_uFreeSpace = s1.m_uFreeSpace ∧ s'.m_pMemory = s1.m_pMemory ∧
        s'.m_uMemorySize = s1.m_uMemorySize ∧ s'.m_pBlock = s1.m_pBlock ∧
        s'.ramLo = s1.ramLo ∧ s'.ramHi = s1.ramHi) ∧
      ((st = a ∧ en = a + 28 + n ∧
          ∀ x, x < a + 20 ∨ a + 20 + n ≤ x → read8 s'.ram x = read8 s1.ram x) ∨
        (st + 28 + n < en ∧
          headerAt s'.ram st = ⟨if en = s1.m_pMemory + s1.m_uMemorySize then 0 else en,
            en - st - 28, true, 0, 0⟩ ∧
          footerAt s'.ram (en - 8) = ⟨st, en - st - 28⟩ ∧
          ∀ x, x < st ∨ en ≤ x → read8 s'.ram x = read8 s1.ram x))) :
    s'.m_ELastHeapError = err ∧
      s'.m_uNumAllocations = sub32 s.m_uNumAllocations 1 ∧
      s'.m_uFreeSpace = add32 s.m_uFreeSpace n ∧ s'.m_pMemory = s.m_pMemory ∧
      s'.m_uMemorySize = s.m_uMemorySize ∧ s'.m_pBlock = s.m_pBlock ∧
      s'.ramLo = s.ramLo ∧ s'.ramHi = s.ramHi ∧
      (read8 s'.ram (st + 8) != 0) = true ∧ read32 s'.ram (st + 4) = en - st - 28 ∧
      (∀ x, x < st ∨ en ≤ x → read8 s'.ram x = read8 s.ram x) ∧
      (read32 s.ram (a + 16) = 0 → read32 s.ram (a + 20 + n) = a →
        read32 s.ram (a + 20 + n + 4) = n →
        headerAt s'.ram st =
          ⟨if en = s.m_pMemory + s.m_uMemorySize then 0 else en, en - st - 28, true, 0, 0⟩ ∧
        footerAt s'.ram (en - 8) = ⟨st, en - st - 28⟩) := by
  obtain ⟨⟨h1, h2, h3, h4, h5, h6, h7, h8⟩, ⟨hst', hen', hfr⟩ | ⟨-, hh, hf, hfr⟩⟩ := h
  · subst st en
    have e1 : a + 28 + n - a - 28 = n := by omega
    have e2 : a + 28 + n - 8 = a + 20 + n := by omega
    have e3 : (if a + 28 + n = s.m_pMemory + s.m_uMemorySize then 0 else a + 28 + n) =
        a + 28 + n := if_neg (by omega)
    rw [e1, e2, e3]
    have w : ∀ x, x + 4 ≤ a + 8 ∨ a + 12 ≤ x → x + 4 ≤ a + 20 ∨ a + 20 + n ≤ x →
        read32 s'.ram x = read32 s.ram x := by
      intro x hx hx'
      refine read32_congr _ _ _ (fun y hy hy' => ?_)
      rw [hfr y (by omega), hram]
      exact read8_write8_other _ _ _ _ (by omega)
    have hfree : (read8 s'.ram (a + 8) != 0) = true := by
      rw [hfr _ (by omega), hram, read8_write8_same]
      decide
    refine ⟨h1.trans f1, h2.trans f2, h3.trans f3, h4.trans f4, h5.trans f5, h6.trans f6,
      h7.trans f7, h8.trans f8, hfree, ?_, ?_, ?_⟩
    · rw [w _ (by omega) (by omega), hBs]
    · intro x hx
      rw [hfr x (by omega), hram]
      exact read8_write8_other _ _ _ _ (by omega)
    · intro hr hb hs
      constructor
      · unfold headerAt
        rw [w _ (by omega) (by omega), w _ (by omega) (by omega), w _ (by omega) (by omega),
          w _ (by omega) (by omega), hfree, hBs, hBn, hBl, hr]
      · unfold footerAt
        rw [w _ (by omega) (by omega), w _ (by omega) (by omega), hb, hs]
  · rw [f4, f5] at hh
    refine ⟨h1.trans f1, h2.trans f2, h3.trans f3, h4.trans f4, h5.trans f5, h6.trans f6,
      h7.trans f7, h8.trans f8, congrArg SBlockHeader.m_bIsFreeBlock hh,
      congrArg SBlockHeader.m_uBlockSize hh, ?_, fun _ _ _ => ⟨hh, hf⟩⟩
    intro x hx
    rw [hfr x hx, hram]
    exact read8_write8_other _ _ _ _ (by omega)

theorem Deallocate_local (s : CManagedHeap) (a n st en : Nat)
    (hlo : 20 ≤ s.ramLo) (hbase : s.ramLo ≤ s.m_pMemory)
    (hE : s.m_pMemory + s.m_uMemorySize ≤ s.ramHi) (hhi : s.ramHi < 4294967296)
    (hblk : s.m_pBlock = s.m_pMemory) (ha : s.m_pMemory ≤ a)
    (hBf : (read8 s.ram (a + 8) != 0) = false) (hBs : read32 s.ram (a + 4) = n)
    (hBn : read32 s.ram a = a + 28 + n) (hBl : read32 s.ram (a + 12) = 0)
    (hR : ViewR s.ram (s.m_pMemory + s.m_uMemorySize) (a + 28 + n) en)
    (hL : ViewL s.ram s.m_pMemory a st) :
    Ends (Deallocate s (a + 20)) (fun s' =>
      s'.m_ELastHeapError = checkStatus a (read32 s.ram (a + 20 + n)) (read32 s.ram (a + 16))
        (read32 s.ram (a + 28 + n + 12)) ∧
      s'.m_uNumAllocations = sub32 s.m_uNumAllocations 1 ∧
      s'.m_uFreeSpace = add32 s.m_uFreeSpace n ∧ s'.m_pMemory = s.m_pMemory ∧
      s'.m_uMemorySize = s.m_uMemorySize ∧ s'.m_pBlock = s.m_pBlock ∧
      s'.ramLo = s.ramLo ∧ s'.ramHi = s.ramHi ∧
      (read8 s'.ram (st + 8) != 0) = true ∧ read32 s'.ram (st + 4) = en - st - 28 ∧
      (∀ x, x < st ∨ en ≤ x → read8 s'.ram x = read8 s.ram x) ∧
      (read32 s.ram (a + 16) = 0 → read32 s.ram (a + 20 + n) = a →
        read32 s.ram (a + 20 + n + 4) = n →
        headerAt s'.ram st =
          ⟨if en = s.m_pMemory + s.m_uMemorySize then 0 else en, en - st - 28, true, 0, 0⟩ ∧
        footerAt s'.ram (en - 8) = ⟨st, en - st - 28⟩)) := by
  have hNE : a + 28 + n + 28 ≤ s.m_pMemory + s.m_uMemorySize := by
    rcases hR with h | h <;> omega
  have hst : st ≤ a := by
    rcases hL with h | h <;> omega
  have hen : a + 28 + n ≤ en := by
    rcases hR with h | h <;> omega
  rw [Deallocate_entry s a n hlo (by omega) hhi hBf hBs hBn]
  obtain ⟨s1, hs1⟩ : ∃ s1 : CManagedHeap, s1 = { s with
      m_ELastHeapError := checkStatus a (read32 s.ram (a + 20 + n)) (read32 s.ram (a + 16))
        (read32 s.ram (a + 28 + n + 12))
      m_uNumAllocations := sub32 s.m_uNumAllocations 1
      m_uFreeSpace := add32 s.m_uFreeSpace n
      m_uActualFreeSpace := add32 s.m_uActualFreeSpace n
      ram := write8 s.ram (a + 8) 1 } := ⟨_, rfl⟩
  rw [← hs1]
  have f1 : s1.m_ELastHeapError = checkStatus a (read32 s.ram (a + 20 + n))
      (read32 s.ram (a + 16)) (read32 s.ram (a + 28 + n + 12)) := by rw [hs1]
  have f2 : s1.m_uNumAllocations = sub32 s.m_uNumAllocations 1 := by rw [hs1]
  have f3 : s1.m_uFreeSpace = add32 s.m_uFreeSpace n := by rw [hs1]
  have f4 : s1.m_pMemory = s.m_pMemory := by rw [hs1]
  have f5 : s1.m_uMemorySize = s.m_uMemorySize := by rw [hs1]
  have f6 : s1.m_pBlock = s.m_pBlock := by rw [hs1]
  have f7 : s1.ramLo = s.ramLo := by rw [hs1]
  have f8 : s1.ramHi = s.ramHi := by rw [hs1]
  have hram : s1.ram = write8 s.ram (a + 8) 1 := by rw [hs1]
  clear hs1
  have r32 : ∀ x v, x + 4 ≤ a + 8 ∨ a + 9 ≤ x → read32 s.ram x = v → read32 s1.ram x = v := by
    intro x v hx h
    rw [hram, read32_write8_other _ _ _ _ (by omega), h]
  have r8 : ∀ x v, x ≠ a + 8 → (read8 s.ram x != 0) = v → (read8 s1.ram x != 0) = v := by
    intro x v hx h
    rw [hram, read8_write8_other _ _ _ _ (by omega), h]
  have hlo1 : 20 ≤ s1.ramLo := by omega
  have hbase1 : s1.ramLo ≤ s1.m_pMemory := by omega
  have hE1 : s1.m_pMemory + s1.m_uMemorySize ≤ s1.ramHi := by omega
  have hhi1 : s1.ramHi < 4294967296 := by omega
  have hblk1 : s1.m_pBlock = s1.m_pMemory := by omega
  have ha1 : s1.m_pMemory ≤ a := by omega
  have hL1 : ViewL s1.ram s1.m_pMemory a st := by
    rw [f4]
    rcases hL with ⟨hst, hfirst | ⟨ap, hP1, hP2, hPb, hPf, hPn⟩⟩ |
      ⟨hS1, hS2, hPb, hPf, hPl, hPfirst | ⟨app, hQ1, hQ2, hPPb, hPPn⟩⟩
    · exact Or.inl ⟨hst, Or.inl hfirst⟩
    · exact Or.inl ⟨hst, Or.inr ⟨ap, hP1, hP2, r32 _ _ (by omega) hPb, r8 _ _ (by omega) hPf,
        r32 _ _ (by omega) hPn⟩⟩
    · exact Or.inr ⟨hS1, hS2, r32 _ _ (by omega) hPb, r8 _ _ (by omega) hPf,
        r32 _ _ (by omega) hPl, Or.inl hPfirst⟩
    · exact Or.inr ⟨hS1, hS2, r32 _ _ (by omega) hPb, r8 _ _ (by omega) hPf,
        r32 _ _ (by omega) hPl, Or.inr ⟨app, hQ1, hQ2, r32 _ _ (by omega) hPPb,
        r32 _ _ (by omega) hPPn⟩⟩
  have hBn1 := r32 _ _ (by omega) hBn
  have hBs1 := r32 _ _ (by omega) hBs
  have hBl1 := r32 _ _ (by omega) hBl
  have fin := fun s' => post_final s s1 s' a n st en _ f1 f2 f3 f4 f5 f6 f7 f8 hram hst hen
    (by omega) hBs hBn hBl
  rcases hR with ⟨hen, hN1, hNf⟩ | ⟨hN1, hN2, hNf, hNs, hNr, ⟨hlast, hNn⟩ | ⟨hmid, hNn, hNNl⟩⟩
  · subst hen
    exact Ends_mono (Merge_keep s1 a n st hlo1 hbase1 hE1 hhi1 hblk1 ha1 hBs1 hBn1 hBl1
      (by omega) (r8 _ _ (by omega) hNf) hL1) fin
  · exact Ends_mono (Merge_last s1 a n st en hlo1 hbase1 hE1 hhi1 hblk1 ha1 hBs1 hBn1 hBl1
      hN1 (by omega) (r8 _ _ (by omega) hNf) (r32 _ _ (by omega) hNs) (r32 _ _ (by omega) hNr)
      (by omega) (r32 _ _ (by omega) hNn) hL1) fin
  · exact Ends_mono (Merge_mid s1 a n st en hlo1 hbase1 hE1 hhi1 hblk1 ha1 hBs1 hBn1 hBl1
      hN1 (by omega) (r8 _ _ (by omega) hNf) (r32 _ _ (by omega) hNs) (r32 _ _ (by omega) hNr)
      (by omega) (r32 _ _ (by omega) hNn) (r32 _ _ (by omega) hNNl) hL1) fin

/-! ### Chains of blocks -/

theorem span_append (xs ys : List (Nat × Bool)) : span (xs ++ ys) = span xs + span ys := by
  induction xs with
  | nil => simp [span]
  | cons b bs ih =>
    rw [List.cons_append]
    simp only [span, ih]
    omega

theorem allocSum_append (xs ys : List (Nat × Bool)) :
    allocSum (xs ++ ys) = allocSum xs + allocSum ys := by
  induction xs with
  | nil => simp [allocSum]
  | cons b bs ih =>
    rw [List.cons_append]
    simp only [allocSum, ih]
    omega

theorem allocSum_le_span (xs : List (Nat × Bool)) : allocSum xs ≤ span xs := by
  induction xs with
  | nil => simp [allocSum, span]
  | cons b bs ih =>
    simp only [allocSum, span]
    split <;> omega

theorem live_append (a : Nat) (xs ys : List (Nat × Bool)) :
    live a (xs ++ ys) = live a xs ++ live (a + span xs) ys := by
  induction xs generalizing a with
  | nil => simp [live, span]
  | cons b bs ih =>
    have e : a + 28 + b.1 + span bs = a + (28 + b.1 + span bs) := by omega
    rw [List.cons_append]
    simp only [live, span, ih, e]
    split <;> simp

theorem Seg_append (ram : Nat → Nat) (E a : Nat) (xs ys : List (Nat × Bool)) :
    Seg ram E a (xs ++ ys) ↔ Seg ram E a xs ∧ Seg ram E (a + span xs) ys := by
  induction xs generalizing a with
  | nil => simp [Seg, span]
  | cons b bs ih =>
    have e : a + 28 + b.1 + span bs = a + (28 + b.1 + span bs) := by omega
    rw [List.cons_append]
    simp only [Seg, span, ih, e, and_assoc]

theorem Seg_le (ram : Nat → Nat) (E a : Nat) (bs : List (Nat × Bool)) (hne : bs ≠ [])
    (h : Seg ram E a bs) : a + span bs ≤ E := by
  induction bs generalizing a with
  | nil => exact absurd rfl hne
  | cons b bs ih =>
    obtain ⟨hb, hs⟩ := h
    cases bs with
    | nil =>
      have := hb.1
      simp only [span]
      omega
    | cons c cs =>
      have := ih (a + 28 + b.1) (by simp) hs
      simp only [span] at this ⊢
      omega

theorem Block_congr (r r' : Nat → Nat) (E a n : Nat) (f : Bool)
    (h : ∀ x, a ≤ x → x < a + 28 + n → read8 r' x = read8 r x) (hb : Block r E a n f) :
    Block r' E a n f := by
  obtain ⟨h1, h2, h3⟩ := hb
  have w : ∀ x, a ≤ x → x + 4 ≤ a + 28 + n → read32 r' x = read32 r x := by
    intro x hx hx'
    exact read32_congr _ _ _ (fun y hy hy' => h y (by omega) (by omega))
  refine ⟨h1, ?_, ?_⟩
  · rw [← h2]
    unfold headerAt
    rw [w _ (by omega) (by omega), w _ (by omega) (by omega), w _ (by omega) (by omega),
      w _ (by omega) (by omega), h _ (by omega) (by omega)]
  · rw [← h3]
    unfold footerAt
    rw [w _ (by omega) (by omega), w _ (by omega) (by omega)]

theorem Seg_congr (r r' : Nat → Nat) (E a : Nat) (bs : List (Nat × Bool))
    (h : ∀ x, a ≤ x → x < a + span bs → read8 r' x = read8 r x) (hs : Seg r E a bs) :
    Seg r' E a bs := by
  induction bs generalizing a with
  | nil => trivial
  | cons b bs ih =>
    obtain ⟨hb, hs⟩ := hs
    simp only [span] at h
    refine ⟨Block_congr r r' E a b.1 b.2 (fun x hx hx' => h x hx (by omega)) hb, ?_⟩
    exact ih _ (fun x hx hx' => h x (by omega) (by omega)) hs

theorem live_ge (a q : Nat) (bs : List (Nat × Bool)) (h : q ∈ live a bs) :
    a + 20 ≤ q ∧ q + 8 ≤ a + span bs := by
  induction bs generalizing a with
  | nil => simp [live] at h
  | cons b bs ih =>
    simp only [live] at h
    simp only [span]
    split at h
    · have := ih _ h
      omega
    · rcases List.mem_cons.1 h with h | h
      · omega
      · have := ih _ h
        omega

theorem live_nodup (a : Nat) (bs : List (Nat × Bool)) : (live a bs).Nodup := by
  induction bs generalizing a with
  | nil => simp [live]
  | cons b bs ih =>
    simp only [live]
    split
    · exact ih _
    · refine List.nodup_cons.2 ⟨fun h => ?_, ih _⟩
      have := live_ge _ _ _ h
      omega

theorem live_length (a : Nat) (bs : List (Nat × Bool)) : 28 * (live a bs).length ≤ span bs := by
  induction bs generalizing a with
  | nil => simp [live, span]
  | cons b bs ih =>
    simp only [live, span]
    have := ih (a + 28 + b.1)
    split
    · omega
    · simp only [List.length_cons]
      omega

theorem live_split (a q : Nat) (bs : List (Nat × Bool)) (h : q ∈ live a bs) :
    ∃ pre n post, bs = pre ++ (n, false) :: post ∧ q = a + span pre + 20 := by
  induction bs generalizing a with
  | nil => simp [live] at h
  | cons b bs ih =>
    obtain ⟨n, f⟩ := b
    simp only [live] at h
    cases f with
    | true =>
      simp only [if_true] at h
      obtain ⟨pre, m, post, e, hq⟩ := ih _ h
      refine ⟨(n, true) :: pre, m, post, by rw [e]; rfl, ?_⟩
      simp only [span]
      omega
    | false =>
      simp only [Bool.false_eq_true, if_false] at h
      rcases List.mem_cons.1 h with h | h
      · exact ⟨[], n, bs, rfl, by simp [span, h]⟩
      · obtain ⟨pre, m, post, e, hq⟩ := ih _ h
        refine ⟨(n, false) :: pre, m, post, by rw [e]; rfl, ?_⟩
        simp only [span]
        omega

theorem live_eq_nil (a : Nat) (bs : List (Nat × Bool)) (h : live a bs = []) :
    ∀ b ∈ bs, b.2 = true := by
  induction bs generalizing a with
  | nil => simp
  | cons b bs ih =>
    simp only [live] at h
    split at h
    · intro c hc
      rcases List.mem_cons.1 hc with rfl | hc
      · assumption
      · exact ih _ h c hc
    · simp at h

theorem NoAdj_all_free (bs : List (Nat × Bool)) (h : NoAdj bs) (hf : ∀ b ∈ bs, b.2 = true) :
    bs.length ≤ 1 := by
  match bs, h, hf with
  | [], _, _ => simp
  | [_], _, _ => simp
  | x :: y :: l, h, hf =>
    have hx := hf x (by simp)
    have hy := hf y (by simp)
    have := (List.chain'_cons.1 h).1
    rw [hx, hy] at this
    simp at this

theorem Block_fields (ram : Nat → Nat) (E a n : Nat) (f : Bool) (h : Block ram E a n f) :
    a + 28 + n ≤ E ∧ read32 ram a = (if a + 28 + n = E then 0 else a + 28 + n) ∧
    read32 ram (a + 4) = n ∧ (read8 ram (a + 8) != 0) = f ∧ read32 ram (a + 12) = 0 ∧
    read32 ram (a + 16) = 0 ∧ read32 ram (a + 20 + n) = a ∧ read32 ram (a + 20 + n + 4) = n :=
  ⟨h.1, congrArg SBlockHeader.m_pSMemBlockNext h.2.1, congrArg SBlockHeader.m_uBlockSize h.2.1,
    congrArg SBlockHeader.m_bIsFreeBlock h.2.1, congrArg SBlockHeader.m_LeftPadding h.2.1,
    congrArg SBlockHeader.m_RightPadding h.2.1, congrArg SFooterBlock.m_pMatchingHeader h.2.2,
    congrArg SFooterBlock.m_uSizeOfBlock h.2.2⟩

theorem nil_or_snoc (l : List (Nat × Bool)) : l = [] ∨ ∃ L m f, l = L ++ [(m, f)] := by
  rcases List.eq_nil_or_concat l with h | ⟨L, ⟨m, f⟩, h⟩
  · exact Or.inl h
  · exact Or.inr ⟨L, m, f, by rw [h, List.concat_eq_append]⟩

theorem split_free_suffix (pre : List (Nat × Bool)) :
    ∃ pre' lf, pre = pre' ++ lf ∧ (lf = [] ∨ ∃ m, lf = [(m, true)]) ∧
      (lf = [] → ∀ x ∈ pre'.getLast?, x.2 = false) := by
  rcases nil_or_snoc pre with rfl | ⟨l, m, f, rfl⟩
  · exact ⟨[], [], rfl, Or.inl rfl, by simp⟩
  · cases f with
    | true => exact ⟨l, [(m, true)], rfl, Or.inr ⟨m, rfl⟩, by simp⟩
    | false => exact ⟨l ++ [(m, false)], [], by simp, Or.inl rfl, by simp⟩

theorem split_free_front (post : List (Nat × Bool)) (hne : post ≠ []) :
    ∃ rf post', post = rf ++ post' ∧ (rf = [] ∨ ∃ m, rf = [(m, true)]) ∧
      (rf = [] → ∃ m tl, post' = (m, false) :: tl) := by
  match post, hne with
  | (m, true) :: tl, _ => exact ⟨[(m, true)], tl, rfl, Or.inr ⟨m, rfl⟩, by simp⟩
  | (m, false) :: tl, _ => exact ⟨[], (m, false) :: tl, rfl, Or.inl rfl, fun _ => ⟨m, tl, rfl⟩⟩

theorem ViewR_of_Seg (ram : Nat → Nat) (E nx : Nat) (rf post' : List (Nat × Bool))
    (hrf : rf = [] ∨ ∃ m, rf = [(m, true)])
    (hr : rf = [] → ∃ m tl, post' = (m, false) :: tl)
    (hs : Seg ram E nx (rf ++ post')) (hE : nx + span (rf ++ post') = E) :
    ViewR ram E nx (nx + span rf) := by
  rcases hrf with rfl | ⟨m, rfl⟩
  · obtain ⟨m, tl, rfl⟩ := hr rfl
    obtain ⟨hb, -⟩ := hs
    obtain ⟨h1, -, -, h4, -⟩ := Block_fields _ _ _ _ _ hb
    exact Or.inl ⟨by simp [span], by simp only at h1; omega, h4⟩
  · obtain ⟨hb, hs⟩ := hs
    obtain ⟨h1, h2, h3, h4, h5, h6, -, -⟩ := Block_fields _ _ _ _ _ hb
    simp only [List.singleton_append, span] at hE h1 h2 h3 h4 h5 h6 hs ⊢
    refine Or.inr ⟨by omega, by omega, h4, by rw [h3]; omega, h6, ?_⟩
    cases post' with
    | nil =>
      simp only [span] at hE
      refine Or.inl ⟨by omega, ?_⟩
      rw [h2, if_pos (by omega)]
    | cons y tl =>
      obtain ⟨hy, -⟩ := hs
      obtain ⟨g1, -, -, -, g5, -⟩ := Block_fields _ _ _ _ _ hy
      refine Or.inr ⟨by omega, ?_, ?_⟩
      · rw [h2, if_neg (by omega)]
        omega
      · have e : nx + (28 + m + 0) + 12 = nx + 28 + m + 12 := by omega
        rw [e]
        exact g5

theorem ViewL_of_Seg (ram : Nat → Nat) (E base a : Nat) (pre' lf : List (Nat × Bool))
    (hlf : lf = [] ∨ ∃ m, lf = [(m, true)])
    (hl : lf = [] → ∀ x ∈ pre'.getLast?, x.2 = false)
    (hs : Seg ram E base (pre' ++ lf)) (ha : base + span (pre' ++ lf) = a) (hE : a < E) :
    ViewL ram base a (base + span pre') := by
  rcases hlf with rfl | ⟨m, rfl⟩
  · simp only [List.append_nil] at hs ha
    refine Or.inl ⟨ha, ?_⟩
    rcases nil_or_snoc pre' with rfl | ⟨l, m, f, rfl⟩
    · simp only [span] at ha
      exact Or.inl (by omega)
    · have hf : f = false := by
        have := hl rfl (m, f) (by simp)
        exact this
      subst hf
      rw [Seg_append] at hs
      obtain ⟨-, hb, -⟩ := hs
      obtain ⟨h1, h2, -, h4, -, -, h7, -⟩ := Block_fields _ _ _ _ _ hb
      simp only [span_append, span] at ha
      refine Or.inr ⟨base + span l, by omega, by omega, ?_, h4, ?_⟩
      · have e : a - 8 = base + span l + 20 + m := by omega
        rw [e]
        exact h7
      · rw [h2, if_neg (by omega)]
        omega
  · rw [Seg_append] at hs
    obtain ⟨hs, hb, -⟩ := hs
    obtain ⟨h1, h2, -, h4, h5, -, h7, -⟩ := Block_fields _ _ _ _ _ hb
    simp only [span_append, span] at ha
    refine Or.inr ⟨by omega, by omega, ?_, h4, h5, ?_⟩
    · have e : a - 8 = base + span pre' + 20 + m := by omega
      rw [e]
      exact h7
    · rcases nil_or_snoc pre' with rfl | ⟨l, mm, ff, rfl⟩
      · simp only [span]
        exact Or.inl (by omega)
      · rw [Seg_append] at hs
        obtain ⟨-, hp, -⟩ := hs
        obtain ⟨g1, g2, -, -, -, -, g7, -⟩ := Block_fields _ _ _ _ _ hp
        simp only [span_append, span] at h1 ⊢
        refine Or.inr ⟨base + span l, by omega, by omega, ?_, ?_⟩
        · have e : base + (span l + (28 + mm + 0)) - 8 = base + span l + 20 + mm := by omega
          rw [e]
          exact g7
        · rw [g2, if_neg (by omega)]
          omega

/-! ### `Deallocate` on a chain without padding -/

theorem Seg_head (ram : Nat → Nat) (E a : Nat) (bs : List (Nat × Bool)) (hne : bs ≠ [])
    (h : Seg ram E a bs) : read32 ram (a + 12) = 0 ∧ a + 28 ≤ E := by
  match bs, hne, h with
  | b :: tl, _, ⟨hb, _⟩ =>
    obtain ⟨h1, -, -, -, h5, -⟩ := Block_fields _ _ _ _ _ hb
    exact ⟨h5, by omega⟩

/-- What `Deallocate` reads around an allocated block of a chain, when at most the block's right
padding and its footer's back reference have been overwritten since. -/
theorem chain_facts (ram0 ram : Nat → Nat) (E base a n : Nat)
    (pre' lf rf post' : List (Nat × Bool))
    (hseg : Seg ram0 E base (pre' ++ lf ++ (n, false) :: (rf ++ post')))
    (hspan : base + span (pre' ++ lf ++ (n, false) :: (rf ++ post')) = E)
    (hlf : lf = [] ∨ ∃ m, lf = [(m, true)])
    (hl : lf = [] → ∀ x ∈ pre'.getLast?, x.2 = false)
    (hrf : rf = [] ∨ ∃ m, rf = [(m, true)])
    (hr : rf = [] → ∃ m tl, post' = (m, false) :: tl)
    (ha : a = base + span (pre' ++ lf))
    (hdmg : ∀ y, y < a + 16 ∨ a + 20 ≤ y → y < a + 20 + n ∨ a + 24 + n ≤ y →
      read8 ram y = read8 ram0 y) :
    (read8 ram (a + 8) != 0) = false ∧ read32 ram (a + 4) = n ∧
    read32 ram a = a + 28 + n ∧ read32 ram (a + 12) = 0 ∧ read32 ram (a + 20 + n + 4) = n ∧
    read32 ram (a + 28 + n + 12) = 0 ∧
    ViewR ram E (a + 28 + n) (a + 28 + n + span rf) ∧ ViewL ram base a (base + span pre') ∧
    Seg ram E base pre' ∧ Seg ram E (a + 28 + n + span rf) post' := by
  rw [Seg_append, ← ha] at hseg
  obtain ⟨hsegL, hB, hsegR⟩ := hseg
  have hB : Block ram0 E a n false := hB
  have hsegR : Seg ram0 E (a + 28 + n) (rf ++ post') := hsegR
  rw [span_append] at hspan
  simp only [span] at hspan
  have hne : rf ++ post' ≠ [] := by
    rcases hrf with rfl | ⟨m, rfl⟩
    · obtain ⟨m, tl, rfl⟩ := hr rfl
      simp
    · simp
  obtain ⟨b1, b2, b3, b4, b5, b6, b7, b8⟩ := Block_fields _ _ _ _ _ hB
  obtain ⟨hNl0, hN28⟩ := Seg_head _ _ _ _ hne hsegR
  have w : ∀ x, x + 4 ≤ a + 16 ∨ a + 20 ≤ x → x + 4 ≤ a + 20 + n ∨ a + 24 + n ≤ x →
      read32 ram x = read32 ram0 x := by
    intro x hx hx'
    exact read32_congr _ _ _ (fun y hy hy' => hdmg y (by omega) (by omega))
  have hsegL' : Seg ram E base (pre' ++ lf) :=
    Seg_congr _ _ _ _ _ (fun x hx hx' => hdmg x (by omega) (by omega)) hsegL
  have hsegR' : Seg ram E (a + 28 + n) (rf ++ post') :=
    Seg_congr _ _ _ _ _ (fun x hx hx' => hdmg x (by omega) (by omega)) hsegR
  have hR := ViewR_of_Seg _ _ _ rf post' hrf hr hsegR' (by omega)
  have hL := ViewL_of_Seg _ _ _ a pre' lf hlf hl hsegL' ha.symm (by omega)
  rw [Seg_append] at hsegL' hsegR'
  refine ⟨?_, (w _ (by omega) (by omega)).trans b3, ?_, (w _ (by omega) (by omega)).trans b5,
    (w _ (by omega) (by omega)).trans b8, (w _ (by omega) (by omega)).trans hNl0, hR, hL,
    hsegL'.1, hsegR'.2⟩
  · rw [hdmg _ (by omega) (by omega)]
    exact b4
  · rw [w _ (by omega) (by omega), b2, if_neg (by omega)]

/-- The chain once `[st, en)` has become a single free block. -/
theorem chain_rebuild (ram ram' : Nat → Nat) (E base st en sz : Nat)
    (pre' post' : List (Nat × Bool))
    (hpre : Seg ram E base pre') (hpost : Seg ram E en post')
    (hst : st = base + span pre') (hen : en = st + 28 + sz) (hE : en + span post' = E)
    (hfr : ∀ x, x < st ∨ en ≤ x → read8 ram' x = read8 ram x)
    (hh : headerAt ram' st = ⟨if en = E then 0 else en, en - st - 28, true, 0, 0⟩)
    (hf : footerAt ram' (en - 8) = ⟨st, en - st - 28⟩) :
    Seg ram' E base (pre' ++ (sz, true) :: post') := by
  have e1 : en - st - 28 = sz := by omega
  have e2 : en - 8 = st + 20 + sz := by omega
  rw [e1] at hh hf
  rw [e2] at hf
  rw [hen] at hh
  rw [Seg_append, ← hst]
  refine ⟨Seg_congr _ _ _ _ _ (fun x hx hx' => hfr x (by omega)) hpre, ⟨by omega, hh, hf⟩, ?_⟩
  show Seg ram' E (st + 28 + sz) post'
  rw [← hen]
  exact Seg_congr _ _ _ _ _ (fun x hx hx' => hfr x (by omega)) hpost

theorem Deallocate_chain (s : CManagedHeap) (ram0 : Nat → Nat)
    (pre' lf rf post' : List (Nat × Bool)) (n a : Nat)
    (hInv : Inv { s with ram := ram0 } (pre' ++ lf ++ (n, false) :: (rf ++ post')))
    (hlf : lf = [] ∨ ∃ m, lf = [(m, true)])
    (hl : lf = [] → ∀ x ∈ pre'.getLast?, x.2 = false)
    (hrf : rf = [] ∨ ∃ m, rf = [(m, true)])
    (hr : rf = [] → ∃ m tl, post' = (m, false) :: tl)
    (ha : a = s.m_pMemory + span (pre' ++ lf))
    (hdmg : ∀ y, y < a + 16 ∨ a + 20 ≤ y → y < a + 20 + n ∨ a + 24 + n ≤ y →
      read8 s.ram y = read8 ram0 y) :
    Ends (Deallocate s (a + 20)) (fun s' =>
      s'.m_ELastHeapError =
        checkStatus a (read32 s.ram (a + 20 + n)) (read32 s.ram (a + 16)) 0 ∧
      s'.m_uNumAllocations = sub32 s.m_uNumAllocations 1 ∧
      s'.m_uFreeSpace = add32 s.m_uFreeSpace n ∧ s'.m_pMemory = s.m_pMemory ∧
      s'.m_uMemorySize = s.m_uMemorySize ∧
      (read8 s'.ram (s.m_pMemory + span pre' + 8) != 0) = true ∧
      read32 s'.ram (s.m_pMemory + span pre' + 4) = span lf + n + span rf ∧
      (read32 s.ram (a + 16) = 0 → read32 s.ram (a + 20 + n) = a →
        Inv s' (pre' ++ (span lf + n + span rf, true) :: post'))) := by
  obtain ⟨hlo, hbase, hE, hhi, hblk, hseg, hspan⟩ := hInv
  have hspan' : s.m_pMemory + span (pre' ++ lf ++ (n, false) :: (rf ++ post')) =
      s.m_pMemory + s.m_uMemorySize := congrArg (s.m_pMemory + ·) hspan
  obtain ⟨hBf, hBs, hBn, hBl, hFs, hNl, hR, hL, hpre, hpost⟩ :=
    chain_facts ram0 s.ram _ _ a n pre' lf rf post' hseg hspan' hlf hl hrf hr ha hdmg
  have hsp := span_append pre' lf
  refine Ends_mono (Deallocate_local s a n _ _ hlo hbase hE hhi hblk (by omega) hBf hBs hBn hBl
    hR hL) ?_
  rintro s' ⟨h1, h2, h3, h4, h5, h6, h7, h8, h9, h10, hfr, hund⟩
  rw [hNl] at h1
  have hsz : a + 28 + n + span rf - (s.m_pMemory + span pre') - 28 = span lf + n + span rf := by
    omega
  refine ⟨h1, h2, h3, h4, h5, h9, h10.trans hsz, ?_⟩
  intro hrp hbr
  obtain ⟨hh, hf⟩ := hund hrp hbr hFs
  have hsq : span (pre' ++ lf ++ (n, false) :: (rf ++ post')) =
      span pre' + span lf + (28 + n + (span rf + span post')) := by
    rw [span_append, span_append, span, span_append]
  have hnew : span (pre' ++ (span lf + n + span rf, true) :: post') =
      span pre' + (28 + (span lf + n + span rf) + span post') := by
    rw [span_append, span]
  refine ⟨?_, ?_, ?_, ?_, ?_, ?_, ?_⟩
  · rw [h7]
    exact hlo
  · rw [h7, h4]
    exact hbase
  · rw [h4, h5, h8]
    exact hE
  · rw [h8]
    exact hhi
  · rw [h6, h4]
    exact hblk
  · rw [h4, h5]
    exact chain_rebuild s.ram s'.ram _ _ _ _ _ pre' post' hpre hpost rfl (by omega) (by omega)
      hfr hh hf
  · rw [h5, hnew, ← hspan, hsq]
    omega

theorem free_opt_facts (lf : List (Nat × Bool)) (a : Nat)
    (hlf : lf = [] ∨ ∃ m, lf = [(m, true)]) : live a lf = [] ∧ allocSum lf = 0 := by
  rcases hlf with rfl | ⟨m, rfl⟩
  · exact ⟨rfl, rfl⟩
  · exact ⟨rfl, rfl⟩

theorem allocSum_release (pre' lf rf post' : List (Nat × Bool)) (n sz : Nat)
    (hlf : lf = [] ∨ ∃ m, lf = [(m, true)]) (hrf : rf = [] ∨ ∃ m, rf = [(m, true)]) :
    allocSum (pre' ++ lf ++ (n, false) :: (rf ++ post')) =
      allocSum (pre' ++ (sz, true) :: post') + n := by
  have h1 := (free_opt_facts lf 0 hlf).2
  have h2 := (free_opt_facts rf 0 hrf).2
  simp only [allocSum_append, allocSum, h1, h2, Bool.false_eq_true, if_false, if_true]
  omega

theorem live_release (base : Nat) (pre' lf rf post' : List (Nat × Bool)) (n q : Nat)
    (hlf : lf = [] ∨ ∃ m, lf = [(m, true)]) (hrf : rf = [] ∨ ∃ m, rf = [(m, true)]) :
    q ∈ live base (pre' ++ (span lf + n + span rf, true) :: post') ↔
      q ∈ live base (pre' ++ lf ++ (n, false) :: (rf ++ post')) ∧
        q ≠ base + span (pre' ++ lf) + 20 := by
  have h1 := fun a => (free_opt_facts lf a hlf).1
  have h2 := fun a => (free_opt_facts rf a hrf).1
  have e : base + span pre' + 28 + (span lf + n + span rf) =
      base + (span pre' + span lf) + 28 + n + span rf := by omega
  simp only [live_append, live, span_append, h1, h2, if_true, Bool.false_eq_true, if_false,
    List.append_nil, List.nil_append, List.mem_append, List.mem_cons, e]
  constructor
  · rintro (h | h)
    · have := live_ge _ _ _ h
      exact ⟨Or.inl h, by omega⟩
    · have := live_ge _ _ _ h
      exact ⟨Or.inr (Or.inr h), by omega⟩
  · rintro ⟨h | h | h, hne⟩
    · exact Or.inl h
    · exact absurd h hne
    · exact Or.inr h

theorem NoAdj_release (pre' lf rf post' : List (Nat × Bool)) (n sz : Nat)
    (hlf : lf = [] ∨ ∃ m, lf = [(m, true)])
    (hl : lf = [] → ∀ x ∈ pre'.getLast?, x.2 = false)
    (hrf : rf = [] ∨ ∃ m, rf = [(m, true)])
    (hr : rf = [] → ∃ m tl, post' = (m, false) :: tl)
    (h : NoAdj (pre' ++ lf ++ (n, false) :: (rf ++ post'))) :
    NoAdj (pre' ++ (sz, true) :: post') := by
  unfold NoAdj at h ⊢
  rw [List.append_assoc, List.chain'_append] at h
  obtain ⟨hp, hq, hpq⟩ := h
  have hpost : List.Chain' (fun x y : Nat × Bool => x.2 = false ∨ y.2 = false) post' ∧
      ∀ y ∈ post'.head?, y.2 = false := by
    rcases hrf with rfl | ⟨m, rfl⟩
    · obtain ⟨m, tl, rfl⟩ := hr rfl
      have h1 : List.Chain' (fun x y : Nat × Bool => x.2 = false ∨ y.2 = false)
          ((m, false) :: tl) := by
        have := (List.chain'_append.1 hq).2.1
        exact (List.chain'_cons'.1 this).2
      exact ⟨h1, by simp⟩
    · have h0 := (List.chain'_append.1 hq).2.1
      have h1 := (List.chain'_cons'.1 h0).2
      have h2 : List.Chain' (fun x y : Nat × Bool => x.2 = false ∨ y.2 = false)
          ((m, true) :: post') := h1
      rw [List.chain'_cons'] at h2
      refine ⟨h2.2, fun y hy => ?_⟩
      have := h2.1 y hy
      simpa using this
  have hlast : ∀ x ∈ pre'.getLast?, x.2 = false := by
    rcases hlf with rfl | ⟨m, rfl⟩
    · exact hl rfl
    · intro x hx
      have := hpq x hx (m, true) (by simp)
      simpa using this
  rw [List.chain'_append]
  refine ⟨hp, ?_, ?_⟩
  · rw [List.chain'_cons']
    exact ⟨fun y hy => Or.inr (hpost.2 y hy), hpost.1⟩
  · intro x hx y hy
    exact Or.inl (hlast x hx)

theorem lastFree_release (pre' lf rf post' : List (Nat × Bool)) (n sz : Nat)
    (h : lastFree (pre' ++ lf ++ (n, false) :: (rf ++ post'))) :
    lastFree (pre' ++ (sz, true) :: post') := by
  rcases nil_or_snoc post' with rfl | ⟨L, m, f, rfl⟩
  · exact ⟨pre', sz, rfl⟩
  · obtain ⟨l, k, e⟩ := h
    have e' : (pre' ++ lf ++ (n, false) :: (rf ++ L)) ++ [(m, f)] = l ++ [(k, true)] := by
      rw [← e]
      simp
    have := (List.append_inj' e' rfl).2
    simp only [List.cons.injEq, Prod.mk.injEq, and_true] at this
    rw [this.2]
    exact ⟨pre' ++ (sz, true) :: L, m, by simp⟩

theorem lastFree_post_ne (pre post : List (Nat × Bool)) (n : Nat)
    (h : lastFree (pre ++ (n, false) :: post)) : post ≠ [] := by
  rintro rfl
  obtain ⟨l, k, e⟩ := h
  have e' : pre ++ [(n, false)] = l ++ [(k, true)] := e
  have := (List.append_inj' e' rfl).2
  simp at this

theorem chain_block (ram : Nat → Nat) (E base n : Nat) (f : Bool) (pre post : List (Nat × Bool))
    (h : Seg ram E base (pre ++ (n, f) :: post)) : Block ram E (base + span pre) n f := by
  rw [Seg_append] at h
  exact h.2.1

/-! ### Deallocating every allocated block -/

theorem checkStatus_ok (a : Nat) : checkStatus a a 0 0 = .EHeapError_Ok := by
  simp [checkStatus]

theorem Deallocate_DInv (s : CManagedHeap) (bs : List (Nat × Bool)) (p : Nat) (ps : List Nat)
    (h : DInv s bs (p :: ps)) :
    Ends (Deallocate s p) (fun s' => s'.m_ELastHeapError = .EHeapError_Ok ∧
      s'.m_pMemory = s.m_pMemory ∧ s'.m_uMemorySize = s.m_uMemorySize ∧
      ∃ bs', DInv s' bs' ps) := by
  obtain ⟨hInv, hadj, hlast, hnd, hmem, hcnt, hfree⟩ := h
  obtain ⟨pre, n, post, rfl, hp⟩ := live_split _ _ _ ((hmem p).1 (by simp))
  obtain ⟨pre', lf, rfl, hlf, hl⟩ := split_free_suffix pre
  obtain ⟨rf, post', rfl, hrf, hr⟩ := split_free_front post (lastFree_post_ne _ _ _ hlast)
  have hB := Block_fields _ _ _ _ _ (chain_block _ _ _ _ _ _ _ hInv.2.2.2.2.2.1)
  have hsum := allocSum_release pre' lf rf post' n (span lf + n + span rf) hlf hrf
  have hbound : s.m_pMemory + s.m_uMemorySize < 4294967296 := by
    have := hInv.2.2.1
    have := hInv.2.2.2.1
    omega
  rw [hp]
  refine Ends_mono (Deallocate_chain s s.ram pre' lf rf post' n _ hInv hlf hl hrf hr rfl
    (fun _ _ _ => rfl)) ?_
  rintro s' ⟨h1, h2, h3, h4, h5, -, -, hI⟩
  rw [hB.2.2.2.2.2.1, hB.2.2.2.2.2.2.1, checkStatus_ok] at h1
  refine ⟨h1, h4, h5, _, hI hB.2.2.2.2.2.1 hB.2.2.2.2.2.2.1, NoAdj_release _ _ _ _ _ _ hlf hl hrf
    hr hadj, lastFree_release _ _ _ _ _ _ hlast, (List.nodup_cons.1 hnd).2, ?_, ?_, ?_⟩
  · intro q
    rw [h4, live_release _ _ _ _ _ _ _ hlf hrf, ← hmem q, ← hp]
    constructor
    · intro hq
      exact ⟨List.mem_cons_of_mem _ hq, fun e => (List.nodup_cons.1 hnd).1 (e ▸ hq)⟩
    · rintro ⟨hq, hne⟩
      rcases List.mem_cons.1 hq with e | hq
      · exact absurd e hne
      · exact hq
  · rw [h2, hcnt, List.length_cons]
    unfold sub32
    omega
  · rw [h3, h5]
    unfold add32
    omega

theorem deallocAll_DInv (ps : List Nat) : ∀ (s : CManagedHeap) (bs : List (Nat × Bool)),
    DInv s bs ps → Ends (deallocAll s ps) (fun s' =>
      s'.m_pMemory = s.m_pMemory ∧ s'.m_uMemorySize = s.m_uMemorySize ∧
      (ps ≠ [] → s'.m_ELastHeapError = .EHeapError_Ok) ∧ ∃ bs', DInv s' bs' []) := by
  induction ps with
  | nil =>
    intro s bs h
    exact ⟨s, rfl, rfl, rfl, fun h => absurd rfl h, bs, h⟩
  | cons p ps ih =>
    intro s bs h
    obtain ⟨s1, e1, herr, hm, hsz, bs1, h1⟩ := Deallocate_DInv s bs p ps h
    obtain ⟨s2, e2, hm2, hsz2, herr2, bs2, h2⟩ := ih s1 bs1 h1
    refine ⟨s2, ?_, hm2.trans hm, hsz2.trans hsz, ?_, bs2, h2⟩
    · simp only [deallocAll, e1]
      exact e2
    · intro _
      cases ps with
      | nil =>
        simp only [deallocAll] at e2
        cases e2
        exact herr
      | cons q qs => exact herr2 (by simp)

theorem DInv_nil (s : CManagedHeap) (bs : List (Nat × Bool)) (h : DInv s bs []) :
    s.m_uNumAllocations = 0 ∧ s.m_uFreeSpace = s.m_uMemorySize ∧ s.m_pBlock = s.m_pMemory ∧
    28 ≤ s.m_uMemorySize ∧
    headerAt s.ram s.m_pMemory = ⟨0, s.m_uMemorySize - 28, true, 0, 0⟩ ∧
    footerAt s.ram (s.m_pMemory + s.m_uMemorySize - 8) =
      ⟨s.m_pMemory, s.m_uMemorySize - 28⟩ := by
  obtain ⟨hInv, hadj, hlast, -, hmem, hcnt, hfree⟩ := h
  have hnil : live s.m_pMemory bs = [] := by
    apply List.eq_nil_iff_forall_not_mem.2
    intro q hq
    exact absurd ((hmem q).2 hq) (by simp)
  have hall := live_eq_nil _ _ hnil
  have hlen := NoAdj_all_free bs hadj hall
  obtain ⟨l, m, rfl⟩ := hlast
  have hl : l = [] := by
    cases l with
    | nil => rfl
    | cons x xs =>
      simp at hlen
  subst hl
  obtain ⟨-, -, -, -, hblk, hseg, hspan⟩ := hInv
  obtain ⟨hb, -⟩ := hseg
  obtain ⟨-, hh, hf⟩ := hb
  simp only [List.nil_append, span] at hspan
  have e1 : s.m_uMemorySize - 28 = m := by omega
  have e2 : s.m_pMemory + s.m_uMemorySize - 8 = s.m_pMemory + 20 + m := by omega
  simp only [List.nil_append, allocSum, if_true] at hfree
  refine ⟨by simpa using hcnt, by omega, hblk, by omega, ?_, ?_⟩
  · rw [e1, hh, if_pos (by omega)]
  · rw [e1, e2, hf]

/-! ### `Allocate` from the last block of a chain -/

theorem land_mask4 (x : Nat) (hx : x < 4294967296) : x &&& 4294967292 = x - x % 4 := by
  have h1 : (x &&& 4294967292) % 4 = 0 := land_mask_mod x 2 (by decide)
  have h2 : (x &&& 4294967292) / 2 / 2 = x / 2 / 2 := by
    rw [Nat.and_div_two, Nat.and_div_two]
    have e : (4294967292 : Nat) / 2 / 2 = 2 ^ 30 - 1 := by decide
    rw [e, Nat.and_pow_two_sub_one_eq_mod]
    exact Nat.mod_eq_of_lt (by omega)
  omega

theorem CalculateAlignmentDelta_aligned (p : Nat) (h4 : p % 4 = 0) (hp : p + 3 < 4294967296) :
    CalculateAlignmentDelta p 4 = 0 := by
  have e1 : sub32 4 1 = 3 := by decide
  have e2 : not32 3 = 4294967292 := by decide
  have e3 : add32 p 3 = p + 3 := add32_eq _ _ hp
  simp only [CalculateAlignmentDelta, e1, e2, e3, land_mask4 (p + 3) hp]
  unfold sub32
  omega

theorem IsBlockViable_alloc (s : CManagedHeap) (c n al : Nat)
    (hb : s.ramLo ≤ c ∧ c + 9 ≤ s.ramHi) (hf : (read8 s.ram (c + 8) != 0) = false) :
    IsBlockViable s c n al = .ok false := by
  simp (disch := omega) only [IsBlockViable, loadBool_ok, ok_bind, hf, Bool.not_false, if_true]
  rfl

theorem IsBlockViable_free (s : CManagedHeap) (c n t : Nat)
    (hb : s.ramLo ≤ c ∧ c + 23 ≤ s.ramHi) (hhi : s.ramHi < 4294967296) (hn : n < 4294967296)
    (h4 : c % 4 = 0)
    (hf : (read8 s.ram (c + 8) != 0) = true) (hl : read32 s.ram (c + 12) = 0)
    (hs : read32 s.ram (c + 4) = t) (hr : read32 s.ram (c + 16) = 0) :
    IsBlockViable s c n 4 = .ok (decide (n ≤ t)) := by
  have ht : t < 4294967296 := hs ▸ read32_lt _ _
  have e1 : ptrAdd (ptrSub c 0) 20 = c + 20 := by
    unfold ptrAdd ptrSub
    omega
  have e2 : CalculateAlignmentDelta (c + 20) 4 = 0 :=
    CalculateAlignmentDelta_aligned _ (by omega) (by omega)
  have e3 : add32 0 n = n := by
    unfold add32
    omega
  have e4 : add32 t 0 = t := by
    unfold add32
    omega
  simp (disch := omega) only [IsBlockViable, loadBool_ok, load32_ok, ok_bind, hf, hl, hs, hr,
    Bool.not_true, Bool.false_eq_true, if_false, sizeofSBlockHeader, e1, e2, e3, e4]
  by_cases h : n ≤ t
  · rw [if_neg (by omega), decide_eq_true h]
    rfl
  · rw [if_pos (by omega), decide_eq_false h]
    rfl

theorem FindLoop_inv (s : CManagedHeap) (n t E : Nat) (hn : n < 4294967296)
    (hE : E ≤ s.ramHi) (hhi : s.ramHi < 4294967296) :
    ∀ (as : List (Nat × Bool)) (c fuel q : Nat), (∀ b ∈ as, b.2 = false ∧ b.1 % 4 = 0) →
      Seg s.ram E c (as ++ [(t, true)]) → c + span (as ++ [(t, true)]) = E →
      s.ramLo ≤ c → c % 4 = 0 → FindFreeBlockLoop s n 4 fuel c = .ok q → q ≠ 0 →
      q = c + span as ∧ n ≤ t := by
  intro as
  induction as with
  | nil =>
    intro c fuel q _ hseg hsp hc h4 h hq
    obtain ⟨hb, -⟩ := hseg
    obtain ⟨b1, b2, b3, b4, b5, b6, -, -⟩ := Block_fields _ _ _ _ _ hb
    simp only [List.nil_append, span] at hsp b1 b2 b3 b4 b5 b6
    cases fuel with
    | zero => simp [FindFreeBlockLoop] at h
    | succ fuel =>
      have hv := IsBlockViable_free s c n t ⟨hc, by omega⟩ hhi hn h4 b4 b5 b3 b6
      rw [if_pos (by omega)] at b2
      simp (disch := omega) only [FindFreeBlockLoop, hv, ok_bind, load32_ok, b2] at h
      by_cases hnt : n ≤ t
      · simp only [hnt, decide_True, if_true] at h
        cases h
        exact ⟨by simp [span], hnt⟩
      · simp only [hnt, decide_False, Bool.false_eq_true, if_false, bne_self_eq_false] at h
        cases h
        exact absurd rfl hq
  | cons b as ih =>
    intro c fuel q hall hseg hsp hc h4 h hq
    obtain ⟨m, f⟩ := b
    have hbf := hall (m, f) (by simp)
    obtain ⟨hf, hm4⟩ := hbf
    simp only at hf hm4
    subst hf
    obtain ⟨hb, hseg'⟩ := hseg
    obtain ⟨b1, b2, b3, b4, -⟩ := Block_fields _ _ _ _ _ hb
    rw [List.cons_append] at hsp
    simp only [span] at hsp b1 b2 b3 b4
    have hspan' := span_append as [(t, true)]
    simp only [span] at hspan'
    cases fuel with
    | zero => simp [FindFreeBlockLoop] at h
    | succ fuel =>
      have hv := IsBlockViable_alloc s c n 4 ⟨hc, by omega⟩ b4
      rw [if_neg (by omega)] at b2
      have hnz : (c + 28 + m != 0) = true := by simp
      simp (disch := omega) only [FindFreeBlockLoop, hv, ok_bind, load32_ok, b2,
        Bool.false_eq_true, if_false, hnz, if_true] at h
      have := ih (c + 28 + m) fuel q (fun b hb => hall b (List.mem_cons_of_mem _ hb)) hseg'
        (by omega) (by omega) (by omega) h hq
      simp only [span]
      omega

theorem zeroHeader_ok (s : CManagedHeap) (p : Nat) (hb : s.ramLo ≤ p ∧ p + 20 ≤ s.ramHi) :
    zeroHeader s p = .ok { s with ram := wipeHeader s.ram p } := by
  simp (disch := first | omega | (dsimp only; omega)) only [zeroHeader, store32_ok, ok_bind]
  rfl

theorem read8_wipeHeader_other (ram : Nat → Nat) (p x : Nat) (h : x < p ∨ p + 20 ≤ x) :
    read8 (wipeHeader ram p) x = read8 ram x := by
  simp (disch := omega) only [wipeHeader, read8_write32_other]

theorem read32_wipeHeader_other (ram : Nat → Nat) (p x : Nat) (h : x + 4 ≤ p ∨ p + 20 ≤ x) :
    read32 (wipeHeader ram p) x = read32 ram x := by
  simp (disch := omega) only [wipeHeader, read32_write32_other]

theorem error_bind {α β : Type} (e : Fault) (f : α → Except Fault β) :
    ((.error e : Except Fault α) >>= f) = .error e := rfl

theorem store32_fault (s : CManagedHeap) (a v : Nat) (h : a < s.ramLo ∨ s.ramHi < a + 4) :
    store32 s a v = .error .accessViolation := by
  unfold store32
  rw [if_neg (by omega)]

theorem Adjust_first (s : CManagedHeap) (a nx : Nat)
    (hb : s.ramLo ≤ a ∧ a + 20 ≤ s.ramHi) (hhi : s.ramHi < 4294967296)
    (hfirst : s.m_pBlock = a) (hmem : s.m_pMemory = a) (h4 : a % 4 = 0)
    (hBn : read32 s.ram a = nx) :
    AdjustBlockPositionForPadding s 4 a =
      .ok ({ s with ram := write32 (write32 (wipeHeader s.ram a) a nx) (a + 12) 0
                    m_pBlock := a }, a) := by
  have e0 : (a != a) = false := by simp
  have e1 : ptrAdd a 20 = a + 20 := ptrAdd_eq _ _ (by omega)
  have e2 : CalculateAlignmentDelta (a + 20) 4 = 0 :=
    CalculateAlignmentDelta_aligned _ (by omega) (by omega)
  have e3 : ptrAdd (a + 20) 0 = a + 20 := ptrAdd_eq _ _ (by omega)
  have e4 : ptrSub (a + 20) 20 = a := by
    unfold ptrSub
    omega
  simp (disch := first | omega | (dsimp only; omega)) only [AdjustBlockPositionForPadding,
    GetPreviousHeader, hfirst, hmem, e0, Bool.false_eq_true, if_false, pure_bind,
    bne_self_eq_false, sizeofSBlockHeader, e1, e2, e3, e4, load32_ok, ok_bind, hBn,
    zeroHeader_ok, store32_ok]
  rfl

theorem Adjust_after (s : CManagedHeap) (a nx ap sp : Nat)
    (hb : s.ramLo ≤ ap ∧ 0 < ap ∧ ap + 28 + sp = a ∧ a + 20 ≤ s.ramHi)
    (hhi : s.ramHi < 4294967296) (hne : a ≠ s.m_pBlock) (h4 : a % 4 = 0)
    (hBn : read32 s.ram a = nx) (hBl : read32 s.ram (a + 12) = 0)
    (hPb : read32 s.ram (a - 8) = ap) (hPs : read32 s.ram (ap + 4) = sp) :
    AdjustBlockPositionForPadding s 4 a =
      .ok ({ s with ram := write32 (write32 (write32 (write32 (wipeHeader s.ram a) a nx)
        (a + 12) 0) ap a) (ap + 16) 0 }, a) := by
  have e0 : (a != s.m_pBlock) = true := by simpa using hne
  have e0' : (ap != 0) = true := by
    simp
    omega
  have e1 : ptrSub (ptrSub a 0) 8 = a - 8 := by
    unfold ptrSub
    omega
  have e2 : ptrAdd (ptrAdd (ptrAdd (ptrAdd ap 20) sp) 8) 20 = a + 20 := by
    unfold ptrAdd
    omega
  have e3 : CalculateAlignmentDelta (a + 20) 4 = 0 :=
    CalculateAlignmentDelta_aligned _ (by omega) (by omega)
  have e4 : ptrAdd (a + 20) 0 = a + 20 := ptrAdd_eq _ _ (by omega)
  have e5 : ptrSub (a + 20) 20 = a := by
    unfold ptrSub
    omega
  simp (disch := first | omega | (dsimp only; omega)) only [AdjustBlockPositionForPadding,
    GetPreviousHeader, GetFooter, e0, e0', if_true, sizeofSBlockHeader, sizeofSFooterBlock, e1, e2,
    e3, e4, e5, load32_ok, ok_bind, bind_assoc, pure_bind, hBn, hBl, hPb, hPs, zeroHeader_ok,
    store32_ok, read32_write32_other, read32_write32_at]
  rfl

theorem Manage_split (s : CManagedHeap) (a n t : Nat)
    (hb : s.ramLo ≤ a ∧ a + 28 + t = s.m_pMemory + s.m_uMemorySize ∧
      s.m_pMemory + s.m_uMemorySize ≤ s.ramHi)
    (hhi : s.ramHi < 4294967296) (hn : n + 32 ≤ t) (hBn : read32 s.ram a = 0) :
    ManageFreeSpacePostAllocation s a n =
      .ok { s with ram := write32 (write32 (write32 (stampBlock s.ram (a + 28 + n) (t - n))
                      (a + 28 + n) 0) a (a + 28 + n)) (a + 16) 0
                   m_uActualFreeSpace := sub32 s.m_uActualFreeSpace 28 } := by
  have e1 : ptrAdd (ptrAdd (ptrAdd a 20) n) 8 = a + 28 + n := by
    unfold ptrAdd
    omega
  have e2 : ptrDiff (ptrAdd s.m_pMemory s.m_uMemorySize) (a + 28 + n) = t - n := by
    unfold ptrDiff ptrAdd
    omega
  have e3 : ¬ (t - n < 20 + 8 + 4) := by omega
  simp (disch := first | omega | (dsimp only; omega)) only [ManageFreeSpacePostAllocation,
    sizeofSBlockHeader, sizeofSFooterBlock, PLATFORM_MIN_ALIGN, e1, e2, e3, load32_ok, ok_bind,
    hBn, bne_self_eq_false, Bool.false_eq_true, if_false, EncapsulateMemoryBlock_ok, store32_ok,
    read32_stampBlock_other, read32_write32_at, pure_bind]

theorem Manage_fold (s : CManagedHeap) (a n t : Nat) (hlo : 20 ≤ s.ramLo)
    (hb : s.ramLo ≤ a ∧ a + 28 + t = s.m_pMemory + s.m_uMemorySize ∧
      s.m_pMemory + s.m_uMemorySize ≤ s.ramHi)
    (hhi : s.ramHi < 4294967296) (hn : n ≤ t ∧ t < n + 32) (hBn : read32 s.ram a = 0) :
    ManageFreeSpacePostAllocation s a n = .error .accessViolation := by
  have e1 : ptrAdd (ptrAdd (ptrAdd a 20) n) 8 = a + 28 + n := by
    unfold ptrAdd
    omega
  have e2 : ptrDiff (ptrAdd s.m_pMemory s.m_uMemorySize) (a + 28 + n) = t - n := by
    unfold ptrDiff ptrAdd
    omega
  have e3 : t - n < 20 + 8 + 4 := by omega
  simp (disch := first | omega | (dsimp only; omega)) only [ManageFreeSpacePostAllocation,
    sizeofSBlockHeader, sizeofSFooterBlock, PLATFORM_MIN_ALIGN, e1, e2, e3, load32_ok, ok_bind,
    hBn, bne_self_eq_false, Bool.false_eq_true, if_false, if_true, store32_ok,
    read32_write32_other]
  exact store32_fault _ _ _ (Or.inl (by dsimp only; omega))

theorem Allocate_first (fuel : Nat) (s : CManagedHeap) (n n' a t : Nat)
    (hlo : 20 ≤ s.ramLo) (hb : s.ramLo ≤ a ∧ a + 28 + t = s.m_pMemory + s.m_uMemorySize ∧
      s.m_pMemory + s.m_uMemorySize ≤ s.ramHi)
    (hhi : s.ramHi < 4294967296)
    (hmem : s.m_pMemory = a) (hblk : s.m_pBlock = a) (h4 : a % 4 = 0)
    (hn0 : n ≠ 0) (hn' : (if (n % 4 != 0) = true then add32 n (4 - n % 4) else n) = n')
    (hFind : FindFreeBlockLoop { s with m_ELastHeapError := .EHeapError_Ok } n' 4 fuel s.m_pBlock =
      .ok a)
    (hBn : read32 s.ram a = 0) (hn : n' + 32 ≤ t) :
    Allocate fuel s n 4 = .ok ({ s with
      m_ELastHeapError := .EHeapError_Ok
      ram := allocBytes (write32 (write32 (wipeHeader s.ram a) a 0) (a + 12) 0) a n' t
      m_pBlock := a
      m_uActualFreeSpace := sub32 (sub32 s.m_uActualFreeSpace 28) n'
      m_uFreeSpace := sub32 s.m_uFreeSpace n'
      m_uNumAllocations := add32 s.m_uNumAllocations 1 }, a + 20) := by
  have e0 : (s.m_pMemory == 0) = false := by
    simp
    omega
  have e0' : (n == 0) = false := by simpa using hn0
  have e1 : (!IsPowerOfTwo 4 || decide (4 < PLATFORM_MIN_ALIGN)) = false := by decide
  have e2 : (a != 0) = true := by
    simp
    omega
  have e3 : ptrAdd (a + 20) n' = a + 20 + n' := ptrAdd_eq _ _ (by omega)
  have e4 : ptrAdd a 20 = a + 20 := ptrAdd_eq _ _ (by omega)
  have e5 : (a == 0) = false := by
    simp
    omega
  simp (disch := first | omega | (dsimp only; omega) |
      ((try dsimp only); simp (disch := omega) only [read32_write32_other, read32_write32_at,
        read32_wipeHeader_other, hBn])) only
    [Allocate, FindFreeBlock, WriteFooter, GetFooter, e0, e5, e0', e1, e2, e3, e4, hn',
    hFind, Bool.false_eq_true, if_false, if_true, ok_bind, bind_assoc, pure_bind,
    sizeofSBlockHeader, Adjust_first _ a 0, Manage_split _ a n' t, storeBool_ok, store32_ok,
    load32_ok, read32_write32_other, read32_write32_at]
  rfl

theorem Allocate_after (fuel : Nat) (s : CManagedHeap) (n n' a t ap sp : Nat)
    (hlo : 20 ≤ s.ramLo) (hb : s.ramLo ≤ a ∧ a + 28 + t = s.m_pMemory + s.m_uMemorySize ∧
      s.m_pMemory + s.m_uMemorySize ≤ s.ramHi)
    (hhi : s.ramHi < 4294967296)
    (hmem : 0 < s.m_pMemory) (hne : a ≠ s.m_pBlock) (h4 : a % 4 = 0)
    (hp : s.ramLo ≤ ap ∧ ap + 28 + sp = a) (hBl : read32 s.ram (a + 12) = 0)
    (hPb : read32 s.ram (a - 8) = ap) (hPs : read32 s.ram (ap + 4) = sp)
    (hn0 : n ≠ 0) (hn' : (if (n % 4 != 0) = true then add32 n (4 - n % 4) else n) = n')
    (hFind : FindFreeBlockLoop { s with m_ELastHeapError := .EHeapError_Ok } n' 4 fuel s.m_pBlock =
      .ok a)
    (hBn : read32 s.ram a = 0) (hn : n' + 32 ≤ t) :
    Allocate fuel s n 4 = .ok ({ s with
      m_ELastHeapError := .EHeapError_Ok
      ram := allocBytes (write32 (write32 (write32 (write32 (wipeHeader s.ram a) a 0) (a + 12) 0)
        ap a) (ap + 16) 0) a n' t
      m_uActualFreeSpace := sub32 (sub32 s.m_uActualFreeSpace 28) n'
      m_uFreeSpace := sub32 s.m_uFreeSpace n'
      m_uNumAllocations := add32 s.m_uNumAllocations 1 }, a + 20) := by
  have e0 : (s.m_pMemory == 0) = false := by
    simp
    omega
  have e0' : (n == 0) = false := by simpa using hn0
  have e1 : (!IsPowerOfTwo 4 || decide (4 < PLATFORM_MIN_ALIGN)) = false := by decide
  have e2 : (a != 0) = true := by
    simp
    omega
  have e3 : ptrAdd (a + 20) n' = a + 20 + n' := ptrAdd_eq _ _ (by omega)
  have e4 : ptrAdd a 20 = a + 20 := ptrAdd_eq _ _ (by omega)
  have e5 : (a == 0) = false := by
    simp
    omega
  simp (disch := first | omega | (dsimp only; omega) |
      ((try dsimp only); simp (disch := omega) only [read32_write32_other, read32_write32_at,
        read32_wipeHeader_other, hBn, hBl, hPb, hPs])) only
    [Allocate, FindFreeBlock, WriteFooter, GetFooter, e0, e5, e0', e1, e2, e3, e4, hn',
    hFind, Bool.false_eq_true, if_false, if_true, ok_bind, bind_assoc, pure_bind,
    sizeofSBlockHeader, Adjust_after _ a 0 ap sp, Manage_split _ a n' t, storeBool_ok, store32_ok,
    load32_ok, read32_write32_other, read32_write32_at]
  rfl

theorem Allocate_first_fold (fuel : Nat) (s : CManagedHeap) (n n' a t : Nat)
    (hlo : 20 ≤ s.ramLo) (hb : s.ramLo ≤ a ∧ a + 28 + t = s.m_pMemory + s.m_uMemorySize ∧
      s.m_pMemory + s.m_uMemorySize ≤ s.ramHi)
    (hhi : s.ramHi < 4294967296)
    (hmem : s.m_pMemory = a) (hblk : s.m_pBlock = a) (h4 : a % 4 = 0)
    (hn0 : n ≠ 0) (hn' : (if (n % 4 != 0) = true then add32 n (4 - n % 4) else n) = n')
    (hFind : FindFreeBlockLoop { s with m_ELastHeapError := .EHeapError_Ok } n' 4 fuel s.m_pBlock =
      .ok a)
    (hBn : read32 s.ram a = 0) (hn : n' ≤ t ∧ t < n' + 32) :
    Allocate fuel s n 4 = .error .accessViolation := by
  have e0 : (s.m_pMemory == 0) = false := by
    simp
    omega
  have e0' : (n == 0) = false := by simpa using hn0
  have e1 : (!IsPowerOfTwo 4 || decide (4 < PLATFORM_MIN_ALIGN)) = false := by decide
  have e2 : (a != 0) = true := by
    simp
    omega
  have e3 : ptrAdd (a + 20) n' = a + 20 + n' := ptrAdd_eq _ _ (by omega)
  have e4 : ptrAdd a 20 = a + 20 := ptrAdd_eq _ _ (by omega)
  have e5 : (a == 0) = false := by
    simp
    omega
  simp (disch := first | omega | (dsimp only; omega) |
      ((try dsimp only); simp (disch := omega) only [read32_write32_other, read32_write32_at,
        read32_wipeHeader_other, hBn])) only
    [Allocate, FindFreeBlock, WriteFooter, GetFooter, e0, e5, e0', e1, e2, e3, e4, hn',
    hFind, Bool.false_eq_true, if_false, if_true, ok_bind, bind_assoc, pure_bind,
    sizeofSBlockHeader, Adjust_first _ a 0, Manage_fold _ a n' t, error_bind, storeBool_ok, store32_ok,
    load32_ok, read32_write32_other, read32_write32_at]

theorem Allocate_after_fold (fuel : Nat) (s : CManagedHeap) (n n' a t ap sp : Nat)
    (hlo : 20 ≤ s.ramLo) (hb : s.ramLo ≤ a ∧ a + 28 + t = s.m_pMemory + s.m_uMemorySize ∧
      s.m_pMemory + s.m_uMemorySize ≤ s.ramHi)
    (hhi : s.ramHi < 4294967296)
    (hmem : 0 < s.m_pMemory) (hne : a ≠ s.m_pBlock) (h4 : a % 4 = 0)
    (hp : s.ramLo ≤ ap ∧ ap + 28 + sp = a) (hBl : read32 s.ram (a + 12) = 0)
    (hPb : read32 s.ram (a - 8) = ap) (hPs : read32 s.ram (ap + 4) = sp)
    (hn0 : n ≠ 0) (hn' : (if (n % 4 != 0) = true then add32 n (4 - n % 4) else n) = n')
    (hFind : FindFreeBlockLoop { s with m_ELastHeapError := .EHeapError_Ok } n' 4 fuel s.m_pBlock =
      .ok a)
    (hBn : read32 s.ram a = 0) (hn : n' ≤ t ∧ t < n' + 32) :
    Allocate fuel s n 4 = .error .accessViolation := by
  have e0 : (s.m_pMemory == 0) = false := by
    simp
    omega
  have e0' : (n == 0) = false := by simpa using hn0
  have e1 : (!IsPowerOfTwo 4 || decide (4 < PLATFORM_MIN_ALIGN)) = false := by decide
  have e2 : (a != 0) = true := by
    simp
    omega
  have e3 : ptrAdd (a + 20) n' = a + 20 + n' := ptrAdd_eq _ _ (by omega)
  have e4 : ptrAdd a 20 = a + 20 := ptrAdd_eq _ _ (by omega)
  have e5 : (a == 0) = false := by
    simp
    omega
  simp (disch := first | omega | (dsimp only; omega) |
      ((try dsimp only); simp (disch := omega) only [read32_write32_other, read32_write32_at,
        read32_wipeHeader_other, hBn, hBl, hPb, hPs])) only
    [Allocate, FindFreeBlock, WriteFooter, GetFooter, e0, e5, e0', e1, e2, e3, e4, hn',
    hFind, Bool.false_eq_true, if_false, if_true, ok_bind, bind_assoc, pure_bind,
    sizeofSBlockHeader, Adjust_after _ a 0 ap sp, Manage_fold _ a n' t, error_bind, storeBool_ok, store32_ok,
    load32_ok, read32_write32_other, read32_write32_at]

theorem allocBytes_blocks (X : Nat → Nat) (E a n t : Nat) (hE : a + 28 + t = E)
    (hn : n + 32 ≤ t) (hX : read32 X (a + 12) = 0) (hhi : E < 4294967296) :
    Block (allocBytes X a n t) E a n false ∧
    Block (allocBytes X a n t) E (a + 28 + n) (t - n - 28) true ∧
    ∀ x, x < a ∨ E ≤ x → read8 (allocBytes X a n t) x = read8 X x := by
  have e1 : (if a + 28 + n = E then 0 else a + 28 + n) = a + 28 + n := if_neg (by omega)
  have e2 : (if a + 28 + n + 28 + (t - n - 28) = E then 0
      else a + 28 + n + 28 + (t - n - 28)) = 0 := if_pos (by omega)
  refine ⟨⟨by omega, ?_, ?_⟩, ⟨by omega, ?_, ?_⟩, ?_⟩
  · rw [e1]
    simp (disch := omega) only [allocBytes, headerAt, read32_write32_other, read32_write32_at,
      read8_write32_other, read8_write8_same, read32_write8_other, read32_stampBlock_other, hX]
    congr 1
  · simp (disch := omega) only [allocBytes, footerAt, read32_write32_other, read32_write32_at]
  · rw [e2]
    simp (disch := omega) only [allocBytes, headerAt, read32_write32_other, read32_write32_at,
      read8_write32_other, read8_write8_other, read32_write8_other, read32_stampBlock_size,
      read32_stampBlock_left, read32_stampBlock_right, read8_stampBlock_free]
    congr 1
  · simp (disch := omega) only [allocBytes, footerAt, read32_write32_other, read32_write8_other,
      read32_stampBlock_back, read32_stampBlock_fsize]
  · intro x hx
    simp (disch := omega) only [allocBytes, read8_write32_other, read8_write8_other,
      read8_stampBlock_other]

theorem Allocate_zero (fuel : Nat) (s : CManagedHeap) (al : Nat) :
    returned (Allocate fuel s 0 al) = some 0 := by
  unfold Allocate
  dsimp only
  split
  · rfl
  split
  · rfl
  rfl

theorem Allocate_find_fault (fuel : Nat) (s : CManagedHeap) (n n' : Nat) (e : Fault)
    (hmem : 0 < s.m_pMemory) (hn0 : n ≠ 0)
    (hn' : (if (n % 4 != 0) = true then add32 n (4 - n % 4) else n) = n')
    (hFind : FindFreeBlockLoop { s with m_ELastHeapError := .EHeapError_Ok } n' 4 fuel s.m_pBlock =
      .error e) :
    Allocate fuel s n 4 = .error e := by
  have e0 : (s.m_pMemory == 0) = false := by
    simp
    omega
  have e0' : (n == 0) = false := by simpa using hn0
  have e1 : (!IsPowerOfTwo 4 || decide (4 < PLATFORM_MIN_ALIGN)) = false := by decide
  simp only [Allocate, FindFreeBlock, e0, e0', e1, hn', hFind, error_bind, Bool.false_eq_true,
    if_false]

theorem Allocate_find_null (fuel : Nat) (s : CManagedHeap) (n n' : Nat)
    (hmem : 0 < s.m_pMemory) (hn0 : n ≠ 0)
    (hn' : (if (n % 4 != 0) = true then add32 n (4 - n % 4) else n) = n')
    (hFind : FindFreeBlockLoop { s with m_ELastHeapError := .EHeapError_Ok } n' 4 fuel s.m_pBlock =
      .ok 0) :
    returned (Allocate fuel s n 4) = some 0 := by
  have e0 : (s.m_pMemory == 0) = false := by
    simp
    omega
  have e0' : (n == 0) = false := by simpa using hn0
  have e1 : (!IsPowerOfTwo 4 || decide (4 < PLATFORM_MIN_ALIGN)) = false := by decide
  simp only [Allocate, FindFreeBlock, e0, e0', e1, hn', hFind, ok_bind, Bool.false_eq_true,
    if_false, bne_self_eq_false, pure_bind, beq_self_eq_true, if_true]
  rfl

theorem X_first_facts (ram : Nat → Nat) (a : Nat) :
    read32 (write32 (write32 (wipeHeader ram a) a 0) (a + 12) 0) (a + 12) = 0 ∧
    ∀ x, x < a → read8 (write32 (write32 (wipeHeader ram a) a 0) (a + 12) 0) x = read8 ram x := by
  refine ⟨read32_write32_at _ _ _ _ rfl (by omega), fun x hx => ?_⟩
  simp (disch := omega) only [read8_write32_other, read8_wipeHeader_other]

theorem X_after_facts (ram : Nat → Nat) (a ap : Nat) (hap : ap + 28 ≤ a)
    (h1 : read32 ram ap = a) (h2 : read32 ram (ap + 16) = 0) :
    read32 (write32 (write32 (write32 (write32 (wipeHeader ram a) a 0) (a + 12) 0) ap a)
      (ap + 16) 0) (a + 12) = 0 ∧
    ∀ x, x < a → read8 (write32 (write32 (write32 (write32 (wipeHeader ram a) a 0) (a + 12) 0)
      ap a) (ap + 16) 0) x = read8 ram x := by
  constructor
  · simp (disch := omega) only [read32_write32_other, read32_write32_at]
  · intro x hx
    have g1 : read32 (write32 (write32 (wipeHeader ram a) a 0) (a + 12) 0) ap = a := by
      simp (disch := omega) only [read32_write32_other, read32_wipeHeader_other, h1]
    have g2 : read32 (write32 (write32 (write32 (wipeHeader ram a) a 0) (a + 12) 0) ap a)
        (ap + 16) = 0 := by
      simp (disch := omega) only [read32_write32_other, read32_wipeHeader_other, h2]
    rw [read8_write32_same_word _ _ _ _ g2, read8_write32_same_word _ _ _ _ g1]
    simp (disch := omega) only [read8_write32_other, read8_wipeHeader_other]

theorem span_mod4 (as : List (Nat × Bool)) (h : ∀ b ∈ as, b.2 = false ∧ b.1 % 4 = 0) :
    span as % 4 = 0 := by
  induction as with
  | nil => rfl
  | cons b bs ih =>
    have := (h b (by simp)).2
    have := ih (fun c hc => h c (List.mem_cons_of_mem _ hc))
    simp only [span]
    omega

/-- The last block of a chain whose other blocks are all allocated, and what precedes it. -/
theorem tail_shape (ram : Nat → Nat) (E base t a : Nat) (as : List (Nat × Bool))
    (hseg : Seg ram E base (as ++ [(t, true)])) (hsp : base + span (as ++ [(t, true)]) = E)
    (ha : a = base + span as) :
    read32 ram a = 0 ∧ read32 ram (a + 12) = 0 ∧ a + 28 + t = E ∧
    (as = [] ∨ ∃ ap sp, base ≤ ap ∧ ap + 28 + sp = a ∧ read32 ram (a - 8) = ap ∧
      read32 ram (ap + 4) = sp ∧ read32 ram ap = a ∧ read32 ram (ap + 16) = 0) := by
  rw [span_append] at hsp
  simp only [span] at hsp
  rw [Seg_append, ← ha] at hseg
  obtain ⟨hpre, hb, -⟩ := hseg
  obtain ⟨b1, b2, -, -, b5, -⟩ := Block_fields _ _ _ _ _ hb
  simp only at b1 b2
  rw [if_pos (by omega)] at b2
  refine ⟨b2, b5, by omega, ?_⟩
  rcases nil_or_snoc as with h | ⟨L, m, f, rfl⟩
  · exact Or.inl h
  · right
    rw [Seg_append] at hpre
    obtain ⟨-, hp, -⟩ := hpre
    obtain ⟨p1, p2, p3, -, -, p6, p7, -⟩ := Block_fields _ _ _ _ _ hp
    rw [span_append] at ha
    simp only [span] at ha p1 p2 p3 p6 p7
    refine ⟨base + span L, m, by omega, by omega, ?_, p3, ?_, p6⟩
    · have e : a - 8 = base + span L + 20 + m := by omega
      rw [e]
      exact p7
    · rw [p2, if_neg (by omega)]
      omega

theorem Allocate_tail (fuel : Nat) (s : CManagedHeap) (as : List (Nat × Bool)) (t n n' : Nat)
    (hI : Inv s (as ++ [(t, true)])) (h4 : (s.m_pMemory + span as) % 4 = 0)
    (hn0 : n ≠ 0) (hn' : (if (n % 4 != 0) = true then add32 n (4 - n % 4) else n) = n')
    (hFind : FindFreeBlockLoop { s with m_ELastHeapError := .EHeapError_Ok } n' 4 fuel s.m_pBlock =
      .ok (s.m_pMemory + span as)) :
    (n' + 32 ≤ t → ∃ s1 X, Allocate fuel s n 4 = .ok (s1, s.m_pMemory + span as + 20) ∧
      s1.ram = allocBytes X (s.m_pMemory + span as) n' t ∧
      read32 X (s.m_pMemory + span as + 12) = 0 ∧
      (∀ x, x < s.m_pMemory + span as → read8 X x = read8 s.ram x) ∧
      s1.m_pBlock = s.m_pBlock ∧ s1.m_pMemory = s.m_pMemory ∧
      s1.m_uMemorySize = s.m_uMemorySize ∧ s1.ramLo = s.ramLo ∧ s1.ramHi = s.ramHi ∧
      s1.m_uFreeSpace = sub32 s.m_uFreeSpace n' ∧
      s1.m_uNumAllocations = add32 s.m_uNumAllocations 1 ∧
      s1.m_ELastHeapError = .EHeapError_Ok) ∧
    (n' ≤ t → t < n' + 32 → Allocate fuel s n 4 = .error .accessViolation) := by
  obtain ⟨hlo, hbase, hE, hhi, hblk, hseg, hspan⟩ := hI
  obtain ⟨t1, t2, t3, hshape⟩ := tail_shape s.ram _ _ t _ as hseg (by rw [hspan]) rfl
  have hsp := span_append as [(t, true)]
  simp only [span] at hsp
  rcases hshape with rfl | ⟨ap, sp, p1, p2, p3, p4, p5, p6⟩
  · simp only [span, Nat.add_zero] at *
    constructor
    · intro hn
      refine ⟨_, _, Allocate_first fuel s n n' s.m_pMemory t hlo ⟨hbase, t3, hE⟩ hhi rfl hblk h4
        hn0 hn' hFind t1 hn, rfl, (X_first_facts _ _).1, (X_first_facts _ _).2, ?_, rfl, rfl,
        rfl, rfl, rfl, rfl, rfl⟩
      exact hblk.symm
    · intro h1 h2
      exact Allocate_first_fold fuel s n n' s.m_pMemory t hlo ⟨hbase, t3, hE⟩ hhi rfl hblk h4
        hn0 hn' hFind t1 ⟨h1, h2⟩
  · have hne : s.m_pMemory + span as ≠ s.m_pBlock := by omega
    have hX := X_after_facts s.ram (s.m_pMemory + span as) ap (by omega) p5 p6
    constructor
    · intro hn
      exact ⟨_, _, Allocate_after fuel s n n' _ t ap sp hlo ⟨by omega, t3, hE⟩ hhi (by omega) hne
        h4 ⟨by omega, p2⟩ t2 p3 p4 hn0 hn' hFind t1 hn, rfl, hX.1, hX.2, rfl, rfl, rfl, rfl, rfl,
        rfl, rfl, rfl⟩
    · intro h1 h2
      exact Allocate_after_fold fuel s n n' _ t ap sp hlo ⟨by omega, t3, hE⟩ hhi (by omega) hne
        h4 ⟨by omega, p2⟩ t2 p3 p4 hn0 hn' hFind t1 ⟨h1, h2⟩

theorem round_facts (n : Nat) (hn : n < 4294967296) :
    ∃ n', (if (n % 4 != 0) = true then add32 n (4 - n % 4) else n) = n' ∧ n' % 4 = 0 ∧
      n' < 4294967296 := by
  refine ⟨_, rfl, ?_⟩
  by_cases h : n % 4 = 0
  · simp only [h, bne_self_eq_false, Bool.false_eq_true, if_false]
    exact ⟨trivial, hn⟩
  · have e : (n % 4 != 0) = true := by simpa using h
    rw [if_pos e]
    unfold add32
    omega

theorem AInv_build (s s1 : CManagedHeap) (X : Nat → Nat) (as : List (Nat × Bool)) (t n' : Nat)
    (h : AInv s as t) (hn : n' + 32 ≤ t) (hn4 : n' % 4 = 0)
    (hram : s1.ram = allocBytes X (s.m_pMemory + span as) n' t)
    (hX : read32 X (s.m_pMemory + span as + 12) = 0)
    (hfr : ∀ x, x < s.m_pMemory + span as → read8 X x = read8 s.ram x)
    (f1 : s1.m_pBlock = s.m_pBlock) (f2 : s1.m_pMemory = s.m_pMemory)
    (f3 : s1.m_uMemorySize = s.m_uMemorySize) (f4 : s1.ramLo = s.ramLo)
    (f5 : s1.ramHi = s.ramHi) (f6 : s1.m_uFreeSpace = sub32 s.m_uFreeSpace n')
    (f7 : s1.m_uNumAllocations = add32 s.m_uNumAllocations 1) :
    AInv s1 (as ++ [(n', false)]) (t - n' - 28) := by
  obtain ⟨⟨hlo, hbase, hE, hhi, hblk, hseg, hspan⟩, hb4, hall, hcnt, hfree⟩ := h
  have hsp : span (as ++ [(t, true)]) = span as + (28 + t + 0) := by
    rw [span_append]
    rfl
  have hsp' : span (as ++ [(n', false)] ++ [(t - n' - 28, true)]) =
      span as + (28 + n' + 0) + (28 + (t - n' - 28) + 0) := by
    rw [span_append, span_append]
    rfl
  have hle := allocSum_le_span as
  obtain ⟨B1, B2, hfr'⟩ := allocBytes_blocks X (s.m_pMemory + s.m_uMemorySize)
    (s.m_pMemory + span as) n' t (by omega) hn hX (by omega)
  rw [Seg_append] at hseg
  refine ⟨⟨by omega, by omega, by omega, by omega, by omega, ?_, by omega⟩, by omega, ?_, ?_, ?_⟩
  · rw [f2, f3, hram, List.append_assoc, Seg_append]
    refine ⟨Seg_congr _ _ _ _ _ (fun x hx hx' => ?_) hseg.1, B1, ?_, trivial⟩
    · rw [hfr' x (Or.inl hx'), hfr x hx']
    · exact B2
  · intro b hb
    rcases List.mem_append.1 hb with hb | hb
    · exact hall b hb
    · have : b = (n', false) := by simpa using hb
      subst this
      exact ⟨rfl, hn4⟩
  · rw [f7, hcnt, List.length_append]
    unfold add32
    simp only [List.length_singleton]
    omega
  · rw [f6, f3, allocSum_append]
    unfold sub32
    simp only [allocSum, Bool.false_eq_true, if_false]
    omega

theorem Allocate_chain (fuel : Nat) (s s' : CManagedHeap) (as : List (Nat × Bool)) (t n p : Nat)
    (h : AInv s as t) (hn : n < 4294967296) (hal : Allocate fuel s n 4 = .ok (s', p))
    (hp : p ≠ 0) :
    ∃ n', p = s.m_pMemory + span as + 20 ∧ AInv s' (as ++ [(n', false)]) (t - n' - 28) ∧
      s'.m_pMemory = s.m_pMemory ∧ s'.m_uMemorySize = s.m_uMemorySize ∧
      s'.m_ELastHeapError = .EHeapError_Ok := by
  have hn0 : n ≠ 0 := by
    rintro rfl
    have := Allocate_zero fuel s 4
    rw [hal] at this
    exact hp (Option.some.inj this)
  obtain ⟨n', hn', hn4, hn32⟩ := round_facts n hn
  have hI := h.1
  obtain ⟨hlo, hbase, hE, hhi, hblk, hseg, hspan⟩ := hI
  have h4 : (s.m_pMemory + span as) % 4 = 0 := by
    have := span_mod4 as h.2.2.1
    have := h.2.1
    omega
  cases hF : FindFreeBlockLoop { s with m_ELastHeapError := .EHeapError_Ok } n' 4 fuel
      s.m_pBlock with
  | error e =>
    have := Allocate_find_fault fuel s n n' e (by omega) hn0 hn' hF
    rw [hal] at this
    cases this
  | ok q =>
    by_cases hq : q = 0
    · subst hq
      have := Allocate_find_null fuel s n n' (by omega) hn0 hn' hF
      rw [hal] at this
      exact absurd (Option.some.inj this) hp
    · obtain ⟨hq', hnt⟩ := FindLoop_inv { s with m_ELastHeapError := .EHeapError_Ok } n' t
        (s.m_pMemory + s.m_uMemorySize) hn32 hE hhi as s.m_pBlock fuel q h.2.2.1
        (hblk ▸ hseg) (by rw [hblk, hspan]) (by rw [hblk]; exact hbase)
        (by rw [hblk]; exact h.2.1) hF hq
      rw [hq', hblk] at hF
      obtain ⟨hok, hfold⟩ := Allocate_tail fuel s as t n n' h.1 h4 hn0 hn' (hblk ▸ hF)
      by_cases hsp : n' + 32 ≤ t
      · obtain ⟨s1, X, e, hram, hX, hfr, f1, f2, f3, f4, f5, f6, f7, f8⟩ := hok hsp
        rw [hal] at e
        cases e
        exact ⟨n', rfl, AInv_build s s' X as t n' h hsp hn4 hram hX hfr f1 f2 f3 f4 f5 f6 f7,
          f2, f3, f8⟩
      · have := hfold hnt (by omega)
        rw [hal] at this
        cases this

/-! ### Allocating out of a fresh region -/

theorem Initialise_ok (s : CManagedHeap) (base total : Nat) (hfresh : s.m_pMemory = 0)
    (hnull : base ≠ 0) (halign : base % 4 = 0) (hsize : 28 ≤ total) (hlo : s.ramLo ≤ base)
    (hhi : base + total ≤ s.ramHi) (haddr : s.ramHi ≤ 4294967296) :
    Initialise s base total = .ok { s with
      m_pMemory := base
      m_uMemorySize := total
      m_uFreeSpace := total
      m_uActualFreeSpace := sub32 total 28
      m_uNumAllocations := 0
      ram := stampBlock s.ram base total
      m_pBlock := base
      m_ELastHeapError := .EHeapError_Ok } := by
  have hnb : (base == 0) = false := by simpa using hnull
  simp (disch := first | omega | (dsimp only; omega)) only [Initialise, hfresh, hnb, IsAligned,
    PLATFORM_MIN_ALIGN, halign, bne_self_eq_false, Bool.false_eq_true, if_false,
    beq_self_eq_true, Bool.not_true, EncapsulateMemoryBlock_ok, ok_bind]
  rfl

theorem AInv_initial (s s1 : CManagedHeap) (base total : Nat) (hfresh : s.m_pMemory = 0)
    (halign : base % 4 = 0) (hsize : 28 ≤ total) (hlo : 20 ≤ s.ramLo) (hb : s.ramLo ≤ base)
    (hE : base + total ≤ s.ramHi) (hhi : s.ramHi < 4294967296)
    (h : Initialise s base total = .ok s1) :
    AInv s1 [] (total - 28) ∧ s1.m_pMemory = base ∧ s1.m_uMemorySize = total := by
  rw [Initialise_ok s base total hfresh (by omega) halign hsize hb hE (by omega)] at h
  cases h
  refine ⟨⟨⟨hlo, hb, hE, hhi, rfl, ⟨⟨?_, ?_, ?_⟩, trivial⟩, ?_⟩, halign, by simp, rfl, rfl⟩,
    rfl, rfl⟩
  · show base + 28 + (total - 28) ≤ base + total
    omega
  · show headerAt (stampBlock s.ram base total) base = _
    rw [headerAt_stampBlock _ _ _ hsize (by omega)]
    congr 1
    show 0 = if base + 28 + (total - 28) = base + total then 0 else base + 28 + (total - 28)
    rw [if_pos (by omega)]
  · show footerAt (stampBlock s.ram base total) (base + 20 + (total - 28)) = _
    have e : base + 20 + (total - 28) = base + total - 8 := by omega
    rw [e, footerAt_stampBlock _ _ _ hsize (by omega)]
  · show 28 + (total - 28) + 0 = total
    omega

theorem allocAll_AInv (fuel : Nat) (sizes : List Nat) :
    ∀ (s s' : CManagedHeap) (as : List (Nat × Bool)) (t : Nat) (ps : List Nat),
      AInv s as t → (∀ n ∈ sizes, n < 4294967296) → allocAll fuel s sizes = .ok (s', ps) →
      (∀ p ∈ ps, p ≠ 0) →
      ∃ as' t', AInv s' (as ++ as') t' ∧ live (s.m_pMemory + span as) as' = ps ∧
        s'.m_pMemory = s.m_pMemory ∧ s'.m_uMemorySize = s.m_uMemorySize := by
  induction sizes with
  | nil =>
    intro s s' as t ps h _ hal _
    simp only [allocAll] at hal
    cases hal
    exact ⟨[], t, by simpa using h, rfl, rfl, rfl⟩
  | cons n ns ih =>
    intro s s' as t ps h hsz hal hps
    simp only [allocAll] at hal
    obtain ⟨⟨s1, p⟩, h1, hal⟩ := bind_ok_elim hal
    obtain ⟨⟨s2, ps'⟩, h2, hal⟩ := bind_ok_elim hal
    cases hal
    obtain ⟨n', hp, hA, f1, f2, -⟩ := Allocate_chain fuel s s1 as t n p h (hsz n (by simp)) h1
      (hps p (by simp))
    obtain ⟨as', t', hA', hl, g1, g2⟩ := ih s1 s2 (as ++ [(n', false)]) _ ps' hA
      (fun m hm => hsz m (List.mem_cons_of_mem _ hm)) h2
      (fun q hq => hps q (List.mem_cons_of_mem _ hq))
    refine ⟨(n', false) :: as', t', by simpa using hA', ?_, g1.trans f1, g2.trans f2⟩
    rw [f1, span_append] at hl
    simp only [span] at hl
    have e : s.m_pMemory + (span as + (28 + n' + 0)) = s.m_pMemory + span as + 28 + n' := by
      omega
    rw [e] at hl
    simp only [live, Bool.false_eq_true, if_false, hl, hp]

theorem NoAdj_alloc (as : List (Nat × Bool)) (h : ∀ b ∈ as, b.2 = false) : NoAdj as := by
  induction as with
  | nil => exact List.chain'_nil
  | cons b bs ih =>
    exact List.chain'_cons'.2 ⟨fun y _ => Or.inl (h b (by simp)),
      ih (fun c hc => h c (List.mem_cons_of_mem _ hc))⟩

theorem live_alloc_length (a : Nat) (as : List (Nat × Bool)) (h : ∀ b ∈ as, b.2 = false) :
    (live a as).length = as.length := by
  induction as generalizing a with
  | nil => rfl
  | cons b bs ih =>
    have hb := h b (by simp)
    simp only [live, hb, Bool.false_eq_true, if_false, List.length_cons,
      ih _ (fun c hc => h c (List.mem_cons_of_mem _ hc))]

theorem DInv_of_AInv (s : CManagedHeap) (as : List (Nat × Bool)) (t : Nat) (qs : List Nat)
    (h : AInv s as t) (hperm : qs.Perm (live s.m_pMemory as)) : DInv s (as ++ [(t, true)]) qs := by
  obtain ⟨hI, -, hall, hcnt, hfree⟩ := h
  have hall' : ∀ b ∈ as, b.2 = false := fun b hb => (hall b hb).1
  refine ⟨hI, ?_, ⟨as, t, rfl⟩, hperm.nodup_iff.2 (live_nodup _ _), ?_, ?_, ?_⟩
  · unfold NoAdj
    rw [List.chain'_append]
    exact ⟨NoAdj_alloc as hall', List.chain'_singleton _,
      fun x hx _ _ => Or.inl (hall' x (List.mem_of_mem_getLast? hx))⟩
  · intro q
    rw [hperm.mem_iff, live_append]
    simp [live]
  · rw [hcnt, hperm.length_eq, live_alloc_length _ _ hall']
  · rw [allocSum_append]
    simp only [allocSum, if_true]
    omega

/-- The state a round trip ends in. -/
theorem roundTrip_state (fuel : Nat) (s : CManagedHeap) (base total : Nat)
    (sizes order : List Nat)
    (hfresh : s.m_pMemory = 0) (halign : base % 4 = 0) (hsize : 28 ≤ total)
    (hlo : 20 ≤ s.ramLo) (hb : s.ramLo ≤ base) (hE : base + total ≤ s.ramHi)
    (hhi : s.ramHi < 4294967296) (hsizes : ∀ n ∈ sizes, n < 4294967296)
    (hok : endsWith (allocated fuel s base total sizes)
      (fun r => r.2.all (· != 0) && decide (order.Perm r.2)) = true) :
    Ends (roundTrip fuel s base total sizes order) (fun s' =>
      s'.m_uNumAllocations = 0 ∧ s'.m_uFreeSpace = total ∧ s'.m_pBlock = base ∧
      headerAt s'.ram base = ⟨0, total - 28, true, 0, 0⟩ ∧
      footerAt s'.ram (base + total - 8) = ⟨base, total - 28⟩) := by
  unfold roundTrip
  cases hr : allocated fuel s base total sizes with
  | error e =>
    rw [hr] at hok
    cases hok
  | ok r =>
    obtain ⟨s2, ps⟩ := r
    rw [hr] at hok
    simp only [endsWith, Bool.and_eq_true, List.all_eq_true, bne_iff_ne, ne_eq,
      decide_eq_true_eq] at hok
    obtain ⟨hps, hperm⟩ := hok
    unfold allocated at hr
    obtain ⟨s1, h1, h2⟩ := bind_ok_elim hr
    obtain ⟨hA, f1, f2⟩ := AInv_initial s s1 base total hfresh halign hsize hlo hb hE hhi h1
    obtain ⟨as', t', hA', hl, g1, g2⟩ := allocAll_AInv fuel sizes s1 s2 [] _ ps hA hsizes h2 hps
    simp only [List.nil_append, span, Nat.add_zero] at hA' hl
    have hD := DInv_of_AInv s2 as' t' order hA' (by rw [g1, hl]; exact hperm)
    obtain ⟨s3, e3, k1, k2, -, bs, hD3⟩ := deallocAll_DInv order s2 _ hD
    obtain ⟨d1, d2, d3, -, d5, d6⟩ := DInv_nil s3 bs hD3
    refine ⟨s3, ?_, d1, ?_, ?_, ?_, ?_⟩
    · simp only [ok_bind]
      exact e3
    · rw [d2, k2, g2, f2]
    · rw [d3, k1, g1, f1]
    · rw [k1, k2, g1, g2, f1, f2] at d5
      exact d5
    · rw [k1, k2, g1, g2, f1, f2] at d6
      exact d6

/-! ### Round trips and overrun detection -/

/-- C3. Round-trip coalescing: on an object without a buffer, initialise a 4-aligned region of
`total ≥ 28` addressable bytes, allocate any list of `u32` sizes at the default alignment so that
every call returns a non-null pointer, then deallocate the returned pointers once each in any
order (`order` is a permutation of them). The run ends without a fault with `GetNumAllocs = 0` and
a chain of exactly one block: `m_pBlock` is the buffer start and the header there is free, has no
successor, no padding and the payload size `total - (sizeof(SBlockHeader) + sizeof(SFooterBlock))`.
-/
theorem roundTrip_coalesces (fuel : Nat) (s : CManagedHeap) (base total : Nat)
    (sizes order : List Nat)
    (hfresh : s.m_pMemory = 0) (halign : base % 4 = 0) (hsize : 28 ≤ total)
    (hlo : 20 ≤ s.ramLo) (hb : s.ramLo ≤ base) (hE : base + total ≤ s.ramHi)
    (hhi : s.ramHi < 4294967296) (hsizes : ∀ n ∈ sizes, n < 4294967296)
    (hok : endsWith (allocated fuel s base total sizes)
      (fun r => r.2.all (· != 0) && decide (order.Perm r.2)) = true) :
    Ends (roundTrip fuel s base total sizes order) (fun s' =>
      GetNumAllocs s' = 0 ∧ s'.m_pBlock = base ∧
      headerAt s'.ram base =
        ⟨0, total - (sizeofSBlockHeader + sizeofSFooterBlock), true, 0, 0⟩) :=
  Ends_mono (roundTrip_state fuel s base total sizes order hfresh halign hsize hlo hb hE hhi
    hsizes hok) (fun _ h => ⟨h.1, h.2.2.1, h.2.2.2.1⟩)

set_option maxRecDepth 100000 in
theorem roundTrip_coalesces_witness :
    Ends (roundTrip 10 (newHeap 4096 5120) 4096 1024 [100, 100, 100] [4244, 4116, 4372])
      (fun s' => GetNumAllocs s' = 0 ∧ s'.m_pBlock = 4096 ∧
        headerAt s'.ram 4096 =
          ⟨0, 1024 - (sizeofSBlockHeader + sizeofSFooterBlock), true, 0, 0⟩) :=
  roundTrip_coalesces 10 (newHeap 4096 5120) 4096 1024 [100, 100, 100] [4244, 4116, 4372]
    rfl (by decide) (by decide) (by decide) (by decide) (by decide) (by decide) (by decide)
    (by decide)

set_option maxRecDepth 100000 in
/-- C4 as stated fails on the run of `main`: after three allocations of 100 bytes on the fresh
1024-byte region and their deallocation in allocation order, `GetFreeMemory` returns 1024, not
`1024 - 28 = 996`, which is the payload of the single remaining free block. -/
theorem roundTrip_free_memory_counterexample :
    endsWith (roundTrip 10 (newHeap 4096 5120) 4096 1024 [100, 100, 100] [4116, 4244, 4372])
      (fun s => GetFreeMemory s == 1024 &&
        GetFreeMemory s != 1024 - (sizeofSBlockHeader + sizeofSFooterBlock) &&
        (headerAt s.ram 4096).m_uBlockSize == 996) = true := by
  decide

/-- C4 (amended). Round-trip free memory: under the conditions of the round trip (an object without
a buffer, a 4-aligned region of `total ≥ 28` addressable bytes, default-alignment allocations that
all return a non-null pointer, every returned pointer deallocated once, in any order),
`GetFreeMemory` returns `total`: with no live allocation it reports `m_uFreeSpace`, from which the
overhead of the initial block was never deducted. The payload of the single remaining free block
is `sizeof(SBlockHeader) + sizeof(SFooterBlock)` less. -/
theorem roundTrip_free_memory (fuel : Nat) (s : CManagedHeap) (base total : Nat)
    (sizes order : List Nat)
    (hfresh : s.m_pMemory = 0) (halign : base % 4 = 0) (hsize : 28 ≤ total)
    (hlo : 20 ≤ s.ramLo) (hb : s.ramLo ≤ base) (hE : base + total ≤ s.ramHi)
    (hhi : s.ramHi < 4294967296) (hsizes : ∀ n ∈ sizes, n < 4294967296)
    (hok : endsWith (allocated fuel s base total sizes)
      (fun r => r.2.all (· != 0) && decide (order.Perm r.2)) = true) :
    Ends (roundTrip fuel s base total sizes order) (fun s' =>
      GetFreeMemory s' = total ∧
      (headerAt s'.ram base).m_uBlockSize + (sizeofSBlockHeader + sizeofSFooterBlock) = total) := by
  refine Ends_mono (roundTrip_state fuel s base total sizes order hfresh halign hsize hlo hb hE
    hhi hsizes hok) (fun s' h => ?_)
  obtain ⟨h1, h2, -, h4, -⟩ := h
  constructor
  · unfold GetFreeMemory
    rw [h1, h2]
    rfl
  · rw [h4]
    show total - 28 + (20 + 8) = total
    omega

set_option maxRecDepth 100000 in
theorem roundTrip_free_memory_witness :
    Ends (roundTrip 10 (newHeap 4096 5120) 4096 1024 [100, 100, 100] [4372, 4116, 4244])
      (fun s' => GetFreeMemory s' = 1024 ∧
        (headerAt s'.ram 4096).m_uBlockSize + (sizeofSBlockHeader + sizeofSFooterBlock) = 1024) :=
  roundTrip_free_memory 10 (newHeap 4096 5120) 4096 1024 [100, 100, 100] [4372, 4116, 4244]
    rfl (by decide) (by decide) (by decide) (by decide) (by decide) (by decide) (by decide)
    (by decide)

/-- On a chain without padding overrun detection is report-but-proceed: take a heap whose chain
has no padding and an allocated block of it, at `a` with payload size `n`, that is not the last
block. Whatever has been written since into the block's footer back reference and its right
padding field (`hdmg`: all other bytes are those of the well-formed heap), if the back reference no
longer equals `a`, then `Deallocate` of the block's payload pointer returns with status
`OverwriteOverrun` (also when the right padding differs from the successor's left padding), the
allocation count is one less, and the block lies inside a block `[st, ...)` whose header is marked
free. -/
theorem Deallocate_overrun (s : CManagedHeap) (ram0 : Nat → Nat) (pre post : List (Nat × Bool))
    (n a : Nat) (hInv : Inv { s with ram := ram0 } (pre ++ (n, false) :: post))
    (hpost : post ≠ []) (ha : a = s.m_pMemory + span pre)
    (hdmg : ∀ y, y < a + 16 ∨ a + 20 ≤ y → y < a + 20 + n ∨ a + 24 + n ≤ y →
      read8 s.ram y = read8 ram0 y)
    (hbr : read32 s.ram (a + 20 + n) ≠ a)
    (hcnt : 0 < s.m_uNumAllocations ∧ s.m_uNumAllocations < 4294967296) :
    Ends (Deallocate s (a + 20)) (fun s' =>
      GetLastError s' = .EHeapState_Dealloc_OverwriteOverrun ∧
      GetNumAllocs s' + 1 = GetNumAllocs s ∧
      ∃ st, st ≤ a ∧ a + 28 + n ≤ st + 28 + (headerAt s'.ram st).m_uBlockSize ∧
        (headerAt s'.ram st).m_bIsFreeBlock = true) := by
  obtain ⟨pre', lf, rfl, hlf, hl⟩ := split_free_suffix pre
  obtain ⟨rf, post', rfl, hrf, hr⟩ := split_free_front post hpost
  refine Ends_mono (Deallocate_chain s ram0 pre' lf rf post' n a hInv hlf hl hrf hr ha hdmg) ?_
  rintro s' ⟨h1, h2, -, -, -, h6, h7, -⟩
  have hsp := span_append pre' lf
  refine ⟨?_, ?_, s.m_pMemory + span pre', by omega, ?_, h6⟩
  · rw [GetLastError, h1]
    unfold checkStatus
    rw [if_pos (by simpa using hbr)]
  · rw [GetNumAllocs, GetNumAllocs, h2]
    unfold sub32
    omega
  · show _ ≤ _ + read32 s'.ram (s.m_pMemory + span pre' + 4)
    rw [h7]
    omega

set_option maxRecDepth 100000 in
theorem Deallocate_overrun_witness :
    Ends (Deallocate oneBlockOverrun (4096 + 20)) (fun s' =>
      GetLastError s' = .EHeapState_Dealloc_OverwriteOverrun ∧
      GetNumAllocs s' + 1 = GetNumAllocs oneBlockOverrun ∧
      ∃ st, st ≤ 4096 ∧ 4096 + 28 + 100 ≤ st + 28 + (headerAt s'.ram st).m_uBlockSize ∧
        (headerAt s'.ram st).m_bIsFreeBlock = true) :=
  Deallocate_overrun oneBlockOverrun oneBlock.ram [] [(868, true)] 100 4096 (by decide)
    (by decide) (by decide) (fun y _ h => read8_write8_other _ _ _ _ (by omega)) (by decide)
    (by decide)

/-! ### The failure cases of `Initialise` -/

theorem Initialise_used (s : CManagedHeap) (p n : Nat) (h : s.m_pMemory ≠ 0) :
    Initialise s p n = .ok { s with m_ELastHeapError := .EHeapState_Init_AlreadyInitialised } := by
  have e : (s.m_pMemory != 0) = true := by simpa using h
  simp only [Initialise, e, if_true]
  rfl

theorem Initialise_null (s : CManagedHeap) (n : Nat) (h : s.m_pMemory = 0) :
    Initialise s 0 n = .ok { s with m_ELastHeapError := .EHeapState_Init_UnableToAquireMemory } := by
  simp only [Initialise, h, bne_self_eq_false, Bool.false_eq_true, if_false, beq_self_eq_true,
    if_true]
  rfl

theorem Initialise_misaligned (s : CManagedHeap) (p n : Nat) (h : s.m_pMemory = 0) (hp : p ≠ 0)
    (h4 : p % 4 ≠ 0) :
    Initialise s p n = .ok { s with m_ELastHeapError := .EHeapState_Init_BadAlign } := by
  have e : (p == 0) = false := by simpa using hp
  have e' : IsAligned p = false := by
    simp [IsAligned, PLATFORM_MIN_ALIGN, h4]
  simp only [Initialise, h, e, e', bne_self_eq_false, Bool.false_eq_true, if_false, Bool.not_false,
    if_true]
  rfl

theorem Initialise_aligned_status (s s' : CManagedHeap) (p n : Nat) (h : s.m_pMemory = 0)
    (hp : p ≠ 0) (h4 : p % 4 = 0) (hr : Initialise s p n = .ok s') :
    s'.m_ELastHeapError = .EHeapError_Ok := by
  have e : (p == 0) = false := by simpa using hp
  have e' : IsAligned p = true := by
    simp [IsAligned, PLATFORM_MIN_ALIGN, h4]
  simp only [Initialise, h, e, e', bne_self_eq_false, Bool.false_eq_true, if_false,
    Bool.not_true] at hr
  obtain ⟨⟨s1, b⟩, -, hr⟩ := bind_ok_elim hr
  have := pure_ok_elim hr
  rw [← this]

/-- C11. Initialise failure classification: whenever `Initialise(pRawMemory, size)` returns, the
status is `AlreadyInitialised` exactly when the object already had a buffer, `UnableToAquireMemory`
exactly when it had none and `pRawMemory` is null, `BadAlign` exactly when it had none and
`pRawMemory` is neither null nor a multiple of 4; a call that ends with a status other than `Ok`
leaves every member and every byte of memory as it was, the status apart; and in each of the three
failing cases the call does return. -/
theorem Initialise_failure_classes (s : CManagedHeap) (pRawMemory uMemorySizeInBytes : Nat) :
    (s.m_pMemory ≠ 0 ∨ pRawMemory = 0 ∨ pRawMemory % 4 ≠ 0 →
      ∃ s', Initialise s pRawMemory uMemorySizeInBytes = .ok s') ∧
    ∀ s', Initialise s pRawMemory uMemorySizeInBytes = .ok s' →
      (GetLastError s' = .EHeapState_Init_AlreadyInitialised ↔ s.m_pMemory ≠ 0) ∧
      (GetLastError s' = .EHeapState_Init_UnableToAquireMemory ↔
        s.m_pMemory = 0 ∧ pRawMemory = 0) ∧
      (GetLastError s' = .EHeapState_Init_BadAlign ↔
        s.m_pMemory = 0 ∧ pRawMemory ≠ 0 ∧ pRawMemory % 4 ≠ 0) ∧
      (GetLastError s' ≠ .EHeapError_Ok →
        s' = { s with m_ELastHeapError := GetLastError s' }) := by
  by_cases h1 : s.m_pMemory ≠ 0
  · have e := Initialise_used s pRawMemory uMemorySizeInBytes h1
    refine ⟨fun _ => ⟨_, e⟩, fun s' hs => ?_⟩
    rw [e] at hs
    cases hs
    simp [GetLastError, h1]
  · have h1' : s.m_pMemory = 0 := by simpa using h1
    by_cases h2 : pRawMemory = 0
    · subst h2
      have e := Initialise_null s uMemorySizeInBytes h1'
      refine ⟨fun _ => ⟨_, e⟩, fun s' hs => ?_⟩
      rw [e] at hs
      cases hs
      simp [GetLastError, h1']
    · by_cases h3 : pRawMemory % 4 = 0
      · refine ⟨fun h => ?_, fun s' hs => ?_⟩
        · rcases h with h | h | h
          · exact absurd h h1
          · exact absurd h h2
          · exact absurd h3 h
        · have e := Initialise_aligned_status s s' pRawMemory uMemorySizeInBytes h1' h2 h3 hs
          simp [GetLastError, e, h1', h2, h3]
      · have e := Initialise_misaligned s pRawMemory uMemorySizeInBytes h1' h2 h3
        refine ⟨fun _ => ⟨_, e⟩, fun s' hs => ?_⟩
        rw [e] at hs
        cases hs
        simp [GetLastError, h1', h2, h3]

theorem Initialise_failure_classes_witness :
    GetLastError (stateOf (Initialise (newHeap 4096 5120) 4098 1024)) =
      .EHeapState_Init_BadAlign :=
  ((Initialise_failure_classes (newHeap 4096 5120) 4098 1024).2 _ rfl).2.2.1.2
    ⟨rfl, by decide, by decide⟩

/-! ### The alignment offset -/

theorem land_high (x k : Nat) (hx : x < 4294967296) (hk : k ≤ 32) :
    x &&& (4294967296 - 2 ^ k) = x / 2 ^ k * 2 ^ k := by
  have h1 : 1 ≤ 2 ^ k := Nat.one_le_two_pow
  have h2 : 2 ^ k ≤ 2 ^ 32 := Nat.pow_le_pow_right (by decide) hk
  have hM : 4294967296 - 2 ^ k = 2 ^ 32 - ((2 ^ k - 1) + 1) := by omega
  apply Nat.eq_of_testBit_eq
  intro i
  rw [Nat.testBit_and, hM, Nat.testBit_two_pow_sub_succ (by omega), Nat.testBit_two_pow_sub_one,
    ← Nat.shiftRight_eq_div_pow, ← Nat.shiftLeft_eq, Nat.testBit_shiftLeft,
    Nat.testBit_shiftRight]
  by_cases hik : i < k
  · have : ¬ i ≥ k := by omega
    simp [hik, this]
  · have hge : i ≥ k := by omega
    have e : k + (i - k) = i := by omega
    by_cases hi : i < 32
    · simp [hik, hge, hi, e]
    · have hx' : x < 2 ^ i :=
        lt_of_lt_of_le hx (Nat.pow_le_pow_right (show 0 < 2 by decide) (show 32 ≤ i by omega))
      simp [hik, hge, hi, e, Nat.testBit_lt_two_pow hx']

theorem delta_eq (p k : Nat) (hk : k < 32) :
    CalculateAlignmentDelta p (2 ^ k) =
      sub32 (add32 p (2 ^ k - 1) / 2 ^ k * 2 ^ k) p := by
  have h1 : 1 ≤ 2 ^ k := Nat.one_le_two_pow
  have h2 : 2 ^ k < 2 ^ 32 := Nat.pow_lt_pow_right (by decide) hk
  have e1 : sub32 (2 ^ k) 1 = 2 ^ k - 1 := by
    unfold sub32
    omega
  have e2 : not32 (2 ^ k - 1) = 4294967296 - 2 ^ k := by
    unfold not32
    omega
  simp only [CalculateAlignmentDelta, e1, e2]
  have hy : add32 p (2 ^ k - 1) < 4294967296 := Nat.mod_lt _ (by decide)
  rw [land_high _ k hy (by omega)]

theorem delta_lt (p k : Nat) (hp : p < 4294967296) (hk : k < 32) :
    CalculateAlignmentDelta p (2 ^ k) < 2 ^ k := by
  have h1 : 1 ≤ 2 ^ k := Nat.one_le_two_pow
  have h2 : 2 ^ k < 2 ^ 32 := Nat.pow_lt_pow_right (by decide) hk
  rw [delta_eq p k hk]
  generalize 2 ^ k = a at *
  by_cases hov : p + (a - 1) < 4294967296
  · have ey : add32 p (a - 1) = p + (a - 1) := add32_eq _ _ hov
    rw [ey]
    have hd := Nat.div_add_mod' (p + (a - 1)) a
    have hr := Nat.mod_lt (p + (a - 1)) (show 0 < a by omega)
    generalize (p + (a - 1)) / a * a = A at *
    unfold sub32
    omega
  · have ey : add32 p (a - 1) = p + (a - 1) - 4294967296 := by
      unfold add32
      omega
    rw [ey, Nat.div_eq_of_lt (by omega), Nat.zero_mul]
    unfold sub32
    omega

/-- C15. CalculateAlignmentDelta: for every 32-bit address `p` and every `u32` power of two
`2 ^ k`, the offset `d` returned satisfies `d < 2 ^ k`, `(p + d) mod 2 ^ 32` is a multiple of
`2 ^ k`, no smaller offset aligns `p`, and `d = 0` exactly when `p` is a multiple of `2 ^ k`. -/
theorem CalculateAlignmentDelta_least (p k : Nat) (hp : p < 4294967296) (hk : k < 32) :
    CalculateAlignmentDelta p (2 ^ k) < 2 ^ k ∧
    (p + CalculateAlignmentDelta p (2 ^ k)) % 4294967296 % 2 ^ k = 0 ∧
    (∀ d, d < CalculateAlignmentDelta p (2 ^ k) → (p + d) % 4294967296 % 2 ^ k ≠ 0) ∧
    (CalculateAlignmentDelta p (2 ^ k) = 0 ↔ p % 2 ^ k = 0) := by
  have hlt := delta_lt p k hp hk
  have hal : (p + CalculateAlignmentDelta p (2 ^ k)) % 4294967296 % 2 ^ k = 0 :=
    aligned_address p k (by omega)
  have hdvd : 2 ^ k ∣ 4294967296 := by
    have : (4294967296 : Nat) = 2 ^ 32 := by decide
    rw [this]
    exact pow_dvd_pow 2 (by omega)
  have hmin : ∀ d, d < CalculateAlignmentDelta p (2 ^ k) →
      (p + d) % 4294967296 % 2 ^ k ≠ 0 := by
    intro d hd h
    rw [Nat.mod_mod_of_dvd _ hdvd] at h hal
    have h1 : 2 ^ k ∣ p + d := Nat.dvd_of_mod_eq_zero h
    have h2 : 2 ^ k ∣ p + CalculateAlignmentDelta p (2 ^ k) := Nat.dvd_of_mod_eq_zero hal
    have h3 : 2 ^ k ∣ p + CalculateAlignmentDelta p (2 ^ k) - (p + d) := Nat.dvd_sub' h2 h1
    have h4 := Nat.le_of_dvd (by omega) h3
    omega
  refine ⟨hlt, hal, hmin, ?_, ?_⟩
  · intro h0
    rw [h0, Nat.add_zero, Nat.mod_mod_of_dvd _ hdvd] at hal
    exact hal
  · intro h
    by_contra hne
    have := hmin 0 (Nat.pos_of_ne_zero hne)
    rw [Nat.add_zero, Nat.mod_mod_of_dvd _ hdvd] at this
    exact this h

theorem CalculateAlignmentDelta_least_witness :
    CalculateAlignmentDelta 4116 (2 ^ 3) < 2 ^ 3 ∧
    (4116 + CalculateAlignmentDelta 4116 (2 ^ 3)) % 4294967296 % 2 ^ 3 = 0 ∧
    (∀ d, d < CalculateAlignmentDelta 4116 (2 ^ 3) → (4116 + d) % 4294967296 % 2 ^ 3 ≠ 0) ∧
    (CalculateAlignmentDelta 4116 (2 ^ 3) = 0 ↔ 4116 % 2 ^ 3 = 0) :=
  CalculateAlignmentDelta_least 4116 3 (by decide) (by decide)

/-! ### Runs that leave the described behaviour -/

set_option maxRecDepth 100000 in
/-- C12. Deallocate on an unusable region is not rejected: on the fresh 1024-byte region,
`Allocate(100)` returns 4116; after `Shutdown` the object has no buffer, yet `Deallocate(4116)`
ends with status `Ok` (not `NotInitialised`), decrements `m_uNumAllocations` from 1 to 0, raises
`m_uFreeSpace` from 924 to 1024 and writes the former buffer (the byte of `m_bIsFreeBlock` at 4104
goes from 0 to 1). -/
theorem Deallocate_after_Shutdown :
    endsWith deallocAfterShutdown (fun r =>
      r.2.1.m_pMemory == 0 && GetLastError r.2.2 == .EHeapError_Ok &&
      GetNumAllocs r.2.1 == 1 && GetNumAllocs r.2.2 == 0 &&
      read8 r.2.1.ram 4104 == 0 && read8 r.2.2.ram 4104 == 1 &&
      r.2.1.m_uFreeSpace == 924 && r.2.2.m_uFreeSpace == 1024) = true := by
  decide

set_option maxRecDepth 100000 in
/-- C13. `Shutdown` does not overwrite the status: for every state `GetLastError` after `Shutdown`
is what it was before; on the fresh 1024-byte region, after `Allocate(0)` failed and `Shutdown`
ran, `GetLastError` is still `ZeroSizeAlloc`, not `Ok`. -/
theorem Shutdown_keeps_status :
    (∀ s, GetLastError (Shutdown s) = GetLastError s) ∧
    endsWith shutdownAfterError
      (fun s => GetLastError s == .EHeapState_Alloc_ZeroSizeAlloc && s.m_pMemory == 0) = true := by
  refine ⟨fun s => ?_, by decide⟩
  unfold Shutdown GetLastError
  split <;> rfl

set_option maxRecDepth 100000 in
/-- C14. `Shutdown` releases a buffer of the caller: `m_bSelfAllocatedMemory`, once set by
`Initialise(u32)`, is never cleared. After `Initialise(1024)` (buffer 4096 from `malloc`),
`Shutdown`, `Initialise(6144, 1024)`, `Shutdown`, the buffer 6144 of the caller has been passed to
`free`; likewise after `Initialise(6144, 1024)`, a failing `Initialise(1024)` and `Shutdown`. In
both runs `Shutdown` clears `m_pMemory`. -/
theorem Shutdown_releases_supplied :
    endsWith supplyAfterMalloc (fun s => s.released == [6144, 4096] && s.m_pMemory == 0) = true ∧
    endsWith mallocAfterSupply (fun s => s.released == [6144, 4096] && s.m_pMemory == 0) = true := by
  decide

set_option maxRecDepth 100000 in
/-- C16. Tiling fails after a merge of more than 255 bytes of left padding: on a 4096-byte region
at 4096, `Allocate(100, 512)` puts the first header at 4588 with `m_LeftPadding = 492` (the chain
tiles the buffer: `4588 - 492 = 4096`); `Deallocate` of the pointer subtracts `(u8) 492 = 236` and
leaves a single block at 4352 without padding and without successor, of payload 3812: the chain
starts 256 bytes after the buffer start and accounts for `28 + 3812 = 3840` of the 4096 bytes. -/
theorem Deallocate_truncates_padding :
    endsWith paddedHead (fun r =>
      r.1.m_pMemory == 4096 && r.1.m_pBlock == 4588 &&
      (headerAt r.1.ram 4588).m_LeftPadding == 492 &&
      GetLastError r.2 == .EHeapError_Ok && r.2.m_pMemory == 4096 && r.2.m_pBlock == 4352 &&
      (headerAt r.2.ram 4352).m_LeftPadding == 0 &&
      (headerAt r.2.ram 4352).m_pSMemBlockNext == 0 &&
      (headerAt r.2.ram 4352).m_uBlockSize == 3812 &&
      (headerAt r.2.ram 4352).m_RightPadding == 0) = true := by
  decide

set_option maxRecDepth 100000 in
/-- C17. The padding mirror fails after a block with left padding is freed: on the fresh
1024-byte region, after `Allocate(100, 4)` (header 4096) and `Allocate(100, 8)` (header 4228,
`m_LeftPadding = 4`, so the first block has `m_RightPadding = 4`), `Deallocate` of the second
pointer merges the padding into a block at 4224 with `m_LeftPadding = 0` but leaves
`m_RightPadding = 4` in its predecessor at 4096. The following `Deallocate` of the first pointer
reports `OverwriteUnderrun` although nothing was written outside a payload. -/
theorem Deallocate_leaves_right_padding :
    endsWith staleRightPadding (fun r =>
      (headerAt r.1.ram 4096).m_pSMemBlockNext == 4228 &&
      (headerAt r.1.ram 4096).m_RightPadding == 4 &&
      (headerAt r.1.ram 4228).m_LeftPadding == 4 &&
      GetLastError r.2.1 == .EHeapError_Ok && r.2.1.m_pBlock == 4096 &&
      (headerAt r.2.1.ram 4096).m_pSMemBlockNext == 4224 &&
      (headerAt r.2.1.ram 4096).m_RightPadding == 4 &&
      (headerAt r.2.1.ram 4224).m_LeftPadding == 0 &&
      GetLastError r.2.2 == .EHeapState_Dealloc_OverwriteUnderrun) = true := by
  decide

set_option maxRecDepth 100000 in
/-- C18. The counter ordering fails on the second cycle of a 64-byte region: after
`Allocate(4)`, `Deallocate`, `Allocate(4)`, all successful, `m_uFreeSpace = 60` and
`m_uActualFreeSpace = 4294967272`: each cycle costs `m_uActualFreeSpace` 28 bytes, and the `u32`
subtraction wraps. -/
theorem ActualFreeSpace_wraps :
    endsWith tinyCycle (fun s =>
      GetLastError s == .EHeapError_Ok && s.m_uFreeSpace == 60 &&
      s.m_uActualFreeSpace == 4294967272 &&
      decide (s.m_uFreeSpace < s.m_uActualFreeSpace)) = true := by
  decide

set_option maxRecDepth 100000 in
/-- C19. Payload granularity fails for a byte count that is not a multiple of 4:
`Initialise(4096, 1022)` succeeds and the only block of the chain has `m_uBlockSize = 994`. -/
theorem Initialise_odd_payload :
    endsWith (Initialise (newHeap 4096 5120) 4096 1022) (fun s =>
      GetLastError s == .EHeapError_Ok && s.m_pBlock == 4096 &&
      (headerAt s.ram 4096).m_uBlockSize == 994 &&
      (headerAt s.ram 4096).m_uBlockSize % 4 != 0) = true := by
  decide

set_option maxRecDepth 100000 in
/-- C20. Footer consistency fails after an allocation whose size wraps: on a 1024-byte region at
4080, `Allocate(4294967280, 32)` needs 28 bytes of padding, `paddingRequired + size` wraps to 12
and the call succeeds (pointer 4128, status `Ok`). The footer of the block at 4108 is written
over its own header: `m_uBlockSize` of the head block then holds 4108, and the second block of the
chain, at 4120, has `m_uBlockSize = 0` while the footer right behind its payload, at 4140, holds
the back reference 0 instead of 4120. -/
theorem Allocate_wrapped_footer :
    endsWith wrapFooter (fun r =>
      r.2 == 4128 && GetLastError r.1 == .EHeapError_Ok && r.1.m_pBlock == 4108 &&
      (headerAt r.1.ram 4108).m_pSMemBlockNext == 4120 &&
      (headerAt r.1.ram 4108).m_uBlockSize == 4108 &&
      (headerAt r.1.ram 4120).m_pSMemBlockNext == 0 &&
      (headerAt r.1.ram 4120).m_uBlockSize == 0 &&
      footerAt r.1.ram (4120 + 20 + 0) == ⟨0, 0⟩) = true := by
  decide

/-! ### First fit -/

/-- What `FindFreeBlock`'s loop returns is the first block of the chain on which `IsBlockViable`
answers true: the blocks `pre` visited before it are all rejected, and the loop returns null only
after it has rejected every block of the chain. -/
theorem FindFreeBlockLoop_first (s : CManagedHeap) (n al : Nat) :
    ∀ (fuel p r : Nat), FindFreeBlockLoop s n al fuel p = .ok r →
      ∃ pre, (∀ q ∈ pre, IsBlockViable s q n al = .ok false) ∧
        ((IsBlockViable s r n al = .ok true ∧
            ∃ post, chainBlocks s.ram fuel p = pre ++ r :: post) ∨
          (r = 0 ∧ chainBlocks s.ram fuel p = pre)) := by
  intro fuel
  induction fuel with
  | zero =>
    intro p r h
    simp [FindFreeBlockLoop] at h
  | succ fuel ih =>
    intro p r h
    simp only [FindFreeBlockLoop] at h
    obtain ⟨v, hv, h⟩ := bind_ok_elim h
    cases v with
    | true =>
      simp only [if_true] at h
      cases pure_ok_elim h
      exact ⟨[], by simp, Or.inl ⟨hv, _, rfl⟩⟩
    | false =>
      simp only [Bool.false_eq_true, if_false] at h
      obtain ⟨nx, hnx, h⟩ := bind_ok_elim h
      have e : read32 s.ram p = nx := by
        unfold load32 at hnx
        split at hnx
        · cases hnx
          rfl
        · cases hnx
      by_cases hz : nx = 0
      · subst hz
        simp only [bne_self_eq_false, Bool.false_eq_true, if_false] at h
        cases pure_ok_elim h
        refine ⟨[p], by simpa using hv, Or.inr ⟨rfl, ?_⟩⟩
        simp [chainBlocks, e]
      · have hz' : (nx != 0) = true := by simpa using hz
        rw [if_pos hz'] at h
        obtain ⟨pre, hpre, hr⟩ := ih nx r h
        refine ⟨p :: pre, ?_, ?_⟩
        · intro q hq
          rcases List.mem_cons.1 hq with rfl | hq
          · exact hv
          · exact hpre q hq
        · rcases hr with ⟨h1, post, h2⟩ | ⟨h1, h2⟩
          · exact Or.inl ⟨h1, post, by simp [chainBlocks, e, hz', h2]⟩
          · exact Or.inr ⟨h1, by simp [chainBlocks, e, hz', h2]⟩

/-- Where no `u32` sum wraps, `IsBlockViable` computes viability as the specification words
it. -/
theorem IsBlockViable_spec (s : CManagedHeap) (q n al : Nat)
    (hb : s.ramLo ≤ q ∧ q + 20 ≤ s.ramHi) (hhi : s.ramHi < 4294967296)
    (hl : (headerAt s.ram q).m_LeftPadding ≤ q)
    (hw : n + CalculateAlignmentDelta
      (q - (headerAt s.ram q).m_LeftPadding + sizeofSBlockHeader) al < 4294967296)
    (hw' : (headerAt s.ram q).m_uBlockSize + (headerAt s.ram q).m_RightPadding < 4294967296) :
    IsBlockViable s q n al = .ok (viableSpec s.ram q n al) := by
  simp only [headerAt, sizeofSBlockHeader] at hl hw hw'
  have e1 : ptrAdd (ptrSub q (read32 s.ram (q + 12))) 20 = q - read32 s.ram (q + 12) + 20 := by
    unfold ptrAdd ptrSub
    omega
  have e2 : add32 (CalculateAlignmentDelta (q - read32 s.ram (q + 12) + 20) al) n =
      n + CalculateAlignmentDelta (q - read32 s.ram (q + 12) + 20) al := by
    unfold add32
    omega
  have e3 : add32 (read32 s.ram (q + 4)) (read32 s.ram (q + 16)) =
      read32 s.ram (q + 4) + read32 s.ram (q + 16) := add32_eq _ _ hw'
  simp (disch := omega) only [IsBlockViable, viableSpec, headerAt, loadBool_ok, load32_ok,
    ok_bind, sizeofSBlockHeader, e1, e2, e3]
  cases hf : (read8 s.ram (q + 8) != 0) with
  | false => rfl
  | true =>
    simp only [Bool.not_true, Bool.false_eq_true, if_false, Bool.true_and, gt_iff_lt]
    split
    · rename_i h
      rw [decide_eq_false (by omega)]
      rfl
    · rename_i h
      rw [decide_eq_true (by omega)]
      rfl

/-- On a chain without padding whose blocks start at multiples of four, the loop of
`FindFreeBlock` at the default alignment returns, and what it returns is the first fit of the
specification. -/
theorem FindLoop_Seg (s : CManagedHeap) (n E : Nat) (hn : n < 4294967296)
    (hE : E ≤ s.ramHi) (hhi : s.ramHi < 4294967296) :
    ∀ (bs : List (Nat × Bool)) (c fuel : Nat), bs ≠ [] → bs.length ≤ fuel →
      (∀ b ∈ bs.dropLast, b.1 % 4 = 0) → Seg s.ram E c bs → c + span bs = E →
      s.ramLo ≤ c → 0 < c → c % 4 = 0 →
      FindFreeBlockLoop s n 4 fuel c = .ok (firstFitSpec n c bs) := by
  intro bs
  induction bs with
  | nil =>
    intro c fuel hne
    exact absurd rfl hne
  | cons b bs ih =>
    intro c fuel _ hfuel hall hseg hsp hc hc0 h4
    obtain ⟨m, f⟩ := b
    obtain ⟨hb, hseg'⟩ := hseg
    obtain ⟨b1, b2, b3, b4, b5, b6, -, -⟩ := Block_fields _ _ _ _ _ hb
    simp only [span] at hsp b1 b2 b3 b4 b5 b6
    cases fuel with
    | zero => simp at hfuel
    | succ fuel =>
      have hv : IsBlockViable s c n 4 = .ok (f && decide (n ≤ m)) := by
        cases f with
        | true =>
          rw [IsBlockViable_free s c n m ⟨hc, by omega⟩ hhi hn h4 b4 b5 b3 b6]
          simp
        | false => exact IsBlockViable_alloc s c n 4 ⟨hc, by omega⟩ b4
      by_cases hfit : f = true ∧ n ≤ m
      · have e : (f && decide (n ≤ m)) = true := by simp [hfit.1, hfit.2]
        simp only [FindFreeBlockLoop, hv, e, ok_bind, if_true, firstFitSpec, hfit, and_self]
        rfl
      · have e : (f && decide (n ≤ m)) = false := by
          cases f <;> simp_all
        cases bs with
        | nil =>
          simp only [span] at hsp
          have b2' : read32 s.ram c = 0 := by rw [b2, if_pos (by omega)]
          simp (disch := omega) only [FindFreeBlockLoop, hv, e, ok_bind, Bool.false_eq_true,
            if_false, firstFitSpec, hfit, load32_ok, b2', bne_self_eq_false]
          rfl
        | cons b' bs' =>
          have hs' := Seg_le _ _ _ _ (by simp) hseg'
          have hpos : 28 ≤ span (b' :: bs') := by
            simp only [span]
            omega
          have b2' : read32 s.ram c = c + 28 + m := by rw [b2, if_neg (by omega)]
          have hnz : (c + 28 + m != 0) = true := by simp
          have hm4 : m % 4 = 0 := hall (m, f) (by simp [List.dropLast])
          simp (disch := omega) only [FindFreeBlockLoop, hv, e, ok_bind, Bool.false_eq_true,
            if_false, firstFitSpec, hfit, load32_ok, b2', hnz, if_true]
          exact ih (c + 28 + m) fuel (by simp) (by simpa using hfuel)
            (fun x hx => hall x (by
              rw [List.dropLast_cons_of_ne_nil (by simp)]
              exact List.mem_cons_of_mem _ hx))
            hseg' (by omega) (by omega) (by omega) (by omega)

theorem firstFitSpec_tail (n t : Nat) (hnt : n ≤ t) :
    ∀ (as : List (Nat × Bool)) (c : Nat), (∀ b ∈ as, b.2 = false) →
      firstFitSpec n c (as ++ [(t, true)]) = c + span as := by
  intro as
  induction as with
  | nil =>
    intro c _
    simp [firstFitSpec, span, hnt]
  | cons b as ih =>
    intro c hall
    have hb := hall b (by simp)
    rw [List.cons_append]
    simp only [firstFitSpec, hb, Bool.false_eq_true, false_and, if_false, span]
    rw [ih _ (fun x hx => hall x (List.mem_cons_of_mem _ hx))]
    omega

set_option maxRecDepth 100000 in
/-- C21. First fit fails when the required size wraps: on the fresh 1024-byte region the chain is
the single free block at 4096 with `m_uBlockSize + m_RightPadding = 996`. For
`Allocate(4294967284, 16)` the alignment delta computed at block address minus left padding plus
header size is 12, so the block is not viable in the words of the specification (`viableSpec`)
and no block of the chain is. `IsBlockViable` adds 12 and 4294967284 as `u32` values, compares 0
with 996 and answers true; `FindFreeBlock` returns the block and `Allocate` succeeds with pointer
4128 and status `Ok`. -/
theorem Allocate_from_unfit_block :
    endsWith freshHeap (fun s =>
      chainBlocks s.ram 10 s.m_pBlock == [4096] &&
      (headerAt s.ram 4096).m_bIsFreeBlock &&
      (headerAt s.ram 4096).m_uBlockSize + (headerAt s.ram 4096).m_RightPadding == 996 &&
      CalculateAlignmentDelta (4096 - (headerAt s.ram 4096).m_LeftPadding + 20) 16 == 12 &&
      !viableSpec s.ram 4096 4294967284 16 &&
      endsWith (IsBlockViable s 4096 4294967284 16) id &&
      endsWith (FindFreeBlock 10 s 4294967284 16) (fun r => r.2 == 4096) &&
      endsWith (Allocate 10 s 4294967284 16)
        (fun r => r.2 == 4128 && r.1.m_ELastHeapError == .EHeapError_Ok &&
          r.1.m_uNumAllocations == 1)) = true := by
  decide

/-! ### The fold at the buffer tail -/

/-- C22. The fold at the buffer tail does not succeed: take any state whose chain is a run of
allocated blocks without padding followed by one free block of `t` bytes, the last block (the
states reached by allocating out of a fresh region at the default alignment). A request whose
rounded size fits that block and leaves fewer than
`sizeof(SBlockHeader) + sizeof(SFooterBlock) + _PLATFORM_MIN_ALIGN` bytes is folded into
`m_RightPadding`, and `ManageFreeSpacePostAllocation` then writes `m_LeftPadding` through the
null `m_pSMemBlockNext`: `Allocate` leaves defined behaviour, it returns neither a pointer nor a
status. -/
theorem Allocate_tail_fold (fuel : Nat) (s : CManagedHeap) (as : List (Nat × Bool)) (t n : Nat)
    (h : AInv s as t) (hfuel : as.length < fuel) (hn0 : n ≠ 0) (hn : n < 4294967296)
    (hfit : roundedSize n ≤ t)
    (hfold : t - roundedSize n < sizeofSBlockHeader + sizeofSFooterBlock + PLATFORM_MIN_ALIGN) :
    Allocate fuel s n PLATFORM_MIN_ALIGN = .error .accessViolation := by
  obtain ⟨n', hn', hn4, hn32⟩ := round_facts n hn
  have hr : roundedSize n = n' := hn'
  rw [hr] at hfit hfold
  have hI := h.1
  obtain ⟨hlo, hbase, hE, hhi, hblk, hseg, hspan⟩ := hI
  have hall : ∀ b ∈ as, b.2 = false := fun b hb => (h.2.2.1 b hb).1
  have h4 : (s.m_pMemory + span as) % 4 = 0 := by
    have := span_mod4 as h.2.2.1
    have := h.2.1
    omega
  have hF := FindLoop_Seg { s with m_ELastHeapError := .EHeapError_Ok } n'
    (s.m_pMemory + s.m_uMemorySize) hn32 hE hhi (as ++ [(t, true)]) s.m_pMemory fuel (by simp)
    (by simpa using hfuel) (fun b hb => (h.2.2.1 b (by simpa using hb)).2) hseg (by rw [hspan])
    hbase (by omega) h.2.1
  rw [firstFitSpec_tail n' t hfit as _ hall, ← hblk] at hF
  have hfold' : t < n' + 32 := by
    simp only [sizeofSBlockHeader, sizeofSFooterBlock, PLATFORM_MIN_ALIGN] at hfold
    omega
  exact (Allocate_tail fuel s as t n n' h.1 h4 hn0 hn'
    (by rw [hblk] at hF ⊢; exact hF)).2 hfit hfold'

set_option maxRecDepth 100000 in
theorem Allocate_tail_fold_witness :
    Allocate 10 (stateOf freshHeap) (1024 - sizeofSBlockHeader - sizeofSFooterBlock)
      PLATFORM_MIN_ALIGN = .error .accessViolation :=
  Allocate_tail_fold 10 (stateOf freshHeap) [] 996 996
    (AInv_initial (newHeap 4096 5120) _ 4096 1024 rfl (by decide) (by decide) (by decide)
      (by decide) (by decide) (by decide) rfl).1
    (by decide) (by decide) (by decide) (by decide) (by decide)

/-! ### Counters and padding after `Deallocate` -/

set_option maxRecDepth 100000 in
/-- C23. The overhead of an absorbed block is not credited: on the fresh 1024-byte region with
two live blocks of 100 bytes (at 4096 and 4224) and the free block at 4352, `Deallocate` of the
second pointer succeeds and merges the block at 4224 forward with the free successor and with
nothing else (its predecessor is live, it has no left padding). `m_uNumAllocations` goes from 2 to
1 and `m_uFreeSpace` from 824 to 924, as described, but `m_uActualFreeSpace` goes from 740 to
840: it grows by the payload only, not by the payload plus
`sizeof(SBlockHeader) + sizeof(SFooterBlock)`. -/
theorem Deallocate_forward_merge_accounting :
    endsWith forwardMerge (fun r =>
      chainBlocks r.1.ram 10 r.1.m_pBlock == [4096, 4224, 4352] &&
      headerAt r.1.ram 4096 == ⟨4224, 100, false, 0, 0⟩ &&
      headerAt r.1.ram 4224 == ⟨4352, 100, false, 0, 0⟩ &&
      headerAt r.1.ram 4352 == ⟨0, 740, true, 0, 0⟩ &&
      r.2.m_ELastHeapError == .EHeapError_Ok &&
      chainBlocks r.2.ram 10 r.2.m_pBlock == [4096, 4224] &&
      headerAt r.2.ram 4224 == ⟨0, 868, true, 0, 0⟩ &&
      r.1.m_uNumAllocations == 2 && r.2.m_uNumAllocations == 1 &&
      r.1.m_uFreeSpace == 824 && r.2.m_uFreeSpace == 824 + 100 &&
      r.1.m_uActualFreeSpace == 740 && r.2.m_uActualFreeSpace == 740 + 100 &&
      r.2.m_uActualFreeSpace != 740 + 100 + (sizeofSBlockHeader + sizeofSFooterBlock)) =
      true := by
  decide

set_option maxRecDepth 100000 in
/-- C24. Left padding of 256 bytes or more is not reclaimed: on the fresh 1024-byte region at
4096, `Allocate(200, 512)` returns 4608 with the header at 4588 and `m_LeftPadding = 492`. The
`Deallocate` of that pointer succeeds and leaves a single free block, but it starts at 4352 with
payload 740: `MergeWithNearbyBlocks` moved the start back by `(u8)492 = 236` bytes only, so
`m_pBlock` is not the buffer start and the payload is not `1024 - 28 = 996`. With alignment 256
the padding is 236 and the same run ends with the single block at 4096 of payload 996. -/
theorem Deallocate_padding_not_reclaimed :
    endsWith (paddedRelease 512) (fun r =>
      r.1 == 4608 && r.2.1.m_ELastHeapError == .EHeapError_Ok &&
      r.2.1.m_pBlock == 4588 && (headerAt r.2.1.ram 4588).m_LeftPadding == 492 &&
      r.2.2.m_ELastHeapError == .EHeapError_Ok &&
      chainBlocks r.2.2.ram 10 r.2.2.m_pBlock == [4352] &&
      headerAt r.2.2.ram 4352 == ⟨0, 740, true, 0, 0⟩) = true ∧
    endsWith (paddedRelease 256) (fun r =>
      r.1 == 4352 && r.2.1.m_ELastHeapError == .EHeapError_Ok &&
      r.2.1.m_pBlock == 4332 && (headerAt r.2.1.ram 4332).m_LeftPadding == 236 &&
      r.2.2.m_ELastHeapError == .EHeapError_Ok &&
      chainBlocks r.2.2.ram 10 r.2.2.m_pBlock == [4096] &&
      headerAt r.2.2.ram 4096 == ⟨0, 996, true, 0, 0⟩) = true := by
  decide

set_option maxRecDepth 100000 in
/-- C25. A false corruption report: on the fresh 1024-byte region allocate four blocks of 100
bytes (pointers 4116, 4244, 4372, 4500), free the third, allocate 96 bytes (pointer 4372 again;
the 4 bytes left over are folded: `m_RightPadding = 4` at 4352 and `m_LeftPadding = 4` at 4480),
free the fourth block (status `Ok`; the merged free block is stamped at 4476 with
`m_LeftPadding = 0`, while the block at 4352 keeps `m_RightPadding = 4` and an intact footer).
Nothing was written outside the payloads, yet the `Deallocate` of the 96-byte block ends with
`OverwriteUnderrun`. -/
theorem Deallocate_false_underrun :
    endsWith foldThenFree (fun r =>
      r.1 == [4116, 4244, 4372, 4500, 4372] &&
      r.2.1.m_ELastHeapError == .EHeapError_Ok &&
      r.2.2.1.m_ELastHeapError == .EHeapError_Ok &&
      headerAt r.2.2.1.ram 4352 == ⟨4480, 96, false, 0, 4⟩ &&
      (headerAt r.2.2.1.ram 4480).m_LeftPadding == 4 &&
      r.2.2.2.1.m_ELastHeapError == .EHeapError_Ok &&
      headerAt r.2.2.2.1.ram 4352 == ⟨4476, 96, false, 0, 4⟩ &&
      footerAt r.2.2.2.1.ram 4468 == ⟨4352, 96⟩ &&
      headerAt r.2.2.2.1.ram 4476 == ⟨0, 616, true, 0, 0⟩ &&
      r.2.2.2.2.m_ELastHeapError == .EHeapState_Dealloc_OverwriteUnderrun) = true := by
  decide

/-! ### The chain invariants -/

theorem chainBlocks_Seg (ram : Nat → Nat) (E : Nat) :
    ∀ (bs : List (Nat × Bool)) (a fuel : Nat), bs ≠ [] → bs.length ≤ fuel → Seg ram E a bs →
      a + span bs = E → chainBlocks ram fuel a = starts a bs := by
  intro bs
  induction bs with
  | nil =>
    intro a fuel hne
    exact absurd rfl hne
  | cons b bs ih =>
    intro a fuel _ hfuel hseg hsp
    obtain ⟨hb, hseg'⟩ := hseg
    obtain ⟨b1, b2, -⟩ := Block_fields _ _ _ _ _ hb
    simp only [span] at hsp
    cases fuel with
    | zero => simp at hfuel
    | succ fuel =>
      cases bs with
      | nil =>
        simp only [span] at hsp
        have b2' : read32 ram a = 0 := by rw [b2, if_pos (by omega)]
        simp [chainBlocks, starts, b2']
      | cons b' bs' =>
        have hs' := Seg_le _ _ _ _ (by simp) hseg'
        have hpos : 28 ≤ span (b' :: bs') := by
          simp only [span]
          omega
        have b2' : read32 ram a = a + 28 + b.1 := by rw [b2, if_neg (by omega)]
        have hnz : (a + 28 + b.1 != 0) = true := by simp
        simp only [chainBlocks, b2', hnz, if_true, starts]
        rw [ih (a + 28 + b.1) fuel (by simp) (by simpa using hfuel) hseg' (by omega)]
        rfl

theorem starts_allocated (ram : Nat → Nat) (E : Nat) :
    ∀ (bs : List (Nat × Bool)) (a : Nat), Seg ram E a bs →
      ((starts a bs).filter (fun q => !(headerAt ram q).m_bIsFreeBlock)).length =
        (live a bs).length := by
  intro bs
  induction bs with
  | nil =>
    intro a _
    rfl
  | cons b bs ih =>
    intro a hseg
    obtain ⟨hb, hseg'⟩ := hseg
    have hf : (headerAt ram a).m_bIsFreeBlock = b.2 := congrArg SBlockHeader.m_bIsFreeBlock hb.2.1
    simp only [starts, live, List.filter_cons, hf]
    cases b.2 with
    | true => simpa using ih _ hseg'
    | false => simpa using ih _ hseg'

theorem deallocAll_DInv_part (ps : List Nat) :
    ∀ (s : CManagedHeap) (bs : List (Nat × Bool)) (rest : List Nat),
      DInv s bs (ps ++ rest) → Ends (deallocAll s ps) (fun s' =>
        s'.m_pMemory = s.m_pMemory ∧ s'.m_uMemorySize = s.m_uMemorySize ∧
        ∃ bs', DInv s' bs' rest) := by
  induction ps with
  | nil =>
    intro s bs rest h
    exact ⟨s, rfl, rfl, rfl, bs, h⟩
  | cons p ps ih =>
    intro s bs rest h
    obtain ⟨s1, e1, -, hm, hsz, bs1, h1⟩ := Deallocate_DInv s bs p (ps ++ rest) h
    obtain ⟨s2, e2, hm2, hsz2, bs2, h2⟩ := ih s1 bs1 rest h1
    refine ⟨s2, ?_, hm2.trans hm, hsz2.trans hsz, bs2, h2⟩
    simp only [deallocAll, e1]
    exact e2

theorem DInv_count (s : CManagedHeap) (bs : List (Nat × Bool)) (ps : List Nat) (k : Nat)
    (h : DInv s bs ps) (hk : bs.length ≤ k) :
    bs ≠ [] ∧ GetNumAllocs s = allocatedBlocks s k := by
  obtain ⟨hInv, -, hlast, hnd, hmem, hcnt, -⟩ := h
  obtain ⟨hlo, hbase, hE, hhi, hblk, hseg, hspan⟩ := hInv
  have hne : bs ≠ [] := by
    obtain ⟨l, m, rfl⟩ := hlast
    simp
  refine ⟨hne, ?_⟩
  have hperm : ps.Perm (live s.m_pMemory bs) :=
    (List.perm_ext_iff_of_nodup hnd (live_nodup _ _)).2 hmem
  have hlen := live_length s.m_pMemory bs
  unfold GetNumAllocs allocatedBlocks
  rw [hblk, chainBlocks_Seg s.ram _ bs _ k hne hk hseg (by rw [hspan]),
    starts_allocated s.ram _ bs _ hseg, hcnt, hperm.length_eq]
  exact Nat.mod_eq_of_lt (by omega)

/-- The chain invariants hold in every state of a round trip at the default alignment: after the
allocations and the deallocation of any part `order` of the returned pointers (`rest` are the
pointers still live), the memory holds a chain `bs` without padding in which no two neighbouring
blocks are free and whose last block is free, and `GetNumAllocs` is the number of blocks of the
chain that are not free. -/
theorem roundTrip_invariants (fuel : Nat) (s : CManagedHeap) (base total : Nat)
    (sizes order rest : List Nat)
    (hfresh : s.m_pMemory = 0) (halign : base % 4 = 0) (hsize : 28 ≤ total)
    (hlo : 20 ≤ s.ramLo) (hb : s.ramLo ≤ base) (hE : base + total ≤ s.ramHi)
    (hhi : s.ramHi < 4294967296) (hsizes : ∀ n ∈ sizes, n < 4294967296)
    (hok : endsWith (allocated fuel s base total sizes)
      (fun r => r.2.all (· != 0) && decide ((order ++ rest).Perm r.2)) = true) :
    Ends (roundTrip fuel s base total sizes order) (fun s' =>
      ∃ bs, Inv s' bs ∧ NoAdj bs ∧ lastFree bs ∧
        ∀ k, bs.length ≤ k → GetNumAllocs s' = allocatedBlocks s' k) := by
  unfold roundTrip
  cases hr : allocated fuel s base total sizes with
  | error e =>
    rw [hr] at hok
    cases hok
  | ok r =>
    obtain ⟨s2, ps⟩ := r
    rw [hr] at hok
    simp only [endsWith, Bool.and_eq_true, List.all_eq_true, bne_iff_ne, ne_eq,
      decide_eq_true_eq] at hok
    obtain ⟨hps, hperm⟩ := hok
    unfold allocated at hr
    obtain ⟨s1, h1, h2⟩ := bind_ok_elim hr
    obtain ⟨hA, f1, f2⟩ := AInv_initial s s1 base total hfresh halign hsize hlo hb hE hhi h1
    obtain ⟨as', t', hA', hl, g1, g2⟩ := allocAll_AInv fuel sizes s1 s2 [] _ ps hA hsizes h2 hps
    simp only [List.nil_append, span, Nat.add_zero] at hA' hl
    have hD := DInv_of_AInv s2 as' t' (order ++ rest) hA' (by rw [g1, hl]; exact hperm)
    obtain ⟨s3, e3, -, -, bs, hD3⟩ := deallocAll_DInv_part order s2 _ rest hD
    refine ⟨s3, ?_, bs, hD3.1, hD3.2.1, hD3.2.2.1, fun k hk => (DInv_count s3 bs rest k hD3 hk).2⟩
    simp only [ok_bind]
    exact e3

set_option maxRecDepth 100000 in
theorem roundTrip_invariants_witness :
    Ends (roundTrip 10 (newHeap 4096 5120) 4096 1024 [100, 100, 100] [4244])
      (fun s' => ∃ bs, Inv s' bs ∧ NoAdj bs ∧ lastFree bs ∧
        ∀ k, bs.length ≤ k → GetNumAllocs s' = allocatedBlocks s' k) :=
  roundTrip_invariants 10 (newHeap 4096 5120) 4096 1024 [100, 100, 100] [4244] [4116, 4372]
    rfl (by decide) (by decide) (by decide) (by decide) (by decide) (by decide) (by decide)
    (by decide)

set_option maxRecDepth 100000 in
/-- C26. The allocation count leaves the chain: on a zeroed 4096-byte region at 4096,
`Allocate(100, 4)` returns 4116 and `Allocate(100, 512)` returns 4608 (364 bytes of left
padding). `Deallocate(4608)` succeeds; the merge moves the start back by `(u8)364 = 108` bytes
only, so the free block is stamped at 4480 and the footer slot before it holds zero bytes. The
next `Allocate(100, 4)` therefore takes the free block for the first block, places the header at
the buffer start and returns 4116 again, with status `Ok`: `GetNumAllocs` is 2, while the chain
from `m_pBlock` is the live block at 4096 followed by the free block at 4224, one block that is
not free. -/
theorem NumAllocs_exceeds_chain :
    endsWith reusedPointer (fun r =>
      r.1 == [4116, 4608, 4116] &&
      r.2.1.m_ELastHeapError == .EHeapError_Ok &&
      r.2.2.m_ELastHeapError == .EHeapError_Ok &&
      GetNumAllocs r.2.2 == 2 &&
      chainBlocks r.2.2.ram 10 r.2.2.m_pBlock == [4096, 4224] &&
      headerAt r.2.2.ram 4096 == ⟨4224, 100, false, 0, 0⟩ &&
      headerAt r.2.2.ram 4224 == ⟨0, 3940, true, 0, 0⟩ &&
      allocatedBlocks r.2.2 10 == 1) = true := by
  decide

set_option maxRecDepth 100000 in
/-- C27. A live last block after two successful calls: on the fresh 1024-byte region at 4096 the
chain is the free block at 4096 (flag byte 1). `Allocate(4294967252, 64)` returns 4160 with status
`Ok`: 44 bytes of padding plus the size wrap to 0 in `IsBlockViable`, the header goes to 4140 and
the remainder is stamped as a free block at 4140 + 28 + size modulo `2 ^ 32`, that is at 4124, so
that its `m_RightPadding` field is the `m_pSMemBlockNext` field of the block at 4140; the chain is
the block at 4140 (flag byte 0) followed by the block at 4124 (flag byte 1).
`Allocate(100, 4)` then returns 4144 with status `Ok`; it takes the block at 4124 and its last
store, `m_RightPadding = 0`, clears the successor link of the block at 4140. `GetNumAllocs` is 2
and the chain from `m_pBlock` is the single block at 4140, whose flag byte is 0: the last block
of the chain is not free. -/
theorem Allocate_leaves_live_last_block :
    endsWith liveLastBlock (fun r =>
      r.1 == [4160, 4144] &&
      read8 r.2.1.ram (4096 + 8) == 1 &&
      r.2.2.1.m_ELastHeapError == .EHeapError_Ok &&
      chainBlocks r.2.2.1.ram 10 r.2.2.1.m_pBlock == [4140, 4124] &&
      read8 r.2.2.1.ram (4140 + 8) == 0 && read8 r.2.2.1.ram (4124 + 8) == 1 &&
      r.2.2.2.m_ELastHeapError == .EHeapError_Ok && GetNumAllocs r.2.2.2 == 2 &&
      r.2.2.2.m_pBlock == 4140 &&
      chainBlocks r.2.2.2.ram 10 r.2.2.2.m_pBlock == [4140] &&
      read8 r.2.2.2.ram (4140 + 8) == 0 &&
      headerAt r.2.2.2.ram 4140 == ⟨0, 4294967252, false, 44, 0⟩) = true := by
  decide

/-! ### Overrun on a heap with padding -/

set_option maxRecDepth 100000 in
/-- With only the buffer addressable, the backward merge of `Deallocate` can read in front of the
buffer: after `Allocate(100, 4)`, `Allocate(100, 512)`, `Deallocate` of the second pointer and
`Allocate(100, 64)` (pointers 4116, 4608, 4160, every status `Ok`) the head of the chain is the
block at 4140, the block at 4096 is still live, and `Deallocate(4116)` after a one-byte overrun
calls `GetPreviousHeader` on the block at 4096, which reads the footer slot at 4088. -/
theorem Deallocate_reads_before_buffer :
    endsWith overrunBeforeBuffer (fun r =>
      r.1 == [4116, 4608, 4160] &&
      r.2.1.m_ELastHeapError == .EHeapError_Ok &&
      r.2.2.1.m_ELastHeapError == .EHeapError_Ok && GetNumAllocs r.2.2.1 == 2 &&
      r.2.2.1.m_pBlock == 4140 &&
      read8 r.2.2.1.ram (4096 + 8) == 0 && (headerAt r.2.2.1.ram 4096).m_uBlockSize == 100 &&
      (footerAt r.2.2.1.ram (4116 + 100)).m_pMatchingHeader != 4096 &&
      faults r.2.2.2) = true := by
  decide

set_option maxRecDepth 100000 in
/-- C9. Overrun detection does not proceed on a heap with padding: on a zeroed 4096-byte region
at 4096 allocate two blocks of 100 bytes (4116, 4244), free the second (the freed payload is
filled with the byte `'0'`), then `Allocate(100, 512)` (4608, 364 bytes of left padding) and
`Allocate(100, 4)` (4736), and free the 512-aligned block; every call ends with status `Ok`. The
merge moved the start back by `(u8)364 = 108` bytes only, so the free block at 4480 has
`m_LeftPadding = 0` and the footer slot in front of it, at 4472, holds `0x30303030`. The block at
4716 is live (flag byte 0, payload 100); one byte written past its payload changes its footer
back reference, which no longer equals 4716. `Deallocate(4736)` does not end with
`OverwriteOverrun`: the backward merge takes the free block at 4480, `GetPreviousHeader` of that
block returns `0x30303030`, and `MergeWithNearbyBlocks` stores the new block's address through
that pointer. The run leaves defined behaviour whether only the buffer or all of `[20, 65536)`
is addressable. -/
theorem Deallocate_overrun_faults :
    endsWith (overrunAfterGap 4096 8192) (fun r =>
      r.1 == [4116, 4244, 4608, 4736] &&
      r.2.1.m_ELastHeapError == .EHeapError_Ok &&
      r.2.2.1.m_ELastHeapError == .EHeapError_Ok &&
      GetNumAllocs r.2.2.2.1 == 2 &&
      chainBlocks r.2.2.2.1.ram 10 r.2.2.2.1.m_pBlock == [4096, 4480, 4716, 4844] &&
      read8 r.2.2.2.1.ram (4716 + 8) == 0 &&
      (headerAt r.2.2.2.1.ram 4716).m_uBlockSize == 100 &&
      (footerAt r.2.2.2.1.ram (4736 + 100)).m_pMatchingHeader != 4716 &&
      read8 r.2.2.2.1.ram (4844 + 8) == 1 && read8 r.2.2.2.1.ram (4480 + 8) == 1 &&
      (headerAt r.2.2.2.1.ram 4480).m_LeftPadding == 0 &&
      read32 r.2.2.2.1.ram (4480 - 8) == 808464432 &&
      faults r.2.2.2.2) = true ∧
    endsWith (overrunAfterGap 20 65536) (fun r =>
      r.1 == [4116, 4244, 4608, 4736] &&
      r.2.1.m_ELastHeapError == .EHeapError_Ok &&
      r.2.2.1.m_ELastHeapError == .EHeapError_Ok &&
      GetNumAllocs r.2.2.2.1 == 2 &&
      chainBlocks r.2.2.2.1.ram 10 r.2.2.2.1.m_pBlock == [4096, 4480, 4716, 4844] &&
      read8 r.2.2.2.1.ram (4716 + 8) == 0 &&
      (headerAt r.2.2.2.1.ram 4716).m_uBlockSize == 100 &&
      (footerAt r.2.2.2.1.ram (4736 + 100)).m_pMatchingHeader != 4716 &&
      read8 r.2.2.2.1.ram (4844 + 8) == 1 && read8 r.2.2.2.1.ram (4480 + 8) == 1 &&
      (headerAt r.2.2.2.1.ram 4480).m_LeftPadding == 0 &&
      read32 r.2.2.2.1.ram (4480 - 8) == 808464432 &&
      faults r.2.2.2.2) = true := by
  decide

end MemoryManager
